import Mathlib

/-!
# code_saturne: gradient limiter and cellwise CDO face-based system

Shallow embedding of
* `clmgrd` (`src/base/cs_gradient.c`): the gradient limiter, and the reduction of its
  counters over the ranks,
* parts of `src/cdo/cs_cdofb_vecteq.c`: the cellwise builder of the vector-valued
  CDO face-based scheme and its static condensation, the set-up of the scheme
  (`cs_cdofb_vecteq_init_context`), the build steps of the cellwise system (diffusion,
  advection, reaction, time term, theta scheme), the two passes on the boundary
  conditions and the main loop on cells of the three ways to build the linear system,
  and the checkpoint and restart of the face values,
* `cgrdmc` (`src/base/cs_gradient.c`): the wrapper of the least-squares gradient, with
  the engine `gradmc` that it calls,
* parts of `src/base/cs_post_util.c`, `src/base/cs_suite.c` and
  `src/base/cs_medcoupling_remapper.cxx`: the pressure at the boundary faces, the
  invariants of the anisotropy tensor, the handles and the sections of the restart files,
  and the search of the time steps of a remapper.

Conventions of the embedding:
* `cs_real_t` is `ℚ`: every double is a rational, the arithmetic is exact (no rounding).
  The quotient `a / b` is Lean's total division; every divisor that the limiter uses is
  recorded in a ghost list so that a zero divisor can be spoken about.
* `cs_int_t` counters and indices are `Nat`, the signed option flags are `Int`.
* a C array is a total function `Nat → _` of the 0-based index.
* a call of `bft_error`, which aborts the run, is the value `none` of an `Option`.
* a function that is not in the sources is a parameter of the model.
-/

namespace CS

/-! ## Data model of the limiter -/

/-- A dense array of reals, one entry per (ghosted) cell. -/
abbrev Buf := Nat → ℚ

/-- Largest finite double, `DBL_MAX` of `<float.h>`: `(2^53 - 1) * 2^971`. -/
def DBL_MAX : ℚ := (2 ^ 53 - 1) * 2 ^ 971

/-- Halo types of `cs_halo.h`. -/
inductive cs_halo_type_t where
  | CS_HALO_STANDARD
  | CS_HALO_EXTENDED
  deriving DecidableEq, Repr

/-- The halo exchange service (`cs_halo.h`, `cs_perio.h`; not part of the sources):
its three entry points used by `clmgrd` are parameters of the model.
The rotation mode of `cs_halo_sync_component` is always `CS_HALO_ROTATION_IGNORE`
and that of `cs_perio_sync_var_vect` always `CS_PERIO_ROTA_COPY` in `clmgrd`. -/
structure cs_halo_t where
  /-- Stands for `cs_halo_sync_component(halo, type, CS_HALO_ROTATION_IGNORE, buf)` -/
  sync_component : cs_halo_type_t → Buf → Buf
  /-- Stands for `cs_halo_sync_var(halo, type, buf)` -/
  sync_var : cs_halo_type_t → Buf → Buf
  /-- Stands for `cs_perio_sync_var_vect(halo, type, CS_PERIO_ROTA_COPY, x, y, z)` -/
  perio_sync_var_vect : cs_halo_type_t → Buf × Buf × Buf → Buf × Buf × Buf

/-- The fields of `cs_mesh_t` read by `clmgrd`.  `i_face_cells` (interior face -> cells)
and `cell_cells_lst` hold 1-based cell numbers, `cell_cells_idx` 1-based positions;
`cell_cells_idx` and `halo` may be `NULL`. -/
structure cs_mesh_t where
  n_cells : Nat
  n_cells_with_ghosts : Nat
  n_i_faces : Nat
  i_face_cells : Nat → Nat
  cell_cells_idx : Option (Nat → Nat)
  cell_cells_lst : Nat → Nat
  halo : Option cs_halo_t
  n_domains : Nat

/-- The working buffers `denum` and `denom` of `clmgrd`. -/
structure Work where
  denum : Buf
  denom : Buf

/-- First cell `i1 = mesh->i_face_cells[2*i] - 1` of interior face `i`. -/
def face_i1 (mesh : cs_mesh_t) (i : Nat) : Nat := mesh.i_face_cells (2 * i) - 1

/-- Second cell `i2 = mesh->i_face_cells[2*i + 1] - 1` of interior face `i`. -/
def face_i2 (mesh : cs_mesh_t) (i : Nat) : Nat := mesh.i_face_cells (2 * i + 1) - 1

/-- The vector `dist[j] = cell_cen[3*i1 + j] - cell_cen[3*i2 + j]`. -/
def cen_diff (cell_cen : Buf) (i1 i2 j : Nat) : ℚ :=
  cell_cen (3 * i1 + j) - cell_cen (3 * i2 + j)

/-- The product `dist[0]*gx + dist[1]*gy + dist[2]*gz` for `dist` between cells `i1`, `i2`. -/
def dist_dot (cell_cen : Buf) (i1 i2 : Nat) (gx gy gz : ℚ) : ℚ :=
  cen_diff cell_cen i1 i2 0 * gx + cen_diff cell_cen i1 i2 1 * gy
    + cen_diff cell_cen i1 i2 2 * gz

/-- `halo_type`: extended when `*imrgra == 2 || *imrgra == 3`. -/
def halo_type_of (imrgra : Int) : cs_halo_type_t :=
  if imrgra = 2 ∨ imrgra = 3 then cs_halo_type_t.CS_HALO_EXTENDED
  else cs_halo_type_t.CS_HALO_STANDARD

/-- The positions `j = cell_cells_idx[i1] - 1, ..., cell_cells_idx[i1+1] - 2` visited by the
inner loop of the extended neighbourhood. -/
def ext_range (idx : Nat → Nat) (i1 : Nat) : List Nat :=
  List.range' (idx i1 - 1) ((idx (i1 + 1) - 1) - (idx i1 - 1))

/-! ### Mode 0: first computations -/

/-- Body of the loop on interior faces, `imligp == 0` (lines 356-374). -/
def faces_step_0 (mesh : cs_mesh_t) (cell_cen var dpdx dpdy dpdz : Buf)
    (w : Work) (i : Nat) : Work :=
  let i1 := face_i1 mesh i
  let i2 := face_i2 mesh i
  let dist1 := |dist_dot cell_cen i1 i2 (dpdx i1) (dpdy i1) (dpdz i1)|
  let dist2 := |dist_dot cell_cen i1 i2 (dpdx i2) (dpdy i2) (dpdz i2)|
  let dvar := |var i1 - var i2|
  let denum1 := Function.update w.denum i1 (max (w.denum i1) dist1)
  let denum2 := Function.update denum1 i2 (max (denum1 i2) dist2)
  let denom1 := Function.update w.denom i1 (max (w.denom i1) dvar)
  let denom2 := Function.update denom1 i2 (max (denom1 i2) dvar)
  { denum := denum2, denom := denom2 }

/-- Body of the inner loop of the extended neighbourhood, `imligp == 0` (lines 383-394). -/
def ext_inner_0 (mesh : cs_mesh_t) (cell_cen var dpdx dpdy dpdz : Buf) (i1 : Nat)
    (w : Work) (j : Nat) : Work :=
  let i2 := mesh.cell_cells_lst j - 1
  let dist1 := |dist_dot cell_cen i1 i2 (dpdx i1) (dpdy i1) (dpdz i1)|
  let dvar := |var i1 - var i2|
  { denum := Function.update w.denum i1 (max (w.denum i1) dist1),
    denom := Function.update w.denom i1 (max (w.denom i1) dvar) }

/-- The extended neighbourhood complement, `imligp == 0` (lines 378-399). -/
def ext_loop_0 (mesh : cs_mesh_t) (cell_cen : Buf) (imrgra : Int)
    (var dpdx dpdy dpdz : Buf) (w : Work) : Work :=
  match mesh.cell_cells_idx with
  | some idx =>
    if halo_type_of imrgra = cs_halo_type_t.CS_HALO_EXTENDED then
      (List.range mesh.n_cells).foldl
        (fun w i1 => (ext_range idx i1).foldl
          (ext_inner_0 mesh cell_cen var dpdx dpdy dpdz i1) w) w
    else w
  | none => w

/-- The buffers after the loop `denum[i] = 0; denom[i] = 0` on `i < n_cells_wghosts`
(lines 345-348); `buf` is the content of the memory returned by `BFT_MALLOC`. -/
def work_zero (mesh : cs_mesh_t) (buf : Work) : Work :=
  { denum := fun i => if i < mesh.n_cells_with_ghosts then 0 else buf.denum i,
    denom := fun i => if i < mesh.n_cells_with_ghosts then 0 else buf.denom i }

/-- First computations of mode 0 (lines 354-401). -/
def first_0 (mesh : cs_mesh_t) (cell_cen : Buf) (buf : Work) (imrgra : Int)
    (var dpdx dpdy dpdz : Buf) : Work :=
  ext_loop_0 mesh cell_cen imrgra var dpdx dpdy dpdz
    ((List.range mesh.n_i_faces).foldl
      (faces_step_0 mesh cell_cen var dpdx dpdy dpdz) (work_zero mesh buf))

/-! ### Mode 1: first computations -/

/-- Body of the loop on interior faces, `imligp == 1` (lines 404-424). -/
def faces_step_1 (mesh : cs_mesh_t) (cell_cen var dpdx dpdy dpdz : Buf)
    (w : Work) (i : Nat) : Work :=
  let i1 := face_i1 mesh i
  let i2 := face_i2 mesh i
  let dpdxf := (1 / 2 : ℚ) * (dpdx i1 + dpdx i2)
  let dpdyf := (1 / 2 : ℚ) * (dpdy i1 + dpdy i2)
  let dpdzf := (1 / 2 : ℚ) * (dpdz i1 + dpdz i2)
  let dist1 := |dist_dot cell_cen i1 i2 dpdxf dpdyf dpdzf|
  let dvar := |var i1 - var i2|
  let denum1 := Function.update w.denum i1 (max (w.denum i1) dist1)
  let denum2 := Function.update denum1 i2 (max (denum1 i2) dist1)
  let denom1 := Function.update w.denom i1 (max (w.denom i1) dvar)
  let denom2 := Function.update denom1 i2 (max (denom1 i2) dvar)
  { denum := denum2, denom := denom2 }

/-- Body of the inner loop of the extended neighbourhood, `imligp == 1` (lines 433-446). -/
def ext_inner_1 (mesh : cs_mesh_t) (cell_cen var dpdx dpdy dpdz : Buf) (i1 : Nat)
    (w : Work) (j : Nat) : Work :=
  let i2 := mesh.cell_cells_lst j - 1
  let dpdxf := (1 / 2 : ℚ) * (dpdx i1 + dpdx i2)
  let dpdyf := (1 / 2 : ℚ) * (dpdy i1 + dpdy i2)
  let dpdzf := (1 / 2 : ℚ) * (dpdz i1 + dpdz i2)
  let dist1 := |dist_dot cell_cen i1 i2 dpdxf dpdyf dpdzf|
  let dvar := |var i1 - var i2|
  { denum := Function.update w.denum i1 (max (w.denum i1) dist1),
    denom := Function.update w.denom i1 (max (w.denom i1) dvar) }

/-- The extended neighbourhood complement, `imligp == 1` (lines 428-451). -/
def ext_loop_1 (mesh : cs_mesh_t) (cell_cen : Buf) (imrgra : Int)
    (var dpdx dpdy dpdz : Buf) (w : Work) : Work :=
  match mesh.cell_cells_idx with
  | some idx =>
    if halo_type_of imrgra = cs_halo_type_t.CS_HALO_EXTENDED then
      (List.range mesh.n_cells).foldl
        (fun w i1 => (ext_range idx i1).foldl
          (ext_inner_1 mesh cell_cen var dpdx dpdy dpdz i1) w) w
    else w
  | none => w

/-- First computations of mode 1 (lines 402-453). -/
def first_1 (mesh : cs_mesh_t) (cell_cen : Buf) (buf : Work) (imrgra : Int)
    (var dpdx dpdy dpdz : Buf) : Work :=
  ext_loop_1 mesh cell_cen imrgra var dpdx dpdy dpdz
    ((List.range mesh.n_i_faces).foldl
      (faces_step_1 mesh cell_cen var dpdx dpdy dpdz) (work_zero mesh buf))

/-! ### Mode 0: clipping -/

/-- The variables written by the clipping loops.  `clip_factor` is the array of mode 1;
in mode 0, where the C function has no such array, it is a ghost variable that records
`factor1` for the clipped cells (and 1 for the others).  `divisors` is a ghost variable:
the divisor of every quotient evaluated, in the order of evaluation. -/
structure Clip where
  dpdx : Buf
  dpdy : Buf
  dpdz : Buf
  min_factor : ℚ
  max_factor : ℚ
  n_clip : Nat
  clip_factor : Buf
  divisors : List ℚ

/-- Body of the loop on cells, `imligp == 0` (lines 459-474). -/
def clip_step_0 (climgp : ℚ) (w : Work) (s : Clip) (i : Nat) : Clip :=
  if w.denum i > climgp * w.denom i then
    let factor1 := climgp * w.denom i / w.denum i
    { dpdx := Function.update s.dpdx i (s.dpdx i * factor1),
      dpdy := Function.update s.dpdy i (s.dpdy i * factor1),
      dpdz := Function.update s.dpdz i (s.dpdz i * factor1),
      min_factor := min factor1 s.min_factor,
      max_factor := max factor1 s.max_factor,
      n_clip := s.n_clip + 1,
      clip_factor := Function.update s.clip_factor i factor1,
      divisors := s.divisors ++ [w.denum i] }
  else s

/-- State at the entry of the clipping: `n_clip = 0`, `min_factor = 1`, `max_factor = 0`
(lines 281-283). -/
def clip_init (dpdx dpdy dpdz : Buf) : Clip :=
  { dpdx := dpdx, dpdy := dpdy, dpdz := dpdz, min_factor := 1, max_factor := 0,
    n_clip := 0, clip_factor := fun _ => 1, divisors := [] }

/-- Clipping of mode 0 (lines 457-476). -/
def clip_0 (mesh : cs_mesh_t) (climgp : ℚ) (w : Work) (dpdx dpdy dpdz : Buf) : Clip :=
  (List.range mesh.n_cells).foldl (clip_step_0 climgp w) (clip_init dpdx dpdy dpdz)

/-! ### Mode 1: clipping -/

/-- The statement `factor = 1.0; if (denum[k] > *climgp * denom[k])
factor = *climgp * denom[k]/denum[k];` (lines 501-507 and 527-530). -/
def gated_factor (climgp : ℚ) (w : Work) (k : Nat) : ℚ :=
  if w.denum k > climgp * w.denom k then climgp * w.denom k / w.denum k else 1

/-- The divisor of the quotient evaluated by `gated_factor`, if any. -/
def gated_divisor (climgp : ℚ) (w : Work) (k : Nat) : List ℚ :=
  if w.denum k > climgp * w.denom k then [w.denum k] else []

/-- Body of the loop on interior faces of the clipping, `imligp == 1` (lines 496-514).
The variable `min_factor` of the function is overwritten by each face. -/
def clip_faces_step_1 (mesh : cs_mesh_t) (climgp : ℚ) (w : Work) (s : Clip) (i : Nat) :
    Clip :=
  let i1 := face_i1 mesh i
  let i2 := face_i2 mesh i
  let factor1 := gated_factor climgp w i1
  let factor2 := gated_factor climgp w i2
  let min_factor := min factor1 factor2
  let cf1 := Function.update s.clip_factor i1 (min (s.clip_factor i1) min_factor)
  let cf2 := Function.update cf1 i2 (min (cf1 i2) min_factor)
  { s with
    min_factor := min_factor,
    clip_factor := cf2,
    divisors := s.divisors ++ gated_divisor climgp w i1 ++ gated_divisor climgp w i2 }

/-- Body of the inner loop of the extended neighbourhood of the clipping (lines 526-532):
the state is `factor1` and the ghost list of divisors. -/
def clip_ext_inner_1 (mesh : cs_mesh_t) (climgp : ℚ) (w : Work) (a : ℚ × List ℚ) (j : Nat) :
    ℚ × List ℚ :=
  let i2 := mesh.cell_cells_lst j - 1
  let factor2 := gated_factor climgp w i2
  (min a.1 factor2, a.2 ++ gated_divisor climgp w i2)

/-- Body of the loop on cells of the extended neighbourhood of the clipping
(lines 520-538). -/
def clip_ext_step_1 (mesh : cs_mesh_t) (idx : Nat → Nat) (climgp : ℚ) (w : Work)
    (s : Clip) (i1 : Nat) : Clip :=
  let a := (ext_range idx i1).foldl (clip_ext_inner_1 mesh climgp w) (1, s.divisors)
  { s with
    clip_factor := Function.update s.clip_factor i1 (min (s.clip_factor i1) a.1),
    divisors := a.2 }

/-- The extended neighbourhood complement of the clipping (lines 518-540). -/
def clip_ext_loop_1 (mesh : cs_mesh_t) (imrgra : Int) (climgp : ℚ) (w : Work) (s : Clip) :
    Clip :=
  match mesh.cell_cells_idx with
  | some idx =>
    if halo_type_of imrgra = cs_halo_type_t.CS_HALO_EXTENDED then
      (List.range mesh.n_cells).foldl (clip_ext_step_1 mesh idx climgp w) s
    else s
  | none => s

/-- Body of the last loop on cells, `imligp == 1` (lines 542-556); `0.99` is `99/100`. -/
def clip_apply_step_1 (s : Clip) (i : Nat) : Clip :=
  let s1 : Clip :=
    { s with
      dpdx := Function.update s.dpdx i (s.dpdx i * s.clip_factor i),
      dpdy := Function.update s.dpdy i (s.dpdy i * s.clip_factor i),
      dpdz := Function.update s.dpdz i (s.dpdz i * s.clip_factor i) }
  if s.clip_factor i < 99 / 100 then
    { s1 with
      max_factor := max s.max_factor (s.clip_factor i),
      min_factor := min s.min_factor (s.clip_factor i),
      n_clip := s.n_clip + 1 }
  else s1

/-- The array `clip_factor` after `clip_factor[i] = (cs_real_t)DBL_MAX` on
`i < n_cells_wghosts` (lines 479-480); `cf` is the content of the allocated memory. -/
def clip_factor_init (mesh : cs_mesh_t) (cf : Buf) : Buf :=
  fun i => if i < mesh.n_cells_with_ghosts then DBL_MAX else cf i

/-- Clipping of mode 1 after the synchronisation of `denum` and `denom`
(lines 479-480 and 496-556). -/
def clip_1 (mesh : cs_mesh_t) (imrgra : Int) (climgp : ℚ) (w : Work) (cf : Buf)
    (dpdx dpdy dpdz : Buf) : Clip :=
  let s0 : Clip := { clip_init dpdx dpdy dpdz with clip_factor := clip_factor_init mesh cf }
  let s1 := (List.range mesh.n_i_faces).foldl (clip_faces_step_1 mesh climgp w) s0
  let s2 := clip_ext_loop_1 mesh imrgra climgp w s1
  (List.range mesh.n_cells).foldl clip_apply_step_1 s2

/-! ### The function `clmgrd` -/

/-- Synchronisation of a scalar buffer: `cs_halo_sync_component` with rotation ignored
when `*itenso == 2`, `cs_halo_sync_var` otherwise (lines 486-493); nothing without halo. -/
def sync_scalar (mesh : cs_mesh_t) (imrgra itenso : Int) (b : Buf) : Buf :=
  match mesh.halo with
  | some halo =>
    if itenso = 2 then halo.sync_component (halo_type_of imrgra) b
    else halo.sync_var (halo_type_of imrgra) b
  | none => b

/-- Synchronisation of the gradient (lines 315-326 and 606-626): three calls of
`cs_halo_sync_component` when `*itenso == 2`, otherwise three calls of `cs_halo_sync_var`
followed by `cs_perio_sync_var_vect`; nothing without halo. -/
def sync_grad (mesh : cs_mesh_t) (imrgra itenso : Int) (g : Buf × Buf × Buf) :
    Buf × Buf × Buf :=
  match mesh.halo with
  | some halo =>
    if itenso = 2 then
      (halo.sync_component (halo_type_of imrgra) g.1,
       halo.sync_component (halo_type_of imrgra) g.2.1,
       halo.sync_component (halo_type_of imrgra) g.2.2)
    else
      halo.perio_sync_var_vect (halo_type_of imrgra)
        (halo.sync_var (halo_type_of imrgra) g.1,
         halo.sync_var (halo_type_of imrgra) g.2.1,
         halo.sync_var (halo_type_of imrgra) g.2.2)
  | none => g

/-- Synchronisation of the variable (line 309): `cs_halo_sync_component` with rotation
ignored, whatever `itenso`; nothing without halo. -/
def sync_field (mesh : cs_mesh_t) (imrgra : Int) (var : Buf) : Buf :=
  match mesh.halo with
  | some halo => halo.sync_component (halo_type_of imrgra) var
  | none => var

/-- Number of calls of the halo service made by `sync_grad`. -/
def sync_grad_calls (mesh : cs_mesh_t) (itenso : Int) : Nat :=
  match mesh.halo with
  | some _ => if itenso = 2 then 3 else 4
  | none => 0

/-- Number of calls of the halo service made by one scalar synchronisation. -/
def sync_scalar_calls (mesh : cs_mesh_t) : Nat :=
  match mesh.halo with
  | some _ => 1
  | none => 0

/-- What `clmgrd` leaves behind: the four arrays it may write, the values of `n_clip`,
`min_factor`, `max_factor` of the rank before the reduction over the ranks (lines 560-593,
which this function does not include), and the ghost variables `clip_factor`, `divisors`
(see `Clip`) and `n_sync`, the number of calls of the halo service. -/
structure Result where
  var : Buf
  dpdx : Buf
  dpdy : Buf
  dpdz : Buf
  n_clip : Nat
  min_factor : ℚ
  max_factor : ℚ
  clip_factor : Buf
  divisors : List ℚ
  n_sync : Nat

/-- The function `clmgrd` (lines 265-632).  `buf` and `cf` are the contents of the
memory returned by `BFT_MALLOC` for `denum`, `denom` and for `clip_factor`.  The reduction
of `n_clip`, `min_factor`, `max_factor` over the ranks (lines 560-593) and the message
printed when `*iwarnp > 1` (lines 597-600) come after every write to the arrays and are
not part of this function, which therefore has no argument `iwarnp`. -/
def clmgrd (mesh : cs_mesh_t) (cell_cen : Buf) (buf : Work) (cf : Buf)
    (imrgra imligp itenso : Int) (climgp : ℚ) (var dpdx dpdy dpdz : Buf) : Result :=
  if imligp < 0 then
    { var := var, dpdx := dpdx, dpdy := dpdy, dpdz := dpdz, n_clip := 0, min_factor := 1,
      max_factor := 0, clip_factor := fun _ => 1, divisors := [], n_sync := 0 }
  else
    -- Synchronize variable (lines 307-330)
    let var1 := sync_field mesh imrgra var
    let g1 := if imligp = 1 then sync_grad mesh imrgra itenso (dpdx, dpdy, dpdz)
              else (dpdx, dpdy, dpdz)
    let n1 := sync_scalar_calls mesh + (if imligp = 1 then sync_grad_calls mesh itenso else 0)
    if imligp = 0 then
      let w := first_0 mesh cell_cen buf imrgra var1 g1.1 g1.2.1 g1.2.2
      let s := clip_0 mesh climgp w g1.1 g1.2.1 g1.2.2
      let g2 := sync_grad mesh imrgra itenso (s.dpdx, s.dpdy, s.dpdz)
      { var := var1, dpdx := g2.1, dpdy := g2.2.1, dpdz := g2.2.2, n_clip := s.n_clip,
        min_factor := s.min_factor, max_factor := s.max_factor,
        clip_factor := s.clip_factor, divisors := s.divisors,
        n_sync := n1 + sync_grad_calls mesh itenso }
    else if imligp = 1 then
      let w := first_1 mesh cell_cen buf imrgra var1 g1.1 g1.2.1 g1.2.2
      let w1 : Work :=
        { denum := sync_scalar mesh imrgra itenso w.denum,
          denom := sync_scalar mesh imrgra itenso w.denom }
      let s := clip_1 mesh imrgra climgp w1 cf g1.1 g1.2.1 g1.2.2
      let g2 := sync_grad mesh imrgra itenso (s.dpdx, s.dpdy, s.dpdz)
      { var := var1, dpdx := g2.1, dpdy := g2.2.1, dpdz := g2.2.2, n_clip := s.n_clip,
        min_factor := s.min_factor, max_factor := s.max_factor,
        clip_factor := s.clip_factor, divisors := s.divisors,
        n_sync := n1 + 2 * sync_scalar_calls mesh + sync_grad_calls mesh itenso }
    else
      let g2 := sync_grad mesh imrgra itenso (g1.1, g1.2.1, g1.2.2)
      { var := var1, dpdx := g2.1, dpdy := g2.2.1, dpdz := g2.2.2, n_clip := 0,
        min_factor := 1, max_factor := 0, clip_factor := fun _ => 1, divisors := [],
        n_sync := n1 + sync_grad_calls mesh itenso }

/-! ## The limiter as the specification words it -/

/-- Cells sharing the interior face `f` with cell `i`. -/
def face_nbrs (mesh : cs_mesh_t) (i f : Nat) : List Nat :=
  (if face_i1 mesh f = i then [face_i2 mesh f] else [])
    ++ (if face_i2 mesh f = i then [face_i1 mesh f] else [])

/-- Cells listed for cell `i` in the extended cell -> cells adjacency, when `imrgra` is 2
or 3 and the adjacency is present. -/
def ext_nbrs (mesh : cs_mesh_t) (imrgra : Int) (i : Nat) : List Nat :=
  match mesh.cell_cells_idx with
  | some idx =>
    if imrgra = 2 ∨ imrgra = 3 then
      (ext_range idx i).map (fun j => mesh.cell_cells_lst j - 1)
    else []
  | none => []

/-- The neighbourhood `N(i)` of an owned cell: the cells sharing an interior face with `i`,
plus its extended neighbours. -/
def nbrs (mesh : cs_mesh_t) (imrgra : Int) (i : Nat) : List Nat :=
  (List.range mesh.n_i_faces).flatMap (face_nbrs mesh i) ++ ext_nbrs mesh imrgra i

/-- Maximum of a list of reals, 0 for the empty list. -/
def max0 (l : List ℚ) : ℚ := l.foldl max 0

/-- Specification of mode 0: `denum[i] = max over j in N(i) of |grad(i).(x_i - x_j)|`. -/
def denum_spec_0 (mesh : cs_mesh_t) (cell_cen : Buf) (imrgra : Int) (dpdx dpdy dpdz : Buf)
    (i : Nat) : ℚ :=
  max0 ((nbrs mesh imrgra i).map
    (fun j => |dist_dot cell_cen i j (dpdx i) (dpdy i) (dpdz i)|))

/-- Specification of mode 0: `denom[i] = max over j in N(i) of |var_i - var_j|`. -/
def denom_spec (mesh : cs_mesh_t) (imrgra : Int) (var : Buf) (i : Nat) : ℚ :=
  max0 ((nbrs mesh imrgra i).map (fun j => |var i - var j|))

/-- Contract of the halo service (section 6 of the specification: "non-ghost entries are
never mutated by synchronization"): a synchronisation leaves the entries of the owned
cells as they are. -/
def halo_keeps_owned (mesh : cs_mesh_t) : Prop :=
  ∀ halo, mesh.halo = some halo → ∀ (t : cs_halo_type_t) (i : Nat), i < mesh.n_cells →
    (∀ b : Buf, halo.sync_component t b i = b i) ∧ (∀ b : Buf, halo.sync_var t b i = b i)
      ∧ (∀ g : Buf × Buf × Buf, (halo.perio_sync_var_vect t g).1 i = g.1 i
          ∧ (halo.perio_sync_var_vect t g).2.1 i = g.2.1 i
          ∧ (halo.perio_sync_var_vect t g).2.2 i = g.2.2 i)

/-- The clipping ratio for the maxima `denum` and `denom`: `climgp*denom/denum` when
`denum > climgp*denom`, 1 otherwise. -/
def factor_0 (climgp denum denom : ℚ) : ℚ :=
  if denum > climgp * denom then climgp * denom / denum else 1

/-- The interior faces incident to cell `k`. -/
def faces_of (mesh : cs_mesh_t) (k : Nat) : List Nat :=
  (List.range mesh.n_i_faces).filter (fun f => face_i1 mesh f = k ∨ face_i2 mesh f = k)

/-- Specification of mode 1: `denum[k]` is the maximum over the interior faces `(a, b)`
incident to `k` of `|0.5*(grad_a + grad_b).(x_a - x_b)|`. -/
def denum_spec_1 (mesh : cs_mesh_t) (cell_cen dpdx dpdy dpdz : Buf) (k : Nat) : ℚ :=
  max0 ((faces_of mesh k).map (fun f =>
    |dist_dot cell_cen (face_i1 mesh f) (face_i2 mesh f)
      (1 / 2 * (dpdx (face_i1 mesh f) + dpdx (face_i2 mesh f)))
      (1 / 2 * (dpdy (face_i1 mesh f) + dpdy (face_i2 mesh f)))
      (1 / 2 * (dpdz (face_i1 mesh f) + dpdz (face_i2 mesh f)))|))

/-- Specification of mode 1: `denom[k]` is the maximum over the interior faces `(a, b)`
incident to `k` of `|var_a - var_b|`. -/
def denom_spec_1 (mesh : cs_mesh_t) (var : Buf) (k : Nat) : ℚ :=
  max0 ((faces_of mesh k).map (fun f => |var (face_i1 mesh f) - var (face_i2 mesh f)|))

/-- Specification of mode 1: the local ratio `r(k)`. -/
def ratio_spec_1 (mesh : cs_mesh_t) (cell_cen : Buf) (climgp : ℚ) (var dpdx dpdy dpdz : Buf)
    (k : Nat) : ℚ :=
  factor_0 climgp (denum_spec_1 mesh cell_cen dpdx dpdy dpdz k) (denom_spec_1 mesh var k)

/-- Minimum of a list of reals (1, the factor of a cell that is not clipped, for the
empty list). -/
def min_list (l : List ℚ) : ℚ :=
  match l with
  | [] => 1
  | x :: xs => xs.foldl min x

/-- Specification of mode 1: the factor of cell `i` is the minimum over the interior faces
`(a, b)` incident to `i` of `min(r(a), r(b))`. -/
def clip_factor_spec_1 (mesh : cs_mesh_t) (cell_cen : Buf) (climgp : ℚ)
    (var dpdx dpdy dpdz : Buf) (i : Nat) : ℚ :=
  min_list ((faces_of mesh i).map (fun f =>
    min (ratio_spec_1 mesh cell_cen climgp var dpdx dpdy dpdz (face_i1 mesh f))
      (ratio_spec_1 mesh cell_cen climgp var dpdx dpdy dpdz (face_i2 mesh f))))

/-- Well-formed face connectivity: the two cells of every interior face are cells of the
ghosted mesh. -/
def faces_in_range (mesh : cs_mesh_t) : Prop :=
  ∀ f, f < mesh.n_i_faces →
    face_i1 mesh f < mesh.n_cells_with_ghosts ∧ face_i2 mesh f < mesh.n_cells_with_ghosts

/-- The local system of one cell split into its blocks: face-face `A_ff`, face-cell `A_fc`,
cell-face `A_cf`, cell-cell `A_cc`, and the right-hand sides of the faces and of the cell
(`nf` face unknowns, `nc` cell unknowns). -/
structure BlockSystem (nf nc : Nat) where
  A_ff : Matrix (Fin nf) (Fin nf) ℚ
  A_fc : Matrix (Fin nf) (Fin nc) ℚ
  A_cf : Matrix (Fin nc) (Fin nf) ℚ
  A_cc : Matrix (Fin nc) (Fin nc) ℚ
  b_f : Fin nf → ℚ
  b_c : Fin nc → ℚ

/-- Inverse of a square block, by the adjugate (the inverse when the determinant is not
zero). -/
def block_inv {n : Nat} (A : Matrix (Fin n) (Fin n) ℚ) : Matrix (Fin n) (Fin n) ℚ :=
  (A.det)⁻¹ • A.adjugate

/-- What the static condensation produces: the reduced face system and the data cached
for the recovery. -/
structure Condensed (nf nc : Nat) where
  mat : Matrix (Fin nf) (Fin nf) ℚ
  rhs : Fin nf → ℚ
  rc_tilda : Fin nc → ℚ
  acf_tilda : Matrix (Fin nc) (Fin nf) ℚ

/-- Modelled from the spec: `cs_static_condensation_vector_eq` is called by
`cs_cdofb_vecteq_solve_steady_state` (line 719) but defined outside the sources.
Section 4.4: compute `A_cc⁻¹`, form the reduced face system
`A_ff - A_fc·A_cc⁻¹·A_cf` with right-hand side `b_f - A_fc·A_cc⁻¹·b_c`, cache
`A_cc⁻¹·A_cf` as `acf_tilda` and `A_cc⁻¹·b_c` as `rc_tilda`. -/
def cs_static_condensation_vector_eq {nf nc : Nat} (s : BlockSystem nf nc) :
    Condensed nf nc :=
  { mat := s.A_ff - s.A_fc * block_inv s.A_cc * s.A_cf,
    rhs := s.b_f - (s.A_fc * block_inv s.A_cc).mulVec s.b_c,
    rc_tilda := (block_inv s.A_cc).mulVec s.b_c,
    acf_tilda := block_inv s.A_cc * s.A_cf }

/-- Modelled from the spec: `cs_static_condensation_recover_vector` is called by
`cs_cdofb_vecteq_solve_steady_state` (line 787) but defined outside the sources.
Section 4.4: `cell_value = rc_tilda - acf_tilda · face_values`. -/
def cs_static_condensation_recover_vector {nf nc : Nat} (rc_tilda : Fin nc → ℚ)
    (acf_tilda : Matrix (Fin nc) (Fin nf) ℚ) (face_values : Fin nf → ℚ) : Fin nc → ℚ :=
  rc_tilda - acf_tilda.mulVec face_values

/-! ## Cellwise system of the vector-valued CDO face-based scheme -/

/-- The fields of the cellwise view of the mesh `cs_cell_mesh_t` read by the builder:
cell id, number of faces of the cell, ids of these faces, cell volume. -/
structure cs_cell_mesh_t where
  c_id : Nat
  n_fc : Nat
  f_ids : Nat → Nat
  vol_c : ℚ

/-- The fields of the cellwise system `cs_cell_sys_t` used by the builder.  The block
matrix `mat` is read as `mat bi bj e`: entry `e` (0..8, row-major) of the 3x3 block
`(bi, bj)`. -/
structure cs_cell_sys_t where
  cell_flag : Nat
  c_id : Nat
  n_dofs : Nat
  dof_ids : Nat → Nat
  dof_flag : Nat → Nat
  mat : Nat → Nat → Nat → ℚ
  rhs : Nat → ℚ
  val_n : Nat → ℚ
  has_internal_enforcement : Bool
  intern_forced_ids : Nat → Int
  has_nhmg_neumann : Bool
  neu_values : Nat → ℚ
  has_sliding : Bool

/-- What `cs_cdofb_vecteq_init_cell_system` takes from other files, as parameters of the
model: the flag `CS_FLAG_BOUNDARY_CELL_BY_FACE`, the predicate
`cs_equation_param_has_internal_enforcement(eqp)`, and the functions `cs_cell_sys_reset`,
`cs_sdm_block33_init`, `cs_equation_fb_set_cell_bc` (for the equation and the boundary
conditions at hand; its arguments here are `cm`, `dir_values`, `t_eval`, `csys`) and
`cs_cdo_bc_is_dirichlet`. -/
structure init_externals where
  CS_FLAG_BOUNDARY_CELL_BY_FACE : Nat
  has_internal_enforcement : Bool
  cs_cell_sys_reset : Nat → cs_cell_sys_t → cs_cell_sys_t
  cs_sdm_block33_init : (Nat → Nat → Nat → ℚ) → Nat → Nat → (Nat → Nat → Nat → ℚ)
  cs_equation_fb_set_cell_bc : cs_cell_mesh_t → (Nat → ℚ) → ℚ → cs_cell_sys_t → cs_cell_sys_t
  cs_cdo_bc_is_dirichlet : Nat → Bool

/-- Body of the loop on `k` at lines 351-354: ids and previous values of the face
unknowns. -/
def init_face_dof (cm : cs_cell_mesh_t) (face_values : Nat → ℚ) (f : Nat)
    (csys : cs_cell_sys_t) (k : Nat) : cs_cell_sys_t :=
  let f_id := cm.f_ids f
  { csys with
    dof_ids := Function.update csys.dof_ids (3 * f + k) (3 * f_id + k),
    val_n := Function.update csys.val_n (3 * f + k) (face_values (3 * f_id + k)) }

/-- Body of the loop on `k` at lines 358-366: ids and previous values of the cell
unknowns. -/
def init_cell_dof (cm : cs_cell_mesh_t) (field_tn : Nat → ℚ) (csys : cs_cell_sys_t)
    (k : Nat) : cs_cell_sys_t :=
  let dof_id := 3 * cm.c_id + k
  let _shift := 3 * cm.n_fc + k
  { csys with
    dof_ids := Function.update csys.dof_ids _shift dof_id,
    val_n := Function.update csys.val_n _shift (field_tn dof_id) }

/-- Body of the loop on `k` at lines 401-409, for a face whose `id` is not negative: a
Dirichlet unknown is not enforced, any other one is. -/
def enforce_dof (ext : init_externals) (f : Nat) (id : Int) (csys : cs_cell_sys_t)
    (k : Nat) : cs_cell_sys_t :=
  let dof_id := 3 * f + k
  if ext.cs_cdo_bc_is_dirichlet (csys.dof_flag dof_id) then
    { csys with intern_forced_ids := Function.update csys.intern_forced_ids dof_id (-1) }
  else
    { csys with
      intern_forced_ids := Function.update csys.intern_forced_ids dof_id (3 * id + (k : Int)),
      has_internal_enforcement := true }

/-- Body of the loop on the faces of the cell at lines 389-413. -/
def enforce_face (ext : init_externals) (cm : cs_cell_mesh_t) (forced_ids : Nat → Int)
    (csys : cs_cell_sys_t) (f : Nat) : cs_cell_sys_t :=
  let id := forced_ids (cm.f_ids f)
  if id < 0 then
    (List.range 3).foldl
      (fun c k =>
        { c with intern_forced_ids := Function.update c.intern_forced_ids (3 * f + k) (-1) })
      csys
  else
    (List.range 3).foldl (enforce_dof ext f id) csys

/-- The part of `cs_cdofb_vecteq_init_cell_system` before the internal enforcement
(lines 334-383). -/
def init_cell_system_bc (ext : init_externals) (cell_flag : Nat) (cm : cs_cell_mesh_t)
    (face_values dir_values field_tn : Nat → ℚ) (t_eval : ℚ) (csys : cs_cell_sys_t) :
    cs_cell_sys_t :=
  let n_blocks := cm.n_fc + 1
  let n_dofs := 3 * n_blocks
  let c0 : cs_cell_sys_t :=
    { csys with cell_flag := cell_flag, c_id := cm.c_id, n_dofs := n_dofs }
  let c1 := ext.cs_cell_sys_reset cm.n_fc c0
  let c2 : cs_cell_sys_t := { c1 with mat := ext.cs_sdm_block33_init c1.mat n_blocks n_blocks }
  let c3 := (List.range cm.n_fc).foldl
    (fun c f => (List.range 3).foldl (init_face_dof cm face_values f) c) c2
  let c4 := (List.range 3).foldl (init_cell_dof cm field_tn) c3
  if Nat.land cell_flag ext.CS_FLAG_BOUNDARY_CELL_BY_FACE ≠ 0 then
    ext.cs_equation_fb_set_cell_bc cm dir_values t_eval c4
  else c4

/-- The function `cs_cdofb_vecteq_init_cell_system` (lines 320-423), as far as the
cellwise system `csys` goes (the last call, `cs_equation_init_properties_cw`, writes the
cell builder `cb` only). -/
def cs_cdofb_vecteq_init_cell_system (ext : init_externals) (cell_flag : Nat)
    (cm : cs_cell_mesh_t) (face_values dir_values : Nat → ℚ) (forced_ids : Nat → Int)
    (field_tn : Nat → ℚ) (t_eval : ℚ) (csys : cs_cell_sys_t) : cs_cell_sys_t :=
  let c := init_cell_system_bc ext cell_flag cm face_values dir_values field_tn t_eval csys
  if ext.has_internal_enforcement then
    (List.range cm.n_fc).foldl (enforce_face ext cm forced_ids) c
  else c

/-- The enforcement id of the unknown `3f+k` as the specification words it: -1 if
`forced_ids[f_ids[f]] < 0` or if the unknown carries a Dirichlet flag, and
`3*forced_ids[f_ids[f]] + k` otherwise. -/
def enforced_id_spec (ext : init_externals) (cm : cs_cell_mesh_t) (forced_ids : Nat → Int)
    (dof_flag : Nat → Nat) (f k : Nat) : Int :=
  if forced_ids (cm.f_ids f) < 0 ∨ ext.cs_cdo_bc_is_dirichlet (dof_flag (3 * f + k)) = true
  then -1
  else 3 * forced_ids (cm.f_ids f) + (k : Int)

/-! ## Setting up the scheme: `cs_cdofb_vecteq_init_context` -/

/-- The algorithms of a discrete Hodge operator (`cs_param_hodge_algo_t` of `cs_param.h`):
the two values that the scheme names, and any other value of the enumeration. -/
inductive cs_param_hodge_algo_t where
  | CS_PARAM_HODGE_ALGO_VORONOI
  | CS_PARAM_HODGE_ALGO_COST
  | other (n : Nat)
  deriving DecidableEq, Repr

/-- The ways to enforce a Dirichlet condition (`cs_param_bc_enforce_t` of `cs_param.h`),
and any other value of the enumeration. -/
inductive cs_param_bc_enforce_t where
  | CS_PARAM_BC_ENFORCE_ALGEBRAIC
  | CS_PARAM_BC_ENFORCE_PENALIZED
  | CS_PARAM_BC_ENFORCE_WEAK_NITSCHE
  | CS_PARAM_BC_ENFORCE_WEAK_SYM
  | other (n : Nat)
  deriving DecidableEq, Repr

/-- The formulations of the advection term (`cs_param_advection_form_t`), and any other
value of the enumeration. -/
inductive cs_param_advection_form_t where
  | CS_PARAM_ADVECTION_FORM_CONSERV
  | CS_PARAM_ADVECTION_FORM_NONCONS
  | CS_PARAM_ADVECTION_FORM_SKEWSYM
  | other (n : Nat)
  deriving DecidableEq, Repr

/-- The advection schemes (`cs_param_advection_scheme_t`): the two values that the scheme
names, and any other value of the enumeration. -/
inductive cs_param_advection_scheme_t where
  | CS_PARAM_ADVECTION_SCHEME_UPWIND
  | CS_PARAM_ADVECTION_SCHEME_CENTERED
  | other (n : Nat)
  deriving DecidableEq, Repr

/-- The settings of an equation (`cs_equation_param_t`) read in `cs_cdofb_vecteq.c`.  The
fields `has_...` stand for the inline predicates `cs_equation_param_has_...(eqp)`,
`space_scheme_cdofb` for `eqp->space_scheme == CS_SPACE_SCHEME_CDOFB`. -/
structure cs_equation_param_t where
  space_scheme_cdofb : Bool
  dim : Int
  has_diffusion : Bool
  has_convection : Bool
  has_reaction : Bool
  has_time : Bool
  has_sourceterm : Bool
  diffusion_hodge_algo : cs_param_hodge_algo_t
  diffusion_hodge_is_iso : Bool
  reaction_hodge_algo : cs_param_hodge_algo_t
  time_hodge_algo : cs_param_hodge_algo_t
  do_lumping : Bool
  default_enforcement : cs_param_bc_enforce_t
  adv_formulation : cs_param_advection_form_t
  adv_scheme : cs_param_advection_scheme_t
  theta : ℚ

/-- The fields of the builder `cs_equation_builder_t` read or written in
`cs_cdofb_vecteq.c`, apart from the mesh flags: the bits `CS_FLAG_SYS_TIME_DIAG` and
`CS_FLAG_SYS_MASS_MATRIX` of `sys_flag`, and `face_bc->n_sliding_faces`. -/
structure cs_equation_builder_t where
  sys_time_diag : Bool
  sys_mass_matrix : Bool
  n_sliding_faces : Nat

/-- The functions that `eqc->get_stiffness_matrix` may point to. -/
inductive stiffness_func where
  | cs_hodge_fb_cost_get_stiffness
  | cs_hodge_fb_voro_get_stiffness
  deriving DecidableEq, Repr

/-- The functions that `eqc->enforce_dirichlet` may point to. -/
inductive dirichlet_func where
  | cs_cdo_diffusion_alge_block_dirichlet
  | cs_cdo_diffusion_pena_block_dirichlet
  | cs_cdo_diffusion_vfb_weak_dirichlet
  | cs_cdo_diffusion_vfb_wsym_dirichlet
  deriving DecidableEq, Repr

/-- The functions that `eqc->adv_func` may point to. -/
inductive adv_func_t where
  | cs_cdo_advection_fb_upwcsv_di
  | cs_cdo_advection_fb_upwcsv
  | cs_cdo_advection_fb_upwnoc_di
  | cs_cdo_advection_fb_upwnoc
  | cs_cdo_advection_fb_upwskw_di
  | cs_cdo_advection_fb_upwskw
  | cs_cdo_advection_fb_censkw_di
  deriving DecidableEq, Repr

/-- The functions that `eqc->adv_func_bc` may point to. -/
inductive adv_func_bc_t where
  | cs_cdo_advection_fb_bc_wdi_v
  | cs_cdo_advection_fb_bc_v
  | cs_cdo_advection_fb_bc_skw_wdi_v
  | cs_cdo_advection_fb_bc_skw_v
  deriving DecidableEq, Repr

/-- The function pointers of the context `cs_cdofb_vecteq_t` set by
`cs_cdofb_vecteq_init_context`; `none` is `NULL`.  `enforce_sliding` is `true` when the
pointer is set to `cs_cdo_diffusion_vfb_wsym_sliding`. -/
structure vecteq_funcs where
  get_stiffness_matrix : Option stiffness_func
  enforce_dirichlet : Option dirichlet_func
  enforce_sliding : Bool
  adv_func : Option adv_func_t
  adv_func_bc : Option adv_func_bc_t

/-- Lines 1527-1548 of `cs_cdofb_vecteq_init_context`: choice of the stiffness function;
the result `none` of the outer `Option` is a call of `bft_error`. -/
def init_context_diffusion (eqp : cs_equation_param_t) : Option (Option stiffness_func) :=
  if eqp.has_diffusion then
    match eqp.diffusion_hodge_algo with
    | cs_param_hodge_algo_t.CS_PARAM_HODGE_ALGO_COST =>
      some (some stiffness_func.cs_hodge_fb_cost_get_stiffness)
    | cs_param_hodge_algo_t.CS_PARAM_HODGE_ALGO_VORONOI =>
      some (some stiffness_func.cs_hodge_fb_voro_get_stiffness)
    | cs_param_hodge_algo_t.other _ => none
  else some none

/-- Lines 1550-1575: choice of the function enforcing the Dirichlet conditions; `none` is
a call of `bft_error`. -/
def init_context_enforcement (eqp : cs_equation_param_t) : Option dirichlet_func :=
  match eqp.default_enforcement with
  | cs_param_bc_enforce_t.CS_PARAM_BC_ENFORCE_ALGEBRAIC =>
    some dirichlet_func.cs_cdo_diffusion_alge_block_dirichlet
  | cs_param_bc_enforce_t.CS_PARAM_BC_ENFORCE_PENALIZED =>
    some dirichlet_func.cs_cdo_diffusion_pena_block_dirichlet
  | cs_param_bc_enforce_t.CS_PARAM_BC_ENFORCE_WEAK_NITSCHE =>
    some dirichlet_func.cs_cdo_diffusion_vfb_weak_dirichlet
  | cs_param_bc_enforce_t.CS_PARAM_BC_ENFORCE_WEAK_SYM =>
    some dirichlet_func.cs_cdo_diffusion_vfb_wsym_dirichlet
  | cs_param_bc_enforce_t.other _ => none

/-- Lines 1584-1688: choice of the advection functions; the result `none` of the outer
`Option` is a call of `bft_error`. -/
def init_context_advection (eqp : cs_equation_param_t) :
    Option (Option adv_func_t × Option adv_func_bc_t) :=
  if eqp.has_convection then
    match eqp.adv_formulation with
    | cs_param_advection_form_t.CS_PARAM_ADVECTION_FORM_CONSERV =>
      match eqp.adv_scheme with
      | cs_param_advection_scheme_t.CS_PARAM_ADVECTION_SCHEME_UPWIND =>
        if eqp.has_diffusion then
          some (some adv_func_t.cs_cdo_advection_fb_upwcsv_di,
                some adv_func_bc_t.cs_cdo_advection_fb_bc_wdi_v)
        else
          some (some adv_func_t.cs_cdo_advection_fb_upwcsv,
                some adv_func_bc_t.cs_cdo_advection_fb_bc_v)
      | _ => none
    | cs_param_advection_form_t.CS_PARAM_ADVECTION_FORM_NONCONS =>
      match eqp.adv_scheme with
      | cs_param_advection_scheme_t.CS_PARAM_ADVECTION_SCHEME_UPWIND =>
        if eqp.has_diffusion then
          some (some adv_func_t.cs_cdo_advection_fb_upwnoc_di,
                some adv_func_bc_t.cs_cdo_advection_fb_bc_wdi_v)
        else
          some (some adv_func_t.cs_cdo_advection_fb_upwnoc,
                some adv_func_bc_t.cs_cdo_advection_fb_bc_v)
      | _ => none
    | cs_param_advection_form_t.CS_PARAM_ADVECTION_FORM_SKEWSYM =>
      match eqp.adv_scheme with
      | cs_param_advection_scheme_t.CS_PARAM_ADVECTION_SCHEME_UPWIND =>
        if eqp.has_diffusion then
          some (some adv_func_t.cs_cdo_advection_fb_upwskw_di,
                some adv_func_bc_t.cs_cdo_advection_fb_bc_skw_wdi_v)
        else
          some (some adv_func_t.cs_cdo_advection_fb_upwskw,
                some adv_func_bc_t.cs_cdo_advection_fb_bc_skw_v)
      | cs_param_advection_scheme_t.CS_PARAM_ADVECTION_SCHEME_CENTERED =>
        if eqp.has_diffusion then
          some (some adv_func_t.cs_cdo_advection_fb_censkw_di,
                some adv_func_bc_t.cs_cdo_advection_fb_bc_skw_wdi_v)
        else none
      | cs_param_advection_scheme_t.other _ => none
    | cs_param_advection_form_t.other _ => none
  else some (none, none)

/-- Lines 1690-1708: the reaction term wants a Voronoi Hodge operator; `none` is a call of
`bft_error`. -/
def init_context_reaction (eqp : cs_equation_param_t) : Option Unit :=
  if eqp.has_reaction then
    if eqp.reaction_hodge_algo ≠ cs_param_hodge_algo_t.CS_PARAM_HODGE_ALGO_VORONOI then none
    else some ()
  else some ()

/-- Lines 1710-1725: the bits of `eqb->sys_flag` for the time term.  No error is raised
here. -/
def init_context_time (eqp : cs_equation_param_t) (eqb : cs_equation_builder_t) :
    cs_equation_builder_t :=
  if eqp.has_time then
    if eqp.time_hodge_algo = cs_param_hodge_algo_t.CS_PARAM_HODGE_ALGO_VORONOI then
      { eqb with sys_time_diag := true }
    else if eqp.time_hodge_algo = cs_param_hodge_algo_t.CS_PARAM_HODGE_ALGO_COST then
      if eqp.do_lumping then { eqb with sys_time_diag := true }
      else { eqb with sys_mass_matrix := true }
    else eqb
  else eqb

/-- The function `cs_cdofb_vecteq_init_context` (lines 1468-1742), as far as the function
pointers of the context and the bits of `eqb->sys_flag` go; `none` is a call of
`bft_error`, which aborts the run.  `eqb->sys_flag` is first reset to
`CS_FLAG_SYS_VECTOR` (line 1495). -/
def cs_cdofb_vecteq_init_context (eqp : cs_equation_param_t) (eqb : cs_equation_builder_t) :
    Option (vecteq_funcs × cs_equation_builder_t) :=
  if eqp.space_scheme_cdofb = false ∨ eqp.dim ≠ 3 then none
  else
    let eqb1 : cs_equation_builder_t :=
      { eqb with sys_time_diag := false, sys_mass_matrix := false }
    match init_context_diffusion eqp with
    | none => none
    | some stiff =>
      match init_context_enforcement eqp with
      | none => none
      | some dir =>
        match init_context_advection eqp with
        | none => none
        | some adv =>
          match init_context_reaction eqp with
          | none => none
          | some _ =>
            some ({ get_stiffness_matrix := stiff,
                    enforce_dirichlet := some dir,
                    enforce_sliding := decide (eqb.n_sliding_faces > 0),
                    adv_func := adv.1,
                    adv_func_bc := adv.2 },
                  init_context_time eqp eqb1)

/-! ## Build steps of the cellwise system -/

/-- The fields of the cell builder `cs_cell_builder_t` used by the build steps: the values
`cb->loc->val` of the local operator, the scratch array `cb->values`, and the values
`rpty_val`, `tpty_val` of the reaction and time properties in the cell. -/
structure cs_cell_builder_t where
  loc_val : Nat → ℚ
  values : Nat → ℚ
  rpty_val : ℚ
  tpty_val : ℚ

/-- The callbacks that the two passes on the boundary conditions may invoke. -/
inductive bc_callback where
  | enforce_dirichlet
  | enforce_sliding
  | internal_enforcement
  deriving DecidableEq, Repr

/-- The structures of the thread while a cell is built: the cellwise system, the cell
builder, and a ghost variable, the list of the callbacks invoked so far. -/
structure CellState where
  csys : cs_cell_sys_t
  cb : cs_cell_builder_t
  calls : List bc_callback

/-- What the build steps take from other files, as parameters of the model: the externals
of the initialisation, the callbacks `eqc->get_stiffness_matrix`, `eqc->enforce_dirichlet`
and `eqc->enforce_sliding`, the functions `cs_cdofb_advection_build`,
`cs_equation_enforced_internal_block_dofs`, `cs_cdofb_vecteq_sourceterm` (arguments: `cm`,
time, scaling), `cs_equation_init_properties_cw`, `cs_equation_init_properties`,
`cs_sdm_block_matvec`,
`cs_static_condensation_vector_eq`, and the position `mat_val_index n_blocks bi bj e` in
the array `csys->mat->val` of the entry `e` of the block `(bi, bj)` of a matrix of
`n_blocks x n_blocks` blocks. -/
structure build_externals where
  init : init_externals
  get_stiffness_matrix : cs_cell_mesh_t → cs_cell_builder_t → cs_cell_builder_t
  cs_cdofb_advection_build : cs_cell_mesh_t → ℚ → cs_cell_builder_t → cs_cell_builder_t
  enforce_dirichlet :
    cs_cell_mesh_t → cs_cell_sys_t × cs_cell_builder_t → cs_cell_sys_t × cs_cell_builder_t
  enforce_sliding :
    cs_cell_mesh_t → cs_cell_sys_t × cs_cell_builder_t → cs_cell_sys_t × cs_cell_builder_t
  cs_equation_enforced_internal_block_dofs :
    cs_cell_sys_t × cs_cell_builder_t → cs_cell_sys_t × cs_cell_builder_t
  cs_cdofb_vecteq_sourceterm :
    cs_cell_mesh_t → ℚ → ℚ → cs_cell_sys_t × cs_cell_builder_t →
      cs_cell_sys_t × cs_cell_builder_t
  cs_equation_init_properties_cw :
    Nat → cs_cell_mesh_t → ℚ → cs_cell_builder_t → cs_cell_builder_t
  cs_equation_init_properties : ℚ → cs_cell_builder_t → cs_cell_builder_t
  cs_sdm_block_matvec : (Nat → Nat → Nat → ℚ) → (Nat → ℚ) → (Nat → ℚ)
  cs_static_condensation_vector_eq :
    cs_cell_sys_t × cs_cell_builder_t → cs_cell_sys_t × cs_cell_builder_t
  mat_val_index : Nat → Nat → Nat → Nat → Nat

/-- The statement `b->val[e] += v` on the block `(bi, bj)` of a block matrix. -/
def mat_add (m : Nat → Nat → Nat → ℚ) (bi bj e : Nat) (v : ℚ) : Nat → Nat → Nat → ℚ :=
  fun i j k => if i = bi ∧ j = bj ∧ k = e then m i j k + v else m i j k

/-- The statements `b->val[0] += v; b->val[4] += v; b->val[8] += v` on the block
`(bi, bj)` (lines 470-472, 530-532, 560-562, 583-585). -/
def block_add_diag (m : Nat → Nat → Nat → ℚ) (bi bj : Nat) (v : ℚ) :
    Nat → Nat → Nat → ℚ :=
  mat_add (mat_add (mat_add m bi bj 0 v) bi bj 4 v) bi bj 8 v

/-- The two nested loops on `bi` and `bj` that add the local operator `sval` to the local
system (lines 462-475, 522-535, 552-565). -/
def add_local_operator (n_fc : Nat) (sval : Nat → ℚ) (m : Nat → Nat → Nat → ℚ) :
    Nat → Nat → Nat → ℚ :=
  (List.range (n_fc + 1)).foldl
    (fun m1 bi => (List.range (n_fc + 1)).foldl
      (fun m2 bj => block_add_diag m2 bi bj (sval ((n_fc + 1) * bi + bj))) m1) m

/-- The function `cs_cdofb_vecteq_diffusion` (lines 439-483); `none` is the call of
`bft_error` for a diffusion Hodge operator that is not isotropic. -/
def cs_cdofb_vecteq_diffusion (ext : build_externals) (eqp : cs_equation_param_t)
    (cm : cs_cell_mesh_t) (st : CellState) : Option CellState :=
  if eqp.has_diffusion then
    let cb1 := ext.get_stiffness_matrix cm st.cb
    if eqp.diffusion_hodge_is_iso = false then none
    else
      some { st with
        cb := cb1,
        csys := { st.csys with mat := add_local_operator cm.n_fc cb1.loc_val st.csys.mat } }
  else some st

/-- The advection part of `cs_cdofb_vecteq_conv_diff_reac` (lines 543-571). -/
def conv_part (ext : build_externals) (eqp : cs_equation_param_t) (cm : cs_cell_mesh_t)
    (time_eval : ℚ) (st : CellState) : CellState :=
  if eqp.has_convection then
    let cb1 := ext.cs_cdofb_advection_build cm time_eval st.cb
    { st with
      cb := cb1,
      csys := { st.csys with mat := add_local_operator cm.n_fc cb1.loc_val st.csys.mat } }
  else st

/-- The reaction part of `cs_cdofb_vecteq_conv_diff_reac` (lines 573-591). -/
def reac_part (eqp : cs_equation_param_t) (cm : cs_cell_mesh_t) (st : CellState) :
    CellState :=
  if eqp.has_reaction then
    let r_val := st.cb.rpty_val * cm.vol_c
    { st with
      csys := { st.csys with mat := block_add_diag st.csys.mat cm.n_fc cm.n_fc r_val } }
  else st

/-- The function `cs_cdofb_vecteq_conv_diff_reac` (lines 499-593): its diffusion part is
the body of `cs_cdofb_vecteq_diffusion`. -/
def cs_cdofb_vecteq_conv_diff_reac (ext : build_externals) (eqp : cs_equation_param_t)
    (cm : cs_cell_mesh_t) (time_eval : ℚ) (st : CellState) : Option CellState :=
  match cs_cdofb_vecteq_diffusion ext eqp cm st with
  | none => none
  | some st1 => some (reac_part eqp cm (conv_part ext eqp cm time_eval st1))

/-- Invocation of a callback on the cellwise system and the cell builder, recorded in the
ghost list. -/
def invoke (name : bc_callback)
    (f : cs_cell_sys_t × cs_cell_builder_t → cs_cell_sys_t × cs_cell_builder_t)
    (st : CellState) : CellState :=
  { csys := (f (st.csys, st.cb)).1, cb := (f (st.csys, st.cb)).2,
    calls := st.calls ++ [name] }

/-- The test `csys->cell_flag & CS_FLAG_BOUNDARY_CELL_BY_FACE`. -/
def is_boundary_cell (ext : build_externals) (csys : cs_cell_sys_t) : Bool :=
  decide (Nat.land csys.cell_flag ext.init.CS_FLAG_BOUNDARY_CELL_BY_FACE ≠ 0)

/-- The loop `csys->rhs[f] += csys->neu_values[f]` on `f < 3*n_fc` (lines 172-174). -/
def add_neumann (cm : cs_cell_mesh_t) (csys : cs_cell_sys_t) : cs_cell_sys_t :=
  { csys with
    rhs := (List.range (3 * cm.n_fc)).foldl
      (fun rhs f => Function.update rhs f (rhs f + csys.neu_values f)) csys.rhs }

/-- The function `_apply_bc_partly` (lines 159-196): the boundary conditions applied
before the static condensation. -/
def _apply_bc_partly (ext : build_externals) (eqp : cs_equation_param_t)
    (cm : cs_cell_mesh_t) (st : CellState) : CellState :=
  if is_boundary_cell ext st.csys then
    let st1 : CellState :=
      if st.csys.has_nhmg_neumann then { st with csys := add_neumann cm st.csys } else st
    let st2 : CellState :=
      if eqp.has_diffusion then
        if eqp.default_enforcement = cs_param_bc_enforce_t.CS_PARAM_BC_ENFORCE_WEAK_NITSCHE
            ∨ eqp.default_enforcement = cs_param_bc_enforce_t.CS_PARAM_BC_ENFORCE_WEAK_SYM
        then invoke bc_callback.enforce_dirichlet (ext.enforce_dirichlet cm) st1
        else st1
      else st1
    if st2.csys.has_sliding then
      invoke bc_callback.enforce_sliding (ext.enforce_sliding cm) st2
    else st2
  else st

/-- The function `_apply_remaining_bc` (lines 211-245): the boundary conditions applied
after the static condensation. -/
def _apply_remaining_bc (ext : build_externals) (eqp : cs_equation_param_t)
    (cm : cs_cell_mesh_t) (st : CellState) : CellState :=
  let st1 : CellState :=
    if is_boundary_cell ext st.csys then
      if eqp.default_enforcement = cs_param_bc_enforce_t.CS_PARAM_BC_ENFORCE_PENALIZED
          ∨ eqp.default_enforcement = cs_param_bc_enforce_t.CS_PARAM_BC_ENFORCE_ALGEBRAIC
      then invoke bc_callback.enforce_dirichlet (ext.enforce_dirichlet cm) st
      else st
    else st
  if st1.csys.has_internal_enforcement then
    invoke bc_callback.internal_enforcement ext.cs_equation_enforced_internal_block_dofs st1
  else st1

/-- Body of the loop on `k` of the diagonal time term (lines 934-938 and 1206-1210). -/
def time_diag_step (n_f : Nat) (ptyc : ℚ) (csys : cs_cell_sys_t) (k : Nat) :
    cs_cell_sys_t :=
  { csys with
    rhs := Function.update csys.rhs (3 * n_f + k)
      (csys.rhs (3 * n_f + k) + ptyc * csys.val_n (3 * n_f + k)),
    mat := mat_add csys.mat n_f n_f (4 * k) ptyc }

/-- The unsteady term with a diagonal time treatment (lines 926-943 and 1199-1215):
`none` is the call of `bft_error` when `CS_FLAG_SYS_TIME_DIAG` is not set. -/
def time_term_diag (eqb : cs_equation_builder_t) (cm : cs_cell_mesh_t) (inv_dtcur : ℚ)
    (st : CellState) : Option CellState :=
  if eqb.sys_time_diag then
    let ptyc := st.cb.tpty_val * cm.vol_c * inv_dtcur
    some { st with csys := (List.range 3).foldl (time_diag_step cm.n_fc ptyc) st.csys }
  else none

/-- STEP.1 of the theta scheme (lines 1186-1189): `adr_pn = csys->mat * p_n` in
`cb->values`, then `csys->rhs[i] -= tcoef * adr_pn[i]` on `i < n_dofs`. -/
def theta_step1 (ext : build_externals) (tcoef : ℚ) (st : CellState) : CellState :=
  let adr_pn := ext.cs_sdm_block_matvec st.csys.mat st.csys.val_n
  { st with
    cb := { st.cb with values := adr_pn },
    csys := { st.csys with
      rhs := (List.range st.csys.n_dofs).foldl
        (fun rhs i => Function.update rhs i (rhs i - tcoef * adr_pn i)) st.csys.rhs } }

/-- STEP.2 of the theta scheme (lines 1192-1193): `csys->mat->val[i] *= theta` on
`i < n_dofs*n_dofs`; an entry of a block is multiplied when its position in `val` is
below that bound. -/
def theta_step2 (ext : build_externals) (theta : ℚ) (cm : cs_cell_mesh_t)
    (st : CellState) : CellState :=
  { st with
    csys := { st.csys with
      mat := fun bi bj e =>
        if ext.mat_val_index (cm.n_fc + 1) bi bj e < st.csys.n_dofs * st.csys.n_dofs
        then st.csys.mat bi bj e * theta
        else st.csys.mat bi bj e } }

/-- The unsteady term and the time scheme of `cs_cdofb_vecteq_solve_theta`
(lines 1181-1215), with `tcoef = 1 - theta`. -/
def theta_time_scheme (ext : build_externals) (eqp : cs_equation_param_t)
    (eqb : cs_equation_builder_t) (cm : cs_cell_mesh_t) (inv_dtcur : ℚ) (st : CellState) :
    Option CellState :=
  let tcoef := 1 - eqp.theta
  time_term_diag eqb cm inv_dtcur (theta_step2 ext eqp.theta cm (theta_step1 ext tcoef st))

/-! ## The main loop on cells of the three ways to build the linear system -/

/-- The shared arrays read in the main loop on cells: `connect->cell_flag`, the cell mesh
that `cs_cell_mesh_build` sets for each cell, `eqc->face_values`, the arrays `dir_values`
and `enforced_ids` of `cs_cdofb_vecteq_setup`, `fld->val` and `eqc->source_terms`. -/
structure cell_inputs where
  cell_flag : Nat → Nat
  cell_mesh : Nat → cs_cell_mesh_t
  face_values : Nat → ℚ
  dir_values : Nat → ℚ
  enforced_ids : Nat → Int
  fld_val : Nat → ℚ
  source_terms : Nat → ℚ

/-- The call of `cs_cdofb_vecteq_init_cell_system` in the main loop on cells: it sets the
cellwise system, and its last statement, `cs_equation_init_properties_cw`, the cell
builder. -/
def init_cell (ext : build_externals) (inp : cell_inputs) (c_id : Nat) (time_eval : ℚ)
    (st : CellState) : CellState :=
  { st with
    csys := cs_cdofb_vecteq_init_cell_system ext.init (inp.cell_flag c_id)
      (inp.cell_mesh c_id) inp.face_values inp.dir_values inp.enforced_ids inp.fld_val
      time_eval st.csys,
    cb := ext.cs_equation_init_properties_cw (inp.cell_flag c_id) (inp.cell_mesh c_id)
      time_eval st.cb }

/-- A call `cs_cdofb_vecteq_sourceterm(cm, eqp, time, scaling, cb, eqb, csys)`. -/
def apply_sourceterm (ext : build_externals) (cm : cs_cell_mesh_t) (time scaling : ℚ)
    (st : CellState) : CellState :=
  { st with
    csys := (ext.cs_cdofb_vecteq_sourceterm cm time scaling (st.csys, st.cb)).1,
    cb := (ext.cs_cdofb_vecteq_sourceterm cm time scaling (st.csys, st.cb)).2 }

/-- The call of `cs_static_condensation_vector_eq` in the main loop on cells. -/
def condense (ext : build_externals) (st : CellState) : CellState :=
  { st with
    csys := (ext.cs_static_condensation_vector_eq (st.csys, st.cb)).1,
    cb := (ext.cs_static_condensation_vector_eq (st.csys, st.cb)).2 }

/-- What follows the build of the cellwise system in the three loops: the static
condensation and the remaining part of the boundary conditions (the assembly that comes
last writes the global matrix and right-hand side only). -/
def finish_cell (ext : build_externals) (eqp : cs_equation_param_t) (cm : cs_cell_mesh_t)
    (st : CellState) : CellState :=
  _apply_remaining_bc ext eqp cm (condense ext st)

/-- The cellwise system of `cs_cdofb_vecteq_solve_steady_state` for the cell `c_id`, as
handed to the static condensation (lines 681-710). -/
def build_steady_state (ext : build_externals) (eqp : cs_equation_param_t)
    (inp : cell_inputs) (time_eval : ℚ) (c_id : Nat) (st : CellState) :
    Option CellState :=
  let cm := inp.cell_mesh c_id
  match cs_cdofb_vecteq_diffusion ext eqp cm (init_cell ext inp c_id time_eval st) with
  | none => none
  | some st1 =>
    let st2 := if eqp.has_sourceterm then apply_sourceterm ext cm time_eval 1 st1 else st1
    some (_apply_bc_partly ext eqp cm st2)

/-- The cellwise system of `cs_cdofb_vecteq_solve_implicit` for the cell `c_id`, as handed
to the static condensation (lines 890-943). -/
def build_implicit (ext : build_externals) (eqp : cs_equation_param_t)
    (eqb : cs_equation_builder_t) (inp : cell_inputs) (time_eval inv_dtcur : ℚ)
    (c_id : Nat) (st : CellState) : Option CellState :=
  let cm := inp.cell_mesh c_id
  match cs_cdofb_vecteq_diffusion ext eqp cm (init_cell ext inp c_id time_eval st) with
  | none => none
  | some st1 =>
    let st2 := if eqp.has_sourceterm then apply_sourceterm ext cm time_eval 1 st1 else st1
    time_term_diag eqb cm inv_dtcur (_apply_bc_partly ext eqp cm st2)

/-- The loop `csys->rhs[3*n_f + k] += tcoef * eqc->source_terms[3*c_id + k]` on `k < 3`
(lines 1162-1163). -/
def add_previous_source (inp : cell_inputs) (cm : cs_cell_mesh_t) (tcoef : ℚ) (c_id : Nat)
    (csys : cs_cell_sys_t) : cs_cell_sys_t :=
  { csys with
    rhs := (List.range 3).foldl
      (fun rhs k => Function.update rhs (3 * cm.n_fc + k)
        (rhs (3 * cm.n_fc + k) + tcoef * inp.source_terms (3 * c_id + k))) csys.rhs }

/-- The cellwise system of `cs_cdofb_vecteq_solve_theta` for the cell `c_id`, as handed to
the static condensation (lines 1135-1215). -/
def build_theta (ext : build_externals) (eqp : cs_equation_param_t)
    (eqb : cs_equation_builder_t) (inp : cell_inputs) (compute_initial_source : Bool)
    (t_cur dt_cur : ℚ) (c_id : Nat) (st : CellState) : Option CellState :=
  let cm := inp.cell_mesh c_id
  let tcoef := 1 - eqp.theta
  let time_eval := t_cur + eqp.theta * dt_cur
  match cs_cdofb_vecteq_diffusion ext eqp cm (init_cell ext inp c_id time_eval st) with
  | none => none
  | some st1 =>
    let st2 : CellState :=
      if eqp.has_sourceterm then
        let s1 : CellState :=
          if compute_initial_source then apply_sourceterm ext cm t_cur tcoef st1
          else { st1 with csys := add_previous_source inp cm tcoef c_id st1.csys }
        apply_sourceterm ext cm (t_cur + dt_cur) eqp.theta s1
      else st1
    theta_time_scheme ext eqp eqb cm (1 / dt_cur) (_apply_bc_partly ext eqp cm st2)

/-- The main loop on cells, for a build of the cellwise system that may end in a fatal
error: the thread structures go from one cell to the next. -/
def cell_loop (ext : build_externals) (eqp : cs_equation_param_t) (inp : cell_inputs)
    (build : Nat → CellState → Option CellState) (n_cells : Nat) (st : CellState) :
    Option CellState :=
  (List.range n_cells).foldl
    (fun acc c_id =>
      match acc with
      | none => none
      | some s =>
        match build c_id s with
        | none => none
        | some s1 => some (finish_cell ext eqp (inp.cell_mesh c_id) s1))
    (some st)

/-- The build of the linear system in `cs_cdofb_vecteq_solve_steady_state`
(lines 609-798): the initialisation of the properties and the main loop on cells. -/
def cs_cdofb_vecteq_solve_steady_state (ext : build_externals)
    (eqp : cs_equation_param_t) (inp : cell_inputs) (n_cells : Nat) (t_cur dt_cur : ℚ)
    (st : CellState) : Option CellState :=
  let time_eval := t_cur + dt_cur
  cell_loop ext eqp inp (build_steady_state ext eqp inp time_eval) n_cells
    { st with cb := ext.cs_equation_init_properties time_eval st.cb }

/-- The build of the linear system in `cs_cdofb_vecteq_solve_implicit` (lines 814-1030):
the initialisation of the properties and the main loop on cells. -/
def cs_cdofb_vecteq_solve_implicit (ext : build_externals) (eqp : cs_equation_param_t)
    (eqb : cs_equation_builder_t) (inp : cell_inputs) (n_cells : Nat) (t_cur dt_cur : ℚ)
    (st : CellState) : Option CellState :=
  let time_eval := t_cur + dt_cur
  cell_loop ext eqp inp (build_implicit ext eqp eqb inp time_eval (1 / dt_cur)) n_cells
    { st with cb := ext.cs_equation_init_properties time_eval st.cb }

/-- The build of the linear system in `cs_cdofb_vecteq_solve_theta` (lines 1046-1302):
the initialisation of the properties and the main loop on cells. -/
def cs_cdofb_vecteq_solve_theta (ext : build_externals) (eqp : cs_equation_param_t)
    (eqb : cs_equation_builder_t) (inp : cell_inputs) (compute_initial_source : Bool)
    (n_cells : Nat) (t_cur dt_cur : ℚ) (st : CellState) : Option CellState :=
  let time_eval := t_cur + eqp.theta * dt_cur
  cell_loop ext eqp inp (build_theta ext eqp eqb inp compute_initial_source t_cur dt_cur)
    n_cells { st with cb := ext.cs_equation_init_properties time_eval st.cb }

/-- Settings that pass every check of `cs_cdofb_vecteq_init_context` other than those on
the advection: face-based scheme in dimension 3, a COST or Voronoi Hodge operator for the
diffusion if any, one of the four ways to enforce the Dirichlet conditions, a Voronoi
Hodge operator for the reaction if any. -/
def valid_apart_from_advection (eqp : cs_equation_param_t) : Prop :=
  eqp.space_scheme_cdofb = true ∧ eqp.dim = 3 ∧
  (eqp.has_diffusion = true →
    eqp.diffusion_hodge_algo = cs_param_hodge_algo_t.CS_PARAM_HODGE_ALGO_COST ∨
    eqp.diffusion_hodge_algo = cs_param_hodge_algo_t.CS_PARAM_HODGE_ALGO_VORONOI) ∧
  (eqp.default_enforcement = cs_param_bc_enforce_t.CS_PARAM_BC_ENFORCE_ALGEBRAIC ∨
   eqp.default_enforcement = cs_param_bc_enforce_t.CS_PARAM_BC_ENFORCE_PENALIZED ∨
   eqp.default_enforcement = cs_param_bc_enforce_t.CS_PARAM_BC_ENFORCE_WEAK_NITSCHE ∨
   eqp.default_enforcement = cs_param_bc_enforce_t.CS_PARAM_BC_ENFORCE_WEAK_SYM) ∧
  (eqp.has_reaction = true →
    eqp.reaction_hodge_algo = cs_param_hodge_algo_t.CS_PARAM_HODGE_ALGO_VORONOI)

/-- The pairs of advection scheme and formulation that the scheme supports, as the
specification words it: upwind with any of the three formulations, or centered with the
skew-symmetric formulation and a diffusion term. -/
def advection_accepted (eqp : cs_equation_param_t) : Prop :=
  (eqp.adv_scheme = cs_param_advection_scheme_t.CS_PARAM_ADVECTION_SCHEME_UPWIND ∧
    (eqp.adv_formulation = cs_param_advection_form_t.CS_PARAM_ADVECTION_FORM_CONSERV ∨
     eqp.adv_formulation = cs_param_advection_form_t.CS_PARAM_ADVECTION_FORM_NONCONS ∨
     eqp.adv_formulation = cs_param_advection_form_t.CS_PARAM_ADVECTION_FORM_SKEWSYM)) ∨
  (eqp.adv_scheme = cs_param_advection_scheme_t.CS_PARAM_ADVECTION_SCHEME_CENTERED ∧
    eqp.adv_formulation = cs_param_advection_form_t.CS_PARAM_ADVECTION_FORM_SKEWSYM ∧
    eqp.has_diffusion = true)

/-! ## Sequences of build steps -/

/-- The steps of `cs_cdofb_vecteq.c` that write the local matrix: the diffusion term
alone (`cs_cdofb_vecteq_diffusion`), the diffusion, advection and reaction terms
(`cs_cdofb_vecteq_conv_diff_reac`), the diagonal time term (the implicit time term of
`cs_cdofb_vecteq_solve_implicit`, and with the same statements the mass term of
`cs_cdofb_vecteq_solve_theta`), and the multiplication by `theta` of
`cs_cdofb_vecteq_solve_theta`. -/
inductive build_step where
  | diffusion (eqp : cs_equation_param_t)
  | conv_diff_reac (eqp : cs_equation_param_t) (time_eval : ℚ)
  | time_term (eqb : cs_equation_builder_t) (inv_dtcur : ℚ)
  | theta_rescale (theta : ℚ)

/-- One build step on the structures of the thread; `none` is a fatal error. -/
def apply_build_step (ext : build_externals) (cm : cs_cell_mesh_t) (st : CellState) :
    build_step → Option CellState
  | build_step.diffusion eqp => cs_cdofb_vecteq_diffusion ext eqp cm st
  | build_step.conv_diff_reac eqp time_eval =>
    cs_cdofb_vecteq_conv_diff_reac ext eqp cm time_eval st
  | build_step.time_term eqb inv_dtcur => time_term_diag eqb cm inv_dtcur st
  | build_step.theta_rescale theta => some (theta_step2 ext theta cm st)

/-- A sequence of build steps, from left to right. -/
def run_build_steps (ext : build_externals) (cm : cs_cell_mesh_t) :
    List build_step → CellState → Option CellState
  | [], st => some st
  | s :: l, st =>
    match apply_build_step ext cm st s with
    | none => none
    | some st1 => run_build_steps ext cm l st1

/-- Every 3x3 block `(bi, bj)` with `bi, bj <= n_fc` is a scalar multiple of the
identity: its entries (0,0), (1,1), (2,2) are equal and its six other entries are zero. -/
def blocks_scalar (n_fc : Nat) (m : Nat → Nat → Nat → ℚ) : Prop :=
  ∀ bi bj, bi ≤ n_fc → bj ≤ n_fc → ∀ e, e < 9 →
    m bi bj e = if e = 0 ∨ e = 4 ∨ e = 8 then m bi bj 0 else 0

/-! ## Reduction of the counters of the limiter over the ranks -/

/-- The values that `clmgrd` prints when `*iwarnp > 1` (lines 597-600). -/
structure Reported where
  n_clip : Nat
  min_factor : ℚ
  max_factor : ℚ

/-- Lines 560-593 of `clmgrd`: when `mesh->n_domains > 1`, `MPI_Allreduce` replaces
`max_factor` by the maximum, `min_factor` by the minimum and `n_clip` by the sum of the
values of all the ranks; `own` is what the rank computed, `others` what the other ranks
of the communicator computed. -/
def clmgrd_reduce (mesh : cs_mesh_t) (own : Result) (others : List Result) : Reported :=
  if mesh.n_domains > 1 then
    { max_factor := others.foldl (fun m r => max m r.max_factor) own.max_factor,
      min_factor := others.foldl (fun m r => min m r.min_factor) own.min_factor,
      n_clip := others.foldl (fun n r => n + r.n_clip) own.n_clip }
  else
    { max_factor := own.max_factor, min_factor := own.min_factor, n_clip := own.n_clip }

/-! ## Postprocessing utilities: `cs_post_util.c` -/

/-- Modelled from the spec: the inline function `cs_math_3_dot_product` of `cs_math.h`,
which is not in the sources; the dot product of two vectors of size 3. -/
def cs_math_3_dot_product (u v : Nat → ℚ) : ℚ := u 0 * v 0 + u 1 * v 1 + u 2 * v 2

/-- The fields of a `cs_field_t` read by `cs_post_b_pressure`: the values and the
coefficients `bc_coeffs->a`, `bc_coeffs->b` of the boundary conditions. -/
structure cs_field_t where
  val : Nat → ℚ
  bc_a : Nat → ℚ
  bc_b : Nat → ℚ

/-- What `cs_post_b_pressure` reads from the global structures: `m->b_face_cells`,
`mq->diipb` (one vector per boundary face), the fields `CS_F_(p)`, `CS_F_(k)` and the
values of `CS_F_(rho_b)`, the gradients returned by `cs_field_gradient_potential` for the
pressure and by `cs_field_gradient_scalar` for `k` (one vector per cell; both functions
are not in the sources), and `turb_model->itytur`. -/
structure b_pressure_env where
  b_face_cells : Nat → Nat
  diipb : Nat → Nat → ℚ
  p : cs_field_t
  k : cs_field_t
  rho_b : Nat → ℚ
  gradp : Nat → Nat → ℚ
  gradk : Nat → Nat → ℚ
  itytur : Int

/-- Body of the first loop of `cs_post_b_pressure` (lines 970-981). -/
def b_pressure_step (env : b_pressure_env) (b_face_ids : Nat → Nat) (pres : Nat → ℚ)
    (iloc : Nat) : Nat → ℚ :=
  let face_id := b_face_ids iloc
  let cell_id := env.b_face_cells face_id
  let pip := env.p.val cell_id
    + cs_math_3_dot_product (env.gradp cell_id) (env.diipb face_id)
  Function.update pres iloc (env.p.bc_a face_id + env.p.bc_b face_id * pip)

/-- Body of the second loop of `cs_post_b_pressure` (lines 1001-1011). -/
def b_pressure_k_step (env : b_pressure_env) (b_face_ids : Nat → Nat) (pres : Nat → ℚ)
    (iloc : Nat) : Nat → ℚ :=
  let face_id := b_face_ids iloc
  let cell_id := env.b_face_cells face_id
  let kip := env.k.val cell_id
    + cs_math_3_dot_product (env.gradk cell_id) (env.diipb face_id)
  Function.update pres iloc
    (pres iloc - 2 / 3 * env.rho_b face_id
      * (env.k.bc_a face_id + env.k.bc_b face_id * kip))

/-- The function `cs_post_b_pressure` (lines 943-1014); `pres` is the content of the
output array before the call. -/
def cs_post_b_pressure (env : b_pressure_env) (n_b_faces : Nat) (b_face_ids : Nat → Nat)
    (pres : Nat → ℚ) : Nat → ℚ :=
  let pres1 := (List.range n_b_faces).foldl (b_pressure_step env b_face_ids) pres
  if env.itytur = 2 ∧ env.itytur = 6 ∧ env.itytur = 5 then
    (List.range n_b_faces).foldl (b_pressure_k_step env b_face_ids) pres1
  else pres1

/-- The pressure at a boundary face as the specification words it:
`a_p + b_p*(p_c + grad p_c . diipb)`, minus
`2/3 * rho_b * (a_k + b_k*(k_c + grad k_c . diipb))` when `itytur` is 2, 5 or 6. -/
def b_pressure_spec (env : b_pressure_env) (face_id : Nat) : ℚ :=
  let c := env.b_face_cells face_id
  let pb := env.p.bc_a face_id
    + env.p.bc_b face_id
      * (env.p.val c + cs_math_3_dot_product (env.gradp c) (env.diipb face_id))
  if env.itytur = 2 ∨ env.itytur = 5 ∨ env.itytur = 6 then
    pb - 2 / 3 * env.rho_b face_id
      * (env.k.bc_a face_id
          + env.k.bc_b face_id
            * (env.k.val c + cs_math_3_dot_product (env.gradk c) (env.diipb face_id)))
  else pb

/-- Where `cs_post_anisotropy_invariant` takes the Reynolds stresses from. -/
inductive rij_source where
  | evm_reynolds_stresses
  | transported_fields
  deriving DecidableEq, Repr

/-- What the two functions on the Reynolds stresses read from the global structures:
`turb_rans_mdl->irijco`, the gradient of the velocity returned by
`cs_field_gradient_vector` (cell, row, column), the values of `k` returned by
`cs_field_interpolate` (one per point), the values of `CS_F_(mu_t)`, `CS_F_(rho)`,
of the six fields `CS_F_(r11)` ... `CS_F_(r13)` (cell, component) and of `CS_F_(rij)`
(cell, component), and the functions `sqrt` and `cbrt` of `<math.h>`. -/
structure rij_env where
  irijco : Int
  gradv : Nat → Nat → Nat → ℚ
  xk : Nat → ℚ
  mu_t : Nat → ℚ
  rho : Nat → ℚ
  r_fields : Nat → Nat → ℚ
  cvar_rij : Nat → Nat → ℚ
  sqrt : ℚ → ℚ
  cbrt : ℚ → ℚ

/-- The Reynolds stresses of one point in `cs_post_evm_reynolds_stresses`
(lines 1070-1083). -/
def evm_rst (env : rij_env) (cell_ids : Nat → Nat) (iloc : Nat) (j : Nat) : ℚ :=
  let iel := cell_ids iloc
  let divu := env.gradv iel 0 0 + env.gradv iel 1 1 + env.gradv iel 2 2
  let nut := env.mu_t iel / env.rho iel
  let xdiag := 2 / 3 * (env.xk iloc + nut * divu)
  if j = 0 then xdiag - 2 * nut * env.gradv iel 0 0
  else if j = 1 then xdiag - 2 * nut * env.gradv iel 1 1
  else if j = 2 then xdiag - 2 * nut * env.gradv iel 2 2
  else if j = 3 then -nut * (env.gradv iel 1 0 + env.gradv iel 0 1)
  else if j = 4 then -nut * (env.gradv iel 2 1 + env.gradv iel 1 2)
  else -nut * (env.gradv iel 2 0 + env.gradv iel 0 2)

/-- The function `cs_post_evm_reynolds_stresses` (lines 1031-1087): `none` is the call of
`bft_error` for a model that is not an eddy viscosity model; `rst` is the content of the
output array before the call. -/
def cs_post_evm_reynolds_stresses (env : rij_env) (itytur : Int) (n_cells : Nat)
    (cell_ids : Nat → Nat) (rst : Nat → Nat → ℚ) : Option (Nat → Nat → ℚ) :=
  if itytur ≠ 2 ∧ itytur ≠ 6 ∧ itytur ≠ 5 then none
  else
    some (fun iloc j => if iloc < n_cells ∧ j < 6 then evm_rst env cell_ids iloc j
                        else rst iloc j)

/-- The invariants of one point in `cs_post_anisotropy_invariant` (lines 1161-1190);
the array `rij` is read at the cell number `iel`. -/
def anisotropy_invariants (env : rij_env) (rij : Nat → Nat → ℚ) (iel : Nat) : ℚ × ℚ :=
  let xk := 1 / 2 * (rij iel 0 + rij iel 1 + rij iel 2)
  let bij : Nat → Nat → ℚ := fun i j =>
    if i = j then rij iel i / (2 * xk) - 1 / 3
    else if i + j = 1 then rij iel 3 / (2 * xk)
    else if i + j = 3 then rij iel 4 / (2 * xk)
    else rij iel 5 / (2 * xk)
  let xeta := ((List.range 3).map (fun i =>
    ((List.range 3).map (fun j => bij i j * bij j i)).sum)).sum
  let xksi := ((List.range 3).map (fun i =>
    ((List.range 3).map (fun j =>
      ((List.range 3).map (fun k => bij i j * bij j k * bij k i)).sum)).sum)).sum
  (env.sqrt (-xeta / 6), env.cbrt (xksi / 6))

/-- The function `cs_post_anisotropy_invariant` (lines 1092-1193): `none` is a call of
`bft_error`; `rij0` is the content of the memory allocated for `rij`, `inv` that of the
output array before the call.  The second component of the result is a ghost value:
where the Reynolds stresses were taken from. -/
def cs_post_anisotropy_invariant (env : rij_env) (itytur : Int) (n_cells : Nat)
    (cell_ids : Nat → Nat) (rij0 : Nat → Nat → ℚ) (inv : Nat → ℚ × ℚ) :
    Option ((Nat → ℚ × ℚ) × rij_source) :=
  if itytur ≠ 2 ∧ itytur ≠ 3 ∧ itytur ≠ 6 ∧ itytur ≠ 5 then none
  else
    let rij : Option ((Nat → Nat → ℚ) × rij_source) :=
      if itytur ≠ 2 ∧ itytur ≠ 6 ∧ itytur ≠ 5 then
        match cs_post_evm_reynolds_stresses env itytur n_cells cell_ids rij0 with
        | none => none
        | some r => some (r, rij_source.evm_reynolds_stresses)
      else if env.irijco = 0 then
        some (fun i j => if i < n_cells ∧ j < 6 then env.r_fields (cell_ids i) j
                         else rij0 i j,
              rij_source.transported_fields)
      else
        some (fun i j => if i < n_cells ∧ j < 6 then env.cvar_rij (cell_ids i) j
                         else rij0 i j,
              rij_source.transported_fields)
    match rij with
    | none => none
    | some r =>
      some (fun iloc => if iloc < n_cells then anisotropy_invariants env r.1 (cell_ids iloc)
                        else inv iloc,
            r.2)

/-! ## Time steps of a remapper: `cs_medcoupling_remapper.cxx` -/

/-- The loop of `cs_medcoupling_remapper_find_time_index` (lines 792-798) over the
indices of the list, left at the first index that fits. -/
def find_time_loop (time_steps : Int → ℚ) (t : ℚ) (id1 id2 : Int) :
    List Nat → Int × Int
  | [] => (id1, id2)
  | i :: l =>
    if t ≥ time_steps i ∧ t < time_steps (i + 1) then ((i : Int), (i : Int) + 1)
    else find_time_loop time_steps t id1 id2 l

/-- The function `cs_medcoupling_remapper_find_time_index` (lines 762-802); `id1`, `id2`
are the values of `*id1`, `*id2` before the call, the result their values after it. -/
def cs_medcoupling_remapper_find_time_index (ntsteps : Int) (time_steps : Int → ℚ)
    (t : ℚ) (id1 id2 : Int) : Int × Int :=
  if t < time_steps 0 then (0, 0)
  else if t > time_steps (ntsteps - 1) then (ntsteps - 1, ntsteps - 1)
  else find_time_loop time_steps t id1 id2 (List.range (ntsteps - 1).toNat)

/-! ## Restart files: `cs_suite.c` -/

/-- The return codes of `cs_suite.h` named in `cs_suite.c`; their integer values are not
in the sources (`CS_SUITE_SUCCES` is 0). -/
inductive cs_suite_err where
  | CS_SUITE_SUCCES
  | CS_SUITE_ERR_NUM_FIC
  | CS_SUITE_ERR_SUPPORT
  | CS_SUITE_ERR_TYPE_VAL
  | CS_SUITE_ERR_NBR_VAL
  | CS_SUITE_ERR_MODE
  | CS_SUITE_ERR_EXISTE
  deriving DecidableEq, Repr

/-- The value types `cs_type_t` named in `cs_suite.c`, and any other value. -/
inductive cs_type_t where
  | CS_TYPE_cs_int_t
  | CS_TYPE_cs_real_t
  | other (n : Nat)
  deriving DecidableEq, Repr

/-- The array of the Fortran API: `_restart_pointer_size` and the memory at
`_restart_pointer`.  The entries `ptr i` with `i < size` are the slots of the table
(`none` is `NULL`, `some h` the handle `h` of an open file); the entries with `size <= i`
stand for the memory that follows the table. -/
structure restart_pointers where
  size : Nat
  ptr : Nat → Option Nat

/-- What `clssui` leaves behind: `*ierror`, the memory at `_restart_pointer`, and two
ghost lists, the indices at which `_restart_pointer` was read and the handles given to
`cs_suite_detruit`. -/
structure clssui_result where
  ierror : cs_suite_err
  pointers : restart_pointers
  reads : List Nat
  destroyed : List Nat

/-- The function `clssui` (lines 1057-1096).  The test is
`indsui < 0 || indsui > (cs_int_t)_restart_pointer_size || _restart_pointer[indsui] == NULL`,
evaluated from left to right. -/
def clssui (numsui : Int) (t : restart_pointers) : clssui_result :=
  let indsui := numsui - 1
  if indsui < 0 ∨ indsui > (t.size : Int) then
    { ierror := cs_suite_err.CS_SUITE_ERR_NUM_FIC, pointers := t, reads := [],
      destroyed := [] }
  else
    match t.ptr indsui.toNat with
    | none =>
      { ierror := cs_suite_err.CS_SUITE_ERR_NUM_FIC, pointers := t,
        reads := [indsui.toNat], destroyed := [] }
    | some h =>
      { ierror := cs_suite_err.CS_SUITE_SUCCES,
        pointers := { t with ptr := Function.update t.ptr indsui.toNat none },
        reads := [indsui.toNat], destroyed := [h] }

/-- Body of the loop on `jj` of `_restart_permute_read` (lines 834-836 and 854-856):
`val_ord[ii++] = val_cur[(ini_ent_num[ent_id] - 1) * n_location_vals + jj]`; the state is
`val_ord` and `ii`. -/
def permute_read_step {α : Type} (ini_ent_num : Nat → Nat) (n_location_vals : Nat)
    (val_cur : Nat → α) (ent_id : Nat) (s : (Nat → α) × Nat) (jj : Nat) :
    (Nat → α) × Nat :=
  (Function.update s.1 s.2 (val_cur ((ini_ent_num ent_id - 1) * n_location_vals + jj)),
   s.2 + 1)

/-- The function `_restart_permute_read` (lines 808-870): the array `vals` after the
call.  `ini_ent_num = none` is `NULL`; `buf` is the content of the memory allocated for
`val_ord`. -/
def _restart_permute_read {α : Type} (n_ents : Nat) (ini_ent_num : Option (Nat → Nat))
    (n_location_vals : Nat) (datatype : cs_type_t) (buf vals : Nat → α) : Nat → α :=
  match ini_ent_num with
  | none => vals
  | some ini =>
    match datatype with
    | cs_type_t.other _ => vals
    | _ =>
      let val_ord := ((List.range n_ents).foldl
        (fun s ent_id => (List.range n_location_vals).foldl
          (permute_read_step ini n_location_vals vals ent_id) s) (buf, 0)).1
      (List.range (n_ents * n_location_vals)).foldl
        (fun val_cur ii => Function.update val_cur ii (val_ord ii)) vals

/-- Body of the loop on `jj` of `_restart_permute_write` (lines 912-914 and 929-931):
`val_ord[(ini_ent_num[ent_id] - 1) * n_location_vals + jj] = val_cur[ii++]`. -/
def permute_write_step {α : Type} (ini_ent_num : Nat → Nat) (n_location_vals : Nat)
    (val_cur : Nat → α) (ent_id : Nat) (s : (Nat → α) × Nat) (jj : Nat) :
    (Nat → α) × Nat :=
  (Function.update s.1 ((ini_ent_num ent_id - 1) * n_location_vals + jj) (val_cur s.2),
   s.2 + 1)

/-- The function `_restart_permute_write` (lines 886-943): the array it returns, `none`
for `NULL`.  `buf` is the content of the memory allocated for `val_ord`. -/
def _restart_permute_write {α : Type} (n_ents : Nat) (ini_ent_num : Option (Nat → Nat))
    (n_location_vals : Nat) (datatype : cs_type_t) (buf vals : Nat → α) :
    Option (Nat → α) :=
  match ini_ent_num with
  | none => none
  | some ini =>
    match datatype with
    | cs_type_t.other _ => none
    | _ =>
      some ((List.range n_ents).foldl
        (fun s ent_id => (List.range n_location_vals).foldl
          (permute_write_step ini n_location_vals vals ent_id) s) (buf, 0)).1

/-- The initial entity numbers are a permutation of `1..n_ents`. -/
def is_renumbering (n_ents : Nat) (ini_ent_num : Nat → Nat) : Prop :=
  (∀ e, e < n_ents → 1 ≤ ini_ent_num e ∧ ini_ent_num e ≤ n_ents) ∧
  (∀ e1 e2, e1 < n_ents → e2 < n_ents → ini_ent_num e1 = ini_ent_num e2 → e1 = e2)

/-! ## Checkpoint and restart of the face values: `cs_cdofb_vecteq.c` -/

/-- A call of the restart service: which function, with which section name, mesh
location and number of values per entity. -/
structure restart_call where
  func : String
  sec_name : String
  location_id : Int
  n_location_vals : Nat
  deriving DecidableEq, Repr

/-- What the two functions take from other files, as parameters of the model:
`cs_mesh_location_get_id_by_name`, the value `CS_RESTART_SUCCESS`, and the functions
`cs_restart_check_section`, `cs_restart_read_section` (it returns a code and the content
of the array it was given) and `cs_restart_write_section` on a restart file of type `R`,
for values of type `CS_TYPE_cs_real_t`. -/
structure restart_service (R : Type) where
  cs_mesh_location_get_id_by_name : String → Int
  CS_RESTART_SUCCESS : Int
  cs_restart_check_section : R → String → Int → Nat → Int
  cs_restart_read_section : R → String → Int → Nat → (Nat → ℚ) → Int × (Nat → ℚ)
  cs_restart_write_section : R → String → Int → Nat → (Nat → ℚ) → R

/-- The restart file, the array `eqc->face_values` and a ghost list: the calls of the
restart service so far. -/
structure restart_state (R : Type) where
  restart : R
  face_values : Nat → ℚ
  calls : List restart_call

/-- The statement `snprintf(sec_name, 127, "%s::...", eqname)`: at most 126 characters
are kept. -/
def section_name (eqname suffix : String) : String := (eqname ++ suffix).take 126

/-- A check of a section followed, if it succeeds, by its reading into the part of the
array `face_values` that starts at `shift` (lines 2060-2073 and 2085-2098). -/
def check_and_read {R : Type} (svc : restart_service R) (sec_name : String) (ml_id : Int)
    (n_location_vals shift : Nat) (s : restart_state R) : restart_state R :=
  let s1 : restart_state R :=
    { s with calls := s.calls ++ [⟨"cs_restart_check_section", sec_name, ml_id,
                                   n_location_vals⟩] }
  if svc.cs_restart_check_section s.restart sec_name ml_id n_location_vals
      = svc.CS_RESTART_SUCCESS then
    let r := svc.cs_restart_read_section s.restart sec_name ml_id n_location_vals
      (fun i => s.face_values (shift + i))
    { s1 with
      face_values := fun i => if shift ≤ i then r.2 (i - shift) else s.face_values i,
      calls := s1.calls ++ [⟨"cs_restart_read_section", sec_name, ml_id,
                             n_location_vals⟩] }
  else s1

/-- The function `cs_cdofb_vecteq_read_restart` (lines 2034-2102), with `n_i_faces` for
`cs_shared_quant->n_i_faces`.  A `NULL` pointer is `none`; the result `none` is a call of
`bft_error`. -/
def cs_cdofb_vecteq_read_restart {R : Type} (svc : restart_service R) (n_i_faces : Nat)
    (restart : Option R) (eqname : Option String) (scheme_context : Option (Nat → ℚ))
    (calls : List restart_call) : Option (Option (restart_state R)) :=
  match restart with
  | none => some none
  | some r =>
    match eqname with
    | none => none
    | some name =>
      match scheme_context with
      | none => none
      | some face_values =>
        let i_ml_id := svc.cs_mesh_location_get_id_by_name "interior_faces"
        let s1 := check_and_read svc (section_name name "::i_face_vals") i_ml_id 3 0
          { restart := r, face_values := face_values, calls := calls }
        let b_ml_id := svc.cs_mesh_location_get_id_by_name "boundary_faces"
        some (some (check_and_read svc (section_name name "::b_face_vals") b_ml_id 1
          (3 * n_i_faces) s1))

/-- A call of `cs_restart_write_section` with the part of the array `face_values` that
starts at `shift`. -/
def write_section {R : Type} (svc : restart_service R) (sec_name : String) (ml_id : Int)
    (n_location_vals shift : Nat) (s : restart_state R) : restart_state R :=
  { s with
    restart := svc.cs_restart_write_section s.restart sec_name ml_id n_location_vals
      (fun i => s.face_values (shift + i)),
    calls := s.calls ++ [⟨"cs_restart_write_section", sec_name, ml_id, n_location_vals⟩] }

/-- The function `cs_cdofb_vecteq_write_restart` (lines 2115-2163).  A `NULL` pointer is
`none`; the result `none` is a call of `bft_error`.  The scheme context is not tested
before it is read. -/
def cs_cdofb_vecteq_write_restart {R : Type} (svc : restart_service R) (n_i_faces : Nat)
    (restart : Option R) (eqname : Option String) (face_values : Nat → ℚ)
    (calls : List restart_call) : Option (Option (restart_state R)) :=
  match restart with
  | none => some none
  | some r =>
    match eqname with
    | none => none
    | some name =>
      let i_ml_id := svc.cs_mesh_location_get_id_by_name "interior_faces"
      let s1 := write_section svc (section_name name "::i_face_vals") i_ml_id 3 0
        { restart := r, face_values := face_values, calls := calls }
      let b_ml_id := svc.cs_mesh_location_get_id_by_name "boundary_faces"
      some (some (write_section svc (section_name name "::b_face_vals") b_ml_id 3
        (3 * n_i_faces) s1))

/-- A section of a restart file kept in memory: its name, its location, its number of
values per entity, its number of values and its values. -/
structure restart_section where
  sec_name : String
  location_id : Int
  n_location_vals : Nat
  n_vals : Nat
  vals : Nat → ℚ

/-- A restart service that keeps the sections in a list, for a mesh with `n_i_faces`
interior faces (location 2) and `n_b_faces` boundary faces (location 3).  A section is
checked and read by its name, its location and its number of values per entity (code 0
when one is found, -1 otherwise); the reading copies the values of the section to the
head of the array; the writing adds a section with the values of all the entities of the
location at the end of the list. -/
def list_service (n_i_faces n_b_faces : Nat) : restart_service (List restart_section) :=
  { cs_mesh_location_get_id_by_name := fun name =>
      if name = "interior_faces" then 2 else if name = "boundary_faces" then 3 else -1,
    CS_RESTART_SUCCESS := 0,
    cs_restart_check_section := fun r name loc n =>
      match r.find? (fun s => decide (s.sec_name = name ∧ s.location_id = loc
          ∧ s.n_location_vals = n)) with
      | some _ => 0
      | none => -1,
    cs_restart_read_section := fun r name loc n dest =>
      match r.find? (fun s => decide (s.sec_name = name ∧ s.location_id = loc
          ∧ s.n_location_vals = n)) with
      | some s => (0, fun i => if i < s.n_vals then s.vals i else dest i)
      | none => (-1, dest),
    cs_restart_write_section := fun r name loc n vals =>
      r ++ [{ sec_name := name, location_id := loc, n_location_vals := n,
              n_vals := (if loc = 2 then n_i_faces else if loc = 3 then n_b_faces else 0) * n,
              vals := vals }] }

/-! ## Reading a section of a restart file: `cs_suite_lit_rub` -/

/-- The element types `fvm_datatype_t` of `fvm_defs.h` (not in the sources). -/
inductive fvm_datatype_t where
  | FVM_DATATYPE_NULL
  | FVM_CHAR
  | FVM_FLOAT
  | FVM_DOUBLE
  | FVM_INT32
  | FVM_INT64
  | FVM_UINT32
  | FVM_UINT64
  deriving DecidableEq, Repr

/-- The fields of a section header `cs_io_sec_header_t` read in `cs_suite.c`. -/
structure cs_io_sec_header_t where
  sec_name : String
  n_vals : Nat
  location_id : Nat
  n_location_vals : Nat
  elt_type : fvm_datatype_t

/-- The fields of a location `_location_t` read by `cs_suite_lit_rub`. -/
structure _location_t where
  n_ents : Nat
  n_glob_ents_f : Nat
  n_glob_ents : Nat
  ent_global_num : Option (Nat → Nat)

/-- A restart file `cs_suite_t` opened for reading: the index of its file handle
(what `cs_io_get_index_size`, `cs_io_get_indexed_sec_name` and
`cs_io_get_indexed_sec_header` give), and its locations. -/
structure cs_suite_t where
  index : List cs_io_sec_header_t
  n_locations : Nat
  location : Nat → _location_t

/-- What `cs_suite_lit_rub` takes from other files, as parameters of the model:
`cs_glob_base_nbr`, `sizeof(cs_real_t)`, the table `fvm_datatype_size`, the function
`cs_io_set_fvm_lnum` on a header, the function `cs_io_read_global` (arguments: the
header, the record, the content of `val`; result: the new content of `val`), and the
reading in parallel `_read_ent_values` (same arguments). -/
structure lit_rub_externals where
  cs_glob_base_nbr : Nat
  sizeof_cs_real_t : Nat
  fvm_datatype_size : fvm_datatype_t → Nat
  cs_io_set_fvm_lnum : cs_io_sec_header_t → cs_io_sec_header_t
  cs_io_read_global : cs_io_sec_header_t → Nat → (Nat → ℚ) → (Nat → ℚ)
  _read_ent_values : cs_io_sec_header_t → Nat → (Nat → ℚ) → (Nat → ℚ)

/-- A loop on the records of the index that stops at the first record that fits: `l` is
the part of the index from the record `rec_id` on; the result is the record where the
loop stops, the size of the index when no record fits. -/
def find_from (fits : cs_io_sec_header_t → Bool) :
    List cs_io_sec_header_t → Nat → Nat
  | [], rec_id => rec_id
  | h :: l, rec_id => if fits h then rec_id else find_from fits l (rec_id + 1)

/-- The first loop of `cs_suite_lit_rub` (lines 1673-1677): the first record from
`rec_id` on whose name is `nom_rub`, or the size of the index. -/
def find_name (index : List cs_io_sec_header_t) (nom_rub : String) (rec_id : Nat) : Nat :=
  find_from (fun h => decide (h.sec_name = nom_rub)) (index.drop rec_id) rec_id

/-- The second loop of `cs_suite_lit_rub` (lines 1695-1701): the first record from
`rec_id` on whose name is `nom_rub` and whose location is `location_id`, or the size of
the index. -/
def find_name_location (index : List cs_io_sec_header_t) (nom_rub : String)
    (location_id : Int) (rec_id : Nat) : Nat :=
  find_from (fun h => decide (h.sec_name = nom_rub ∧ (h.location_id : Int) = location_id))
    (index.drop rec_id) rec_id

/-- The check of the type of the values in `cs_suite_lit_rub` (lines 1713-1727): the
header after the check, or `none` for the return of `CS_SUITE_ERR_TYPE_VAL`. -/
def check_elt_type (ext : lit_rub_externals) (header : cs_io_sec_header_t)
    (typ_val : cs_type_t) : Option cs_io_sec_header_t :=
  if header.elt_type = fvm_datatype_t.FVM_INT32
      ∨ header.elt_type = fvm_datatype_t.FVM_INT64 then
    if typ_val ≠ cs_type_t.CS_TYPE_cs_int_t then none
    else some (ext.cs_io_set_fvm_lnum header)
  else if header.elt_type = fvm_datatype_t.FVM_FLOAT
      ∨ header.elt_type = fvm_datatype_t.FVM_DOUBLE then
    let header1 : cs_io_sec_header_t :=
      if ext.sizeof_cs_real_t ≠ ext.fvm_datatype_size header.elt_type then
        if ext.sizeof_cs_real_t = ext.fvm_datatype_size fvm_datatype_t.FVM_FLOAT then
          { header with elt_type := fvm_datatype_t.FVM_FLOAT }
        else { header with elt_type := fvm_datatype_t.FVM_DOUBLE }
      else header
    if typ_val ≠ cs_type_t.CS_TYPE_cs_real_t then none
    else some header1
  else some header

/-- The function `cs_suite_lit_rub` (lines 1628-1798): the code it returns and the
content of `val` after the call.  `buf` is the content of the memory that
`_restart_permute_read` allocates. -/
def cs_suite_lit_rub (ext : lit_rub_externals) (suite : cs_suite_t) (nom_rub : String)
    (location_id : Int) (n_location_vals : Nat) (typ_val : cs_type_t)
    (buf val : Nat → ℚ) : cs_suite_err × (Nat → ℚ) :=
  let index_size := suite.index.length
  if location_id ≠ 0
      ∧ (location_id < 0 ∨ location_id > (suite.n_locations : Int)) then
    (cs_suite_err.CS_SUITE_ERR_SUPPORT, val)
  else if location_id ≠ 0
      ∧ (suite.location (location_id - 1).toNat).n_glob_ents_f
          ≠ (suite.location (location_id - 1).toNat).n_glob_ents then
    (cs_suite_err.CS_SUITE_ERR_SUPPORT, val)
  else
    let n_ents : Nat :=
      if location_id = 0 then n_location_vals
      else (suite.location (location_id - 1).toNat).n_ents
    let _n_location_vals : Nat := if location_id = 0 then 1 else n_location_vals
    let ent_global_num : Option (Nat → Nat) :=
      if location_id = 0 then none
      else (suite.location (location_id - 1).toNat).ent_global_num
    let rec_id := find_name suite.index nom_rub 0
    if rec_id ≥ index_size then (cs_suite_err.CS_SUITE_ERR_EXISTE, val)
    else
      match suite.index.get? rec_id with
      | none => (cs_suite_err.CS_SUITE_ERR_EXISTE, val)
      | some header0 =>
        let rec_id1 :=
          if (header0.location_id : Int) ≠ location_id then
            find_name_location suite.index nom_rub location_id (rec_id + 1)
          else rec_id
        if rec_id1 ≥ index_size then (cs_suite_err.CS_SUITE_ERR_SUPPORT, val)
        else
          match suite.index.get? rec_id1 with
          | none => (cs_suite_err.CS_SUITE_ERR_SUPPORT, val)
          | some header =>
            if (header.location_id > 0 ∧ header.n_location_vals ≠ n_location_vals)
                ∨ (header.location_id = 0 ∧ header.n_vals ≠ n_ents) then
              (cs_suite_err.CS_SUITE_ERR_NBR_VAL, val)
            else
              match check_elt_type ext header typ_val with
              | none => (cs_suite_err.CS_SUITE_ERR_TYPE_VAL, val)
              | some header1 =>
                if ext.cs_glob_base_nbr = 1 ∨ location_id = 0 then
                  let val1 := ext.cs_io_read_global header1 rec_id1 val
                  (cs_suite_err.CS_SUITE_SUCCES,
                   _restart_permute_read n_ents ent_global_num _n_location_vals typ_val
                     buf val1)
                else
                  (cs_suite_err.CS_SUITE_SUCCES, ext._read_ent_values header1 rec_id1 val)

/-! ## The least-squares gradient: `cgrdmc` -/

/-- Two owned cells sharing one interior face, no halo, no extended neighbourhood. -/
def mesh_two : cs_mesh_t :=
  { n_cells := 2, n_cells_with_ghosts := 2, n_i_faces := 1,
    i_face_cells := fun k => if k = 0 then 1 else 2,
    cell_cells_idx := none, cell_cells_lst := fun _ => 1, halo := none, n_domains := 1 }

/-- Cell centres of `mesh_two`: cell 0 at the origin, cell 1 at `(1, 0, 0)`. -/
def cen_two : Buf := fun k => if k = 3 then 1 else 0

/-- A field on `mesh_two`: 0 in cell 0 and 1 in cell 1. -/
def var_two : Buf := fun k => if k = 1 then 1 else 0

/-- A halo service that writes 3 into every ghost entry of a buffer with one owned cell. -/
def halo_three : cs_halo_t :=
  { sync_component := fun _ b i => if i < 1 then b i else 3,
    sync_var := fun _ b i => if i < 1 then b i else 3,
    perio_sync_var_vect := fun _ g => g }

/-- One owned cell and one ghost cell sharing an interior face, on a rank among two. -/
def mesh_halo : cs_mesh_t :=
  { n_cells := 1, n_cells_with_ghosts := 2, n_i_faces := 1,
    i_face_cells := fun k => if k = 0 then 1 else 2,
    cell_cells_idx := none, cell_cells_lst := fun _ => 1, halo := some halo_three,
    n_domains := 2 }

/-- A single owned cell without any interior face, no halo. -/
def mesh_one : cs_mesh_t :=
  { n_cells := 1, n_cells_with_ghosts := 1, n_i_faces := 0,
    i_face_cells := fun _ => 1,
    cell_cells_idx := none, cell_cells_lst := fun _ => 1, halo := none, n_domains := 1 }

/-- A local system with two face unknowns and two cell unknowns. -/
def block_two : BlockSystem 2 2 :=
  { A_ff := !![4, 1; 1, 3], A_fc := !![1, 0; 0, 1], A_cf := !![1, 0; 0, 1],
    A_cc := !![2, 1; 1, 1], b_f := ![1, 2], b_c := ![3, 4] }

/-- Externals for a cell with one face: the reset clears the enforcement data, the
boundary conditions flag the component 0 of the face as Dirichlet (flag 1). -/
def ext_one : init_externals :=
  { CS_FLAG_BOUNDARY_CELL_BY_FACE := 1,
    has_internal_enforcement := true,
    cs_cell_sys_reset := fun _ c =>
      { c with has_internal_enforcement := false, intern_forced_ids := fun _ => -1,
               dof_flag := fun _ => 0, rhs := fun _ => 0 },
    cs_sdm_block33_init := fun _ _ _ => fun _ _ _ => 0,
    cs_equation_fb_set_cell_bc := fun _ _ _ c =>
      { c with dof_flag := fun j => if j = 0 then 1 else 0 },
    cs_cdo_bc_is_dirichlet := fun flag => decide (flag = 1) }

/-- A cell with the single face 5. -/
def cm_one : cs_cell_mesh_t := { c_id := 0, n_fc := 1, f_ids := fun _ => 5, vol_c := 1 }

/-- A cellwise system before its initialisation. -/
def csys_any : cs_cell_sys_t :=
  { cell_flag := 0, c_id := 0, n_dofs := 0, dof_ids := fun _ => 0, dof_flag := fun _ => 0,
    mat := fun _ _ _ => 0, rhs := fun _ => 0, val_n := fun _ => 0,
    has_internal_enforcement := false, intern_forced_ids := fun _ => 0,
    has_nhmg_neumann := false, neu_values := fun _ => 0, has_sliding := false }

/-- Uninitialised memory full of zeros. -/
def work_any : Work := { denum := fun _ => 0, denom := fun _ => 0 }

/-- An equation with a convection term only: upwind scheme, conservative formulation. -/
def eqp_upwind : cs_equation_param_t :=
  { space_scheme_cdofb := true, dim := 3, has_diffusion := false, has_convection := true,
    has_reaction := false, has_time := false, has_sourceterm := false,
    diffusion_hodge_algo := cs_param_hodge_algo_t.CS_PARAM_HODGE_ALGO_COST,
    diffusion_hodge_is_iso := true,
    reaction_hodge_algo := cs_param_hodge_algo_t.CS_PARAM_HODGE_ALGO_VORONOI,
    time_hodge_algo := cs_param_hodge_algo_t.CS_PARAM_HODGE_ALGO_VORONOI,
    do_lumping := false,
    default_enforcement := cs_param_bc_enforce_t.CS_PARAM_BC_ENFORCE_ALGEBRAIC,
    adv_formulation := cs_param_advection_form_t.CS_PARAM_ADVECTION_FORM_CONSERV,
    adv_scheme := cs_param_advection_scheme_t.CS_PARAM_ADVECTION_SCHEME_UPWIND,
    theta := 1 }

/-- A builder without sliding face, no bit of `sys_flag` set. -/
def eqb_any : cs_equation_builder_t :=
  { sys_time_diag := false, sys_mass_matrix := false, n_sliding_faces := 0 }

/-- An equation without any term, with valid settings. -/
def eqp_none : cs_equation_param_t :=
  { eqp_upwind with has_convection := false }

/-- A cell builder with the reaction property 2 and the time property 3 in the cell. -/
def cb_any : cs_cell_builder_t :=
  { loc_val := fun _ => 0, values := fun _ => 0, rpty_val := 2, tpty_val := 3 }

/-- The structures of a thread before the first cell. -/
def st_any : CellState := { csys := csys_any, cb := cb_any, calls := [] }

/-- Externals for the build of a cell with one face: the stiffness is `S[i] = i + 1`, the
advection operator is 5 everywhere, the other callbacks change nothing, the product
matrix-vector is that of 2 x 2 blocks and the values of the matrix are stored block after
block. -/
def ext_build : build_externals :=
  { init := ext_one,
    get_stiffness_matrix := fun _ cb => { cb with loc_val := fun i => (i : ℚ) + 1 },
    cs_cdofb_advection_build := fun _ _ cb => { cb with loc_val := fun _ => 5 },
    enforce_dirichlet := fun _ x => x,
    enforce_sliding := fun _ x => x,
    cs_equation_enforced_internal_block_dofs := fun x => x,
    cs_cdofb_vecteq_sourceterm := fun _ _ _ x => x,
    cs_equation_init_properties_cw := fun _ _ _ cb => cb,
    cs_equation_init_properties := fun _ cb => cb,
    cs_sdm_block_matvec := fun m v i =>
      ((List.range 2).map (fun bj =>
        ((List.range 3).map (fun c => m (i / 3) bj (3 * (i % 3) + c) * v (3 * bj + c))).sum)).sum,
    cs_static_condensation_vector_eq := fun x => x,
    mat_val_index := fun n bi bj e => 9 * (n * bi + bj) + e }

/-- A builder with the bit `CS_FLAG_SYS_TIME_DIAG` set. -/
def eqb_diag : cs_equation_builder_t := { eqb_any with sys_time_diag := true }

/-- An unsteady equation without any other term, with `theta = 1/2`. -/
def eqp_half : cs_equation_param_t := { eqp_none with has_time := true, theta := 1 / 2 }

/-- A cellwise system of a cell with one face: every block is the identity, the
right-hand side is 10 and the previous values are 1. -/
def st_theta : CellState :=
  { st_any with
    csys := { csys_any with
      n_dofs := 6,
      mat := fun _ _ e => if e = 0 ∨ e = 4 ∨ e = 8 then 1 else 0,
      rhs := fun _ => 10,
      val_n := fun _ => 1 } }

/-- The structures of a thread on a boundary cell (flag 1). -/
def st_bnd : CellState := { st_any with csys := { csys_any with cell_flag := 1 } }

/-- An equation with a diffusion term and a weak symmetric enforcement of the Dirichlet
conditions. -/
def eqp_weak : cs_equation_param_t :=
  { eqp_none with
    has_diffusion := true,
    default_enforcement := cs_param_bc_enforce_t.CS_PARAM_BC_ENFORCE_WEAK_SYM }

/-- The structures of a thread on a cell with one face, after the initialisation of the
cellwise system: 6 unknowns, a zero matrix. -/
def st_zero : CellState := { st_any with csys := { csys_any with n_dofs := 6 } }

/-- An equation with diffusion, upwind convection and reaction. -/
def eqp_full : cs_equation_param_t :=
  { eqp_upwind with has_diffusion := true, has_reaction := true }

/-- A sequence of build steps: diffusion, advection and reaction, then the time scheme of
`cs_cdofb_vecteq_solve_theta`, the multiplication by `theta = 1/2` and the mass term. -/
def steps_theta : List build_step :=
  [build_step.conv_diff_reac eqp_full 0, build_step.theta_rescale (1 / 2),
   build_step.time_term eqb_diag 2]

/-- Shared arrays of a mesh whose cells are interior cells with the single face 5, zero
fields, no enforced unknown. -/
def inp_one : cell_inputs :=
  { cell_flag := fun _ => 0, cell_mesh := fun _ => cm_one, face_values := fun _ => 0,
    dir_values := fun _ => 0, enforced_ids := fun _ => -1, fld_val := fun _ => 0,
    source_terms := fun _ => 0 }

/-- A steady equation with a reaction term only. -/
def eqp_reac : cs_equation_param_t := { eqp_none with has_reaction := true }

/-- An unsteady equation with a reaction term only, with `theta = 1/2`. -/
def eqp_reac_time : cs_equation_param_t := { eqp_half with has_reaction := true }

/-- An unsteady equation with a diffusion term whose Hodge operator is not isotropic. -/
def eqp_noniso : cs_equation_param_t :=
  { eqp_half with has_diffusion := true, diffusion_hodge_is_iso := false }

/-- An unsteady equation whose time Hodge operator is COST without lumping. -/
def eqp_nodiag : cs_equation_param_t :=
  { eqp_half with
    time_hodge_algo := cs_param_hodge_algo_t.CS_PARAM_HODGE_ALGO_COST, do_lumping := false }

/-- Three cells in a row, on one rank: the faces are 0 = (cell 0, cell 1) and
1 = (cell 1, cell 2). -/
def mesh_row : cs_mesh_t :=
  { n_cells := 3, n_cells_with_ghosts := 3, n_i_faces := 2,
    i_face_cells := fun k => if k = 0 then 1 else if k = 1 then 2 else if k = 2 then 2 else 3,
    cell_cells_idx := none, cell_cells_lst := fun _ => 1, halo := none, n_domains := 1 }

/-- Cell centres of `mesh_row`: cell `i` at `(i, 0, 0)`. -/
def cen_row : Buf := fun k => if k = 3 then 1 else if k = 6 then 2 else 0

/-- A field on `mesh_row`: 0, 199 and 399. -/
def var_row : Buf := fun k => if k = 0 then 0 else if k = 1 then 199 else 399

/-- A halo service that leaves the buffers as they are: the ghost entries already hold
the values of the cells they stand for. -/
def halo_keep : cs_halo_t :=
  { sync_component := fun _ b => b, sync_var := fun _ b => b,
    perio_sync_var_vect := fun _ g => g }

/-- The part of `mesh_row` on the rank that owns the cells 0 and 1, among two ranks: the
cell 2 is its ghost cell, and its faces are numbered 0 = (cell 1, cell 2) and
1 = (cell 0, cell 1). -/
def mesh_row_a : cs_mesh_t :=
  { n_cells := 2, n_cells_with_ghosts := 3, n_i_faces := 2,
    i_face_cells := fun k => if k = 0 then 2 else if k = 1 then 3 else if k = 2 then 1 else 2,
    cell_cells_idx := none, cell_cells_lst := fun _ => 1, halo := some halo_keep,
    n_domains := 2 }

/-- The part of `mesh_row` on the rank that owns the cell 2, as its cell 0, among two
ranks: its ghost cell 1 stands for the cell 1 of `mesh_row`, and its only face is
(cell 1 of `mesh_row`, cell 2 of `mesh_row`). -/
def mesh_row_b : cs_mesh_t :=
  { n_cells := 1, n_cells_with_ghosts := 2, n_i_faces := 1,
    i_face_cells := fun k => if k = 0 then 2 else 1,
    cell_cells_idx := none, cell_cells_lst := fun _ => 1, halo := some halo_keep,
    n_domains := 2 }

/-- Cell centres on `mesh_row_b`: its cell 0 at `(2, 0, 0)`, its ghost cell at
`(1, 0, 0)`. -/
def cen_row_b : Buf := fun k => if k = 0 then 2 else if k = 3 then 1 else 0

/-- The field `var_row` on `mesh_row_b`: 399 in its cell 0, 199 in its ghost cell. -/
def var_row_b : Buf := fun k => if k = 0 then 399 else 199

/-- Mode 1 on `mesh_row`, with the gradient `(200, 0, 0)` in every cell and
`climgp = 1`. -/
def run_row : Result :=
  clmgrd mesh_row cen_row work_any (fun _ => 0) 0 1 0 1 var_row
    (fun _ => 200) (fun _ => 0) (fun _ => 0)

/-- The same run on the rank of `mesh_row_a`. -/
def run_row_a : Result :=
  clmgrd mesh_row_a cen_row work_any (fun _ => 0) 0 1 0 1 var_row
    (fun _ => 200) (fun _ => 0) (fun _ => 0)

/-- The same run on the rank of `mesh_row_b`. -/
def run_row_b : Result :=
  clmgrd mesh_row_b cen_row_b work_any (fun _ => 0) 0 1 0 1 var_row_b
    (fun _ => 200) (fun _ => 0) (fun _ => 0)

/-- One boundary face on the cell 0, pressure 10 in the cell, `k = 3` in the cell,
density 1 at the face, zero gradients, coefficients `a = 0`, `b = 1` for both fields, and
a `k-epsilon` model (`itytur = 2`). -/
def env_k : b_pressure_env :=
  { b_face_cells := fun _ => 0, diipb := fun _ _ => 0,
    p := { val := fun _ => 10, bc_a := fun _ => 0, bc_b := fun _ => 1 },
    k := { val := fun _ => 3, bc_a := fun _ => 0, bc_b := fun _ => 1 },
    rho_b := fun _ => 1, gradp := fun _ _ => 0, gradk := fun _ _ => 0, itytur := 2 }

/-- Two time steps stored in a remapper: the times 0 and 1. -/
def time_steps_two : Int → ℚ := fun i => if i = 0 then 0 else 1

/-- A table of two slots, the first with the open file 1 and the second empty, followed
in memory by the word 9. -/
def pointers_two : restart_pointers :=
  { size := 2, ptr := fun i => if i = 0 then some 1 else if i = 2 then some 9 else none }

/-- A table of two slots, the first with the open file 1 and the second empty, followed
in memory by zeros. -/
def pointers_two_null : restart_pointers :=
  { size := 2, ptr := fun i => if i = 0 then some 1 else none }

/-- The renumbering of two entities that swaps them: the entity 0 had the number 2 and
the entity 1 the number 1. -/
def ini_swap : Nat → Nat := fun e => if e = 0 then 2 else 1

/-- A field on `mesh_two`: 0 in cell 0 and 199 in cell 1. -/
def var_199 : Buf := fun k => if k = 1 then 199 else 0

/-- A restart file with the location "cells" of 5 entities, as `cs_suite_ajoute_support`
writes it: the index holds the record of the location, with the name of the location,
its number as location, one value of type `FVM_UINT64` and 0 value per entity. -/
def suite_cells : cs_suite_t :=
  { index := [{ sec_name := "cells", n_vals := 1, location_id := 1, n_location_vals := 0,
                elt_type := fvm_datatype_t.FVM_UINT64 }],
    n_locations := 1,
    location := fun _ =>
      { n_ents := 5, n_glob_ents_f := 5, n_glob_ents := 5, ent_global_num := none } }

/-- Externals of a run on one process with 8-byte reals; the reading of a record writes 7
in the first `n_vals` entries of the array. -/
def ext_lit : lit_rub_externals :=
  { cs_glob_base_nbr := 1, sizeof_cs_real_t := 8,
    fvm_datatype_size := fun t => if t = fvm_datatype_t.FVM_FLOAT then 4 else 8,
    cs_io_set_fvm_lnum := fun h => h,
    cs_io_read_global := fun h _ v => fun i => if i < h.n_vals then 7 else v i,
    _read_ent_values := fun _ _ v => v }

theorem dist_dot_swap (cell_cen : Buf) (a b : Nat) (gx gy gz : ℚ) :
    dist_dot cell_cen a b gx gy gz = - dist_dot cell_cen b a gx gy gz := by
  unfold dist_dot cen_diff
  ring

theorem abs_dist_dot_swap (cell_cen : Buf) (a b : Nat) (gx gy gz : ℚ) :
    |dist_dot cell_cen a b gx gy gz| = |dist_dot cell_cen b a gx gy gz| := by
  rw [dist_dot_swap, abs_neg]

/-- A loop whose body raises one observed value to the maximum with a list of
contributions raises it to the maximum with all the contributions. -/
theorem foldl_max_pointwise {σ α : Type} (step : σ → α → σ) (proj : σ → ℚ)
    (c : α → List ℚ) (h : ∀ s a, proj (step s a) = (c a).foldl max (proj s)) :
    ∀ (l : List α) (s : σ), proj (l.foldl step s) = (l.flatMap c).foldl max (proj s) := by
  intro l
  induction l with
  | nil => intro s; rfl
  | cons a l ih =>
    intro s
    rw [List.foldl_cons, ih, h, List.flatMap_cons, List.foldl_append]

/-- Only the entry `k` of the range contributes when the contributions of the other
entries are empty. -/
theorem flatMap_range_single {β : Type} (c : Nat → List β) (k : Nat) :
    ∀ n, (List.range n).flatMap (fun i => if i = k then c i else [])
      = if k < n then c k else [] := by
  intro n
  induction n with
  | zero => simp
  | succ n ih =>
    rw [List.range_succ, List.flatMap_append, ih]
    by_cases h1 : k < n
    · have h2 : n ≠ k := by omega
      have h3 : k < n + 1 := by omega
      simp [h1, h2, h3]
    · by_cases h2 : n = k
      · subst h2
        simp
      · have h3 : ¬ k < n + 1 := by omega
        simp [h1, h2, h3]

theorem foldl_max_ge_init (l : List ℚ) (a : ℚ) : a ≤ l.foldl max a := by
  induction l generalizing a with
  | nil => exact le_refl a
  | cons b l ih => exact le_trans (le_max_left a b) (ih (max a b))

theorem foldl_max_ge_mem (l : List ℚ) (a x : ℚ) (hx : x ∈ l) : x ≤ l.foldl max a := by
  induction l generalizing a with
  | nil => cases hx
  | cons b l ih =>
    rcases List.mem_cons.mp hx with h | h
    · subst h
      exact le_trans (le_max_right a x) (foldl_max_ge_init l (max a x))
    · exact ih (max a b) h

theorem foldl_max_scale (l : List ℚ) (a f : ℚ) (hf : 0 ≤ f) :
    (l.map (fun x => f * x)).foldl max (f * a) = f * l.foldl max a := by
  induction l generalizing a with
  | nil => rfl
  | cons b l ih =>
    simp only [List.map_cons, List.foldl_cons]
    rw [← mul_max_of_nonneg a b hf, ih]

theorem max0_nonneg (l : List ℚ) : 0 ≤ max0 l := foldl_max_ge_init l 0

theorem max0_ge_mem (l : List ℚ) (x : ℚ) (hx : x ∈ l) : x ≤ max0 l :=
  foldl_max_ge_mem l 0 x hx

theorem max0_scale (l : List ℚ) (f : ℚ) (hf : 0 ≤ f) :
    max0 (l.map (fun x => f * x)) = f * max0 l := by
  have h := foldl_max_scale l 0 f hf
  rw [mul_zero] at h
  exact h

/-- Two successive `CS_MAX` updates of an array, read at entry `k`. -/
theorem update2_max (d : Buf) (i1 i2 k : Nat) (a b : ℚ) :
    Function.update (Function.update d i1 (max (d i1) a)) i2
        (max (Function.update d i1 (max (d i1) a) i2) b) k
      = ((if i1 = k then [a] else []) ++ (if i2 = k then [b] else [])).foldl max (d k) := by
  by_cases h1 : i1 = k
  · subst h1
    by_cases h2 : i2 = i1
    · subst h2
      simp
    · have h3 : i1 ≠ i2 := fun h => h2 h.symm
      simp [h2, Function.update_noteq h3]
  · by_cases h2 : i2 = k
    · subst h2
      have h3 : i2 ≠ i1 := fun h => h1 h.symm
      simp [h1, Function.update_noteq h3]
    · have h3 : k ≠ i2 := fun h => h2 h.symm
      have h4 : k ≠ i1 := fun h => h1 h.symm
      simp [h1, h2, Function.update_noteq h3, Function.update_noteq h4]

/-- Two successive `CS_MIN` updates of an array, read at entry `k`. -/
theorem update2_min (d : Buf) (i1 i2 k : Nat) (a b : ℚ) :
    Function.update (Function.update d i1 (min (d i1) a)) i2
        (min (Function.update d i1 (min (d i1) a) i2) b) k
      = ((if i1 = k then [a] else []) ++ (if i2 = k then [b] else [])).foldl min (d k) := by
  by_cases h1 : i1 = k
  · subst h1
    by_cases h2 : i2 = i1
    · subst h2
      simp
    · have h3 : i1 ≠ i2 := fun h => h2 h.symm
      simp [h2, Function.update_noteq h3]
  · by_cases h2 : i2 = k
    · subst h2
      have h3 : i2 ≠ i1 := fun h => h1 h.symm
      simp [h1, Function.update_noteq h3]
    · have h3 : k ≠ i2 := fun h => h2 h.symm
      have h4 : k ≠ i1 := fun h => h1 h.symm
      simp [h1, h2, Function.update_noteq h3, Function.update_noteq h4]

/-- One `CS_MAX` update of an array, read at entry `k`. -/
theorem update1_max (d : Buf) (i1 k : Nat) (a : ℚ) :
    Function.update d i1 (max (d i1) a) k
      = (if i1 = k then [a] else []).foldl max (d k) := by
  by_cases h1 : i1 = k
  · subst h1
    simp
  · have h4 : k ≠ i1 := fun h => h1 h.symm
    simp [h1, Function.update_noteq h4]

/-! ### First computations of mode 0 -/

theorem faces_step_0_denum (mesh : cs_mesh_t) (cell_cen var dpdx dpdy dpdz : Buf)
    (k : Nat) (w : Work) (f : Nat) :
    (faces_step_0 mesh cell_cen var dpdx dpdy dpdz w f).denum k
      = ((face_nbrs mesh k f).map
          (fun j => |dist_dot cell_cen k j (dpdx k) (dpdy k) (dpdz k)|)).foldl max
          (w.denum k) := by
  show Function.update (Function.update w.denum (face_i1 mesh f) _) (face_i2 mesh f) _ k = _
  rw [update2_max]
  congr 1
  unfold face_nbrs
  by_cases h1 : face_i1 mesh f = k
  · by_cases h2 : face_i2 mesh f = k
    · rw [if_pos h1, if_pos h2, if_pos h1, if_pos h2, h1, h2]
      rfl
    · rw [if_pos h1, if_neg h2, if_pos h1, if_neg h2, h1]
      rfl
  · by_cases h2 : face_i2 mesh f = k
    · rw [if_neg h1, if_pos h2, if_neg h1, if_pos h2, h2,
        abs_dist_dot_swap cell_cen (face_i1 mesh f) k]
      rfl
    · rw [if_neg h1, if_neg h2, if_neg h1, if_neg h2]
      rfl

theorem faces_step_0_denom (mesh : cs_mesh_t) (cell_cen var dpdx dpdy dpdz : Buf)
    (k : Nat) (w : Work) (f : Nat) :
    (faces_step_0 mesh cell_cen var dpdx dpdy dpdz w f).denom k
      = ((face_nbrs mesh k f).map (fun j => |var k - var j|)).foldl max (w.denom k) := by
  show Function.update (Function.update w.denom (face_i1 mesh f) _) (face_i2 mesh f) _ k = _
  rw [update2_max]
  congr 1
  unfold face_nbrs
  by_cases h1 : face_i1 mesh f = k
  · by_cases h2 : face_i2 mesh f = k
    · rw [if_pos h1, if_pos h2, if_pos h1, if_pos h2, h1, h2]
      rfl
    · rw [if_pos h1, if_neg h2, if_pos h1, if_neg h2, h1]
      rfl
  · by_cases h2 : face_i2 mesh f = k
    · rw [if_neg h1, if_pos h2, if_neg h1, if_pos h2, h2, abs_sub_comm (var (face_i1 mesh f))]
      rfl
    · rw [if_neg h1, if_neg h2, if_neg h1, if_neg h2]
      rfl

theorem ext_inner_0_denum (mesh : cs_mesh_t) (cell_cen var dpdx dpdy dpdz : Buf)
    (i1 k : Nat) (w : Work) (j : Nat) :
    (ext_inner_0 mesh cell_cen var dpdx dpdy dpdz i1 w j).denum k
      = (if i1 = k then
          [|dist_dot cell_cen i1 (mesh.cell_cells_lst j - 1) (dpdx i1) (dpdy i1) (dpdz i1)|]
         else []).foldl max (w.denum k) :=
  update1_max w.denum i1 k _

theorem ext_inner_0_denom (mesh : cs_mesh_t) (cell_cen var dpdx dpdy dpdz : Buf)
    (i1 k : Nat) (w : Work) (j : Nat) :
    (ext_inner_0 mesh cell_cen var dpdx dpdy dpdz i1 w j).denom k
      = (if i1 = k then [|var i1 - var (mesh.cell_cells_lst j - 1)|]
         else []).foldl max (w.denom k) :=
  update1_max w.denom i1 k _

theorem flatMap_if_singleton {β : Type} (p : Prop) [Decidable p] (c : Nat → β)
    (l : List Nat) :
    l.flatMap (fun j => if p then [c j] else []) = if p then l.map c else [] := by
  by_cases hp : p
  · simp only [if_pos hp]
    induction l with
    | nil => rfl
    | cons a l ih => rw [List.flatMap_cons, ih]; rfl
  · simp only [if_neg hp]
    induction l with
    | nil => rfl
    | cons a l ih => rw [List.flatMap_cons, ih]; rfl

/-- The nested loop of the extended neighbourhood, read at entry `k`: only the turn
`i1 = k` of the outer loop contributes. -/
theorem ext_fold_pointwise {σ : Type} (inner : Nat → σ → Nat → σ) (proj : σ → ℚ) (k : Nat)
    (c : Nat → Nat → ℚ)
    (h : ∀ i1 s j, proj (inner i1 s j) = (if i1 = k then [c i1 j] else []).foldl max (proj s))
    (L : Nat → List Nat) (n : Nat) (s : σ) :
    proj ((List.range n).foldl (fun s i1 => (L i1).foldl (inner i1) s) s)
      = (if k < n then (L k).map (c k) else []).foldl max (proj s) := by
  have hin : ∀ s i1, proj ((L i1).foldl (inner i1) s)
      = (if i1 = k then (L i1).map (c i1) else []).foldl max (proj s) := by
    intro s i1
    rw [foldl_max_pointwise (inner i1) proj (fun j => if i1 = k then [c i1 j] else [])
      (fun s a => h i1 s a), flatMap_if_singleton]
  rw [foldl_max_pointwise (fun s i1 => (L i1).foldl (inner i1) s) proj
    (fun i1 => if i1 = k then (L i1).map (c i1) else []) hin,
    flatMap_range_single (fun i => (L i).map (c i)) k n]

/-- Mode 0: the buffer `denum` of an owned cell is the maximum that the specification
describes. -/
theorem first_0_denum (mesh : cs_mesh_t) (cell_cen : Buf) (buf : Work) (imrgra : Int)
    (var dpdx dpdy dpdz : Buf) (i : Nat) (hi : i < mesh.n_cells)
    (hn : mesh.n_cells ≤ mesh.n_cells_with_ghosts) :
    (first_0 mesh cell_cen buf imrgra var dpdx dpdy dpdz).denum i
      = denum_spec_0 mesh cell_cen imrgra dpdx dpdy dpdz i := by
  have hf := foldl_max_pointwise (faces_step_0 mesh cell_cen var dpdx dpdy dpdz)
    (fun w => w.denum i)
    (fun f => (face_nbrs mesh i f).map
      (fun j => |dist_dot cell_cen i j (dpdx i) (dpdy i) (dpdz i)|))
    (fun s a => faces_step_0_denum mesh cell_cen var dpdx dpdy dpdz i s a)
    (List.range mesh.n_i_faces) (work_zero mesh buf)
  have h0 : (work_zero mesh buf).denum i = 0 := by
    show (if i < mesh.n_cells_with_ghosts then (0 : ℚ) else buf.denum i) = 0
    rw [if_pos (by omega)]
  simp only [h0] at hf
  unfold first_0 denum_spec_0 max0 nbrs ext_loop_0 ext_nbrs halo_type_of
  rw [List.map_append, List.foldl_append, List.map_flatMap]
  cases hidx : mesh.cell_cells_idx with
  | none => simpa using hf
  | some idx =>
    by_cases hext : imrgra = 2 ∨ imrgra = 3
    · simp only [if_pos hext, if_true]
      rw [ext_fold_pointwise (ext_inner_0 mesh cell_cen var dpdx dpdy dpdz)
        (fun w => w.denum i) i
        (fun i1 j => |dist_dot cell_cen i1 (mesh.cell_cells_lst j - 1)
          (dpdx i1) (dpdy i1) (dpdz i1)|)
        (fun i1 s j => ext_inner_0_denum mesh cell_cen var dpdx dpdy dpdz i1 i s j),
        if_pos hi, hf, List.map_map]
      rfl
    · simp only [if_neg hext]
      simpa using hf

/-- Mode 0: the buffer `denom` of an owned cell is the maximum that the specification
describes. -/
theorem first_0_denom (mesh : cs_mesh_t) (cell_cen : Buf) (buf : Work) (imrgra : Int)
    (var dpdx dpdy dpdz : Buf) (i : Nat) (hi : i < mesh.n_cells)
    (hn : mesh.n_cells ≤ mesh.n_cells_with_ghosts) :
    (first_0 mesh cell_cen buf imrgra var dpdx dpdy dpdz).denom i
      = denom_spec mesh imrgra var i := by
  have hf := foldl_max_pointwise (faces_step_0 mesh cell_cen var dpdx dpdy dpdz)
    (fun w => w.denom i)
    (fun f => (face_nbrs mesh i f).map (fun j => |var i - var j|))
    (fun s a => faces_step_0_denom mesh cell_cen var dpdx dpdy dpdz i s a)
    (List.range mesh.n_i_faces) (work_zero mesh buf)
  have h0 : (work_zero mesh buf).denom i = 0 := by
    show (if i < mesh.n_cells_with_ghosts then (0 : ℚ) else buf.denom i) = 0
    rw [if_pos (by omega)]
  simp only [h0] at hf
  unfold first_0 denom_spec max0 nbrs ext_loop_0 ext_nbrs halo_type_of
  rw [List.map_append, List.foldl_append, List.map_flatMap]
  cases hidx : mesh.cell_cells_idx with
  | none => simpa using hf
  | some idx =>
    by_cases hext : imrgra = 2 ∨ imrgra = 3
    · simp only [if_pos hext, if_true]
      rw [ext_fold_pointwise (ext_inner_0 mesh cell_cen var dpdx dpdy dpdz)
        (fun w => w.denom i) i
        (fun i1 j => |var i1 - var (mesh.cell_cells_lst j - 1)|)
        (fun i1 s j => ext_inner_0_denom mesh cell_cen var dpdx dpdy dpdz i1 i s j),
        if_pos hi, hf, List.map_map]
      rfl
    · simp only [if_neg hext]
      simpa using hf

/-! ### Clipping of mode 0 -/

/-- One turn of the loop on cells of mode 0, read at cell `k`. -/
theorem clip_step_0_at (climgp : ℚ) (w : Work) (s : Clip) (i k : Nat) :
    (clip_step_0 climgp w s i).dpdx k
        = (if i = k ∧ w.denum k > climgp * w.denom k
            then s.dpdx k * (climgp * w.denom k / w.denum k) else s.dpdx k)
      ∧ (clip_step_0 climgp w s i).dpdy k
        = (if i = k ∧ w.denum k > climgp * w.denom k
            then s.dpdy k * (climgp * w.denom k / w.denum k) else s.dpdy k)
      ∧ (clip_step_0 climgp w s i).dpdz k
        = (if i = k ∧ w.denum k > climgp * w.denom k
            then s.dpdz k * (climgp * w.denom k / w.denum k) else s.dpdz k)
      ∧ (clip_step_0 climgp w s i).clip_factor k
        = (if i = k ∧ w.denum k > climgp * w.denom k
            then climgp * w.denom k / w.denum k else s.clip_factor k) := by
  unfold clip_step_0
  by_cases hk : i = k
  · subst hk
    by_cases hg : w.denum i > climgp * w.denom i
    · simp [hg]
    · simp [hg]
  · have hk2 : k ≠ i := fun h => hk h.symm
    by_cases hg : w.denum i > climgp * w.denom i
    · simp [hg, hk, Function.update_noteq hk2]
    · simp [hg, hk]

/-- The gradient and the recorded factor after the first `n` turns of the loop on cells
of mode 0. -/
theorem clip_0_fold_pointwise (climgp : ℚ) (w : Work) (dpdx dpdy dpdz : Buf) (n k : Nat) :
    let s := (List.range n).foldl (clip_step_0 climgp w) (clip_init dpdx dpdy dpdz)
    let f : ℚ := if k < n ∧ w.denum k > climgp * w.denom k
      then climgp * w.denom k / w.denum k else 1
    s.dpdx k = dpdx k * f ∧ s.dpdy k = dpdy k * f ∧ s.dpdz k = dpdz k * f
      ∧ s.clip_factor k = f := by
  induction n with
  | zero => simp [clip_init]
  | succ n ih =>
    intro s f
    have hs : s = clip_step_0 climgp w
        ((List.range n).foldl (clip_step_0 climgp w) (clip_init dpdx dpdy dpdz)) n := by
      show (List.range (n + 1)).foldl _ _ = _
      rw [List.range_succ, List.foldl_append]
      rfl
    obtain ⟨ihx, ihy, ihz, ihf⟩ := ih
    obtain ⟨hx, hy, hz, hc⟩ := clip_step_0_at climgp w
      ((List.range n).foldl (clip_step_0 climgp w) (clip_init dpdx dpdy dpdz)) n k
    rw [hs, hx, hy, hz, hc, ihx, ihy, ihz, ihf]
    show _ = dpdx k * (if k < n + 1 ∧ w.denum k > climgp * w.denom k then _ else _)
      ∧ _ = dpdy k * (if k < n + 1 ∧ w.denum k > climgp * w.denom k then _ else _)
      ∧ _ = dpdz k * (if k < n + 1 ∧ w.denum k > climgp * w.denom k then _ else _)
      ∧ _ = (if k < n + 1 ∧ w.denum k > climgp * w.denom k then _ else _)
    by_cases hg : w.denum k > climgp * w.denom k
    · by_cases hk : n = k
      · have h1 : ¬ k < n := by omega
        have h2 : k < n + 1 := by omega
        simp [hg, hk, h1, h2]
      · by_cases h1 : k < n
        · have h2 : k < n + 1 := by omega
          simp [hg, hk, h1, h2]
        · have h2 : ¬ k < n + 1 := by omega
          simp [hg, hk, h1, h2]
    · simp [hg]

/-! ### The function in mode 0 -/

theorem sync_grad_owned (mesh : cs_mesh_t) (hk : halo_keeps_owned mesh) (imrgra itenso : Int)
    (g : Buf × Buf × Buf) (i : Nat) (hi : i < mesh.n_cells) :
    (sync_grad mesh imrgra itenso g).1 i = g.1 i
      ∧ (sync_grad mesh imrgra itenso g).2.1 i = g.2.1 i
      ∧ (sync_grad mesh imrgra itenso g).2.2 i = g.2.2 i := by
  unfold sync_grad
  cases hh : mesh.halo with
  | none => exact ⟨rfl, rfl, rfl⟩
  | some halo =>
    obtain ⟨hc, hv, hp⟩ := hk halo hh (halo_type_of imrgra) i hi
    by_cases ht : itenso = 2
    · simp only [if_pos ht]
      exact ⟨hc _, hc _, hc _⟩
    · simp only [if_neg ht]
      obtain ⟨h1, h2, h3⟩ := hp (halo.sync_var (halo_type_of imrgra) g.1,
        halo.sync_var (halo_type_of imrgra) g.2.1, halo.sync_var (halo_type_of imrgra) g.2.2)
      rw [h1, h2, h3]
      exact ⟨hv _, hv _, hv _⟩

theorem sync_grad_nohalo (mesh : cs_mesh_t) (hh : mesh.halo = none) (imrgra itenso : Int)
    (g : Buf × Buf × Buf) : sync_grad mesh imrgra itenso g = g := by
  unfold sync_grad
  rw [hh]

theorem sync_field_nohalo (mesh : cs_mesh_t) (hh : mesh.halo = none) (imrgra : Int)
    (var : Buf) : sync_field mesh imrgra var = var := by
  unfold sync_field
  rw [hh]

theorem halo_keeps_owned_of_nohalo (mesh : cs_mesh_t) (hh : mesh.halo = none) :
    halo_keeps_owned mesh := by
  intro halo h
  rw [hh] at h
  cases h

/-- Unfolding of `clmgrd` for `imligp = 0`. -/
theorem clmgrd_mode0_eq (mesh : cs_mesh_t) (cell_cen : Buf) (buf : Work) (cf : Buf)
    (imrgra itenso : Int) (climgp : ℚ) (var dpdx dpdy dpdz : Buf) :
    clmgrd mesh cell_cen buf cf imrgra 0 itenso climgp var dpdx dpdy dpdz
      = (let var1 := sync_field mesh imrgra var
         let s := clip_0 mesh climgp
           (first_0 mesh cell_cen buf imrgra var1 dpdx dpdy dpdz) dpdx dpdy dpdz
         let g2 := sync_grad mesh imrgra itenso (s.dpdx, s.dpdy, s.dpdz)
         { var := var1, dpdx := g2.1, dpdy := g2.2.1, dpdz := g2.2.2, n_clip := s.n_clip,
           min_factor := s.min_factor, max_factor := s.max_factor,
           clip_factor := s.clip_factor, divisors := s.divisors,
           n_sync := sync_scalar_calls mesh + 0 + sync_grad_calls mesh itenso }) := by
  unfold clmgrd
  simp

/-- Mode 0 on the owned cells, with or without halo: the variable is the synchronised
one, and the gradient of an owned cell is multiplied by `factor_0` of the two maxima
of the specification. -/
theorem clmgrd_mode0_owned (mesh : cs_mesh_t) (cell_cen : Buf) (buf : Work) (cf : Buf)
    (imrgra itenso : Int) (climgp : ℚ) (var dpdx dpdy dpdz : Buf)
    (hk : halo_keeps_owned mesh) (hn : mesh.n_cells ≤ mesh.n_cells_with_ghosts)
    (i : Nat) (hi : i < mesh.n_cells) :
    let r := clmgrd mesh cell_cen buf cf imrgra 0 itenso climgp var dpdx dpdy dpdz
    let f := factor_0 climgp (denum_spec_0 mesh cell_cen imrgra dpdx dpdy dpdz i)
      (denom_spec mesh imrgra (sync_field mesh imrgra var) i)
    r.var = sync_field mesh imrgra var
      ∧ r.dpdx i = dpdx i * f ∧ r.dpdy i = dpdy i * f ∧ r.dpdz i = dpdz i * f
      ∧ r.clip_factor i = f := by
  intro r f
  have hr : r = _ := clmgrd_mode0_eq mesh cell_cen buf cf imrgra itenso climgp var
    dpdx dpdy dpdz
  obtain ⟨hx, hy, hz, hc⟩ := clip_0_fold_pointwise climgp
    (first_0 mesh cell_cen buf imrgra (sync_field mesh imrgra var) dpdx dpdy dpdz)
    dpdx dpdy dpdz mesh.n_cells i
  simp only [first_0_denum mesh cell_cen buf imrgra _ dpdx dpdy dpdz i hi hn,
    first_0_denom mesh cell_cen buf imrgra _ dpdx dpdy dpdz i hi hn, hi, true_and] at hx hy hz hc
  obtain ⟨g1, g2, g3⟩ := sync_grad_owned mesh hk imrgra itenso
    ((clip_0 mesh climgp
      (first_0 mesh cell_cen buf imrgra (sync_field mesh imrgra var) dpdx dpdy dpdz)
      dpdx dpdy dpdz).dpdx,
     (clip_0 mesh climgp
      (first_0 mesh cell_cen buf imrgra (sync_field mesh imrgra var) dpdx dpdy dpdz)
      dpdx dpdy dpdz).dpdy,
     (clip_0 mesh climgp
      (first_0 mesh cell_cen buf imrgra (sync_field mesh imrgra var) dpdx dpdy dpdz)
      dpdx dpdy dpdz).dpdz) i hi
  rw [hr]
  refine ⟨rfl, ?_, ?_, ?_, ?_⟩
  · exact g1.trans hx
  · exact g2.trans hy
  · exact g3.trans hz
  · exact hc

theorem dist_dot_scale (cell_cen : Buf) (a b : Nat) (gx gy gz f : ℚ) :
    dist_dot cell_cen a b (gx * f) (gy * f) (gz * f) = f * dist_dot cell_cen a b gx gy gz := by
  unfold dist_dot
  ring

/-- With `climgp >= 0` and `denom >= 0` the factor of mode 0 lies in `[0, 1]`. -/
theorem factor_0_range (climgp denum denom : ℚ) (hc : 0 ≤ climgp) (hd : 0 ≤ denom) :
    0 ≤ factor_0 climgp denum denom ∧ factor_0 climgp denum denom ≤ 1 := by
  unfold factor_0
  by_cases hg : denum > climgp * denom
  · have h0 : 0 ≤ climgp * denom := mul_nonneg hc hd
    have hpos : 0 < denum := lt_of_le_of_lt h0 hg
    rw [if_pos hg]
    exact ⟨div_nonneg h0 (le_of_lt hpos), (div_le_one hpos).mpr (le_of_lt hg)⟩
  · rw [if_neg hg]
    exact ⟨zero_le_one, le_refl 1⟩

/-- A clipped cell sits exactly on the bound: `factor_0 * denum <= climgp * denom`. -/
theorem factor_0_mul_denum (climgp denum denom : ℚ) (hc : 0 ≤ climgp) (hd : 0 ≤ denom) :
    factor_0 climgp denum denom * denum ≤ climgp * denom := by
  unfold factor_0
  by_cases hg : denum > climgp * denom
  · have h0 : 0 ≤ climgp * denom := mul_nonneg hc hd
    have hpos : 0 < denum := lt_of_le_of_lt h0 hg
    rw [if_pos hg, div_mul_cancel₀ _ (ne_of_gt hpos)]
  · rw [if_neg hg, one_mul]
    exact not_lt.mp hg

/-- The maximum `denum` of the specification is homogeneous in the gradient of the cell. -/
theorem denum_spec_0_scale (mesh : cs_mesh_t) (cell_cen : Buf) (imrgra : Int)
    (dpdx dpdy dpdz ex ey ez : Buf) (i : Nat) (f : ℚ) (hf : 0 ≤ f)
    (hx : ex i = dpdx i * f) (hy : ey i = dpdy i * f) (hz : ez i = dpdz i * f) :
    denum_spec_0 mesh cell_cen imrgra ex ey ez i
      = f * denum_spec_0 mesh cell_cen imrgra dpdx dpdy dpdz i := by
  unfold denum_spec_0
  rw [← max0_scale _ f hf, List.map_map]
  congr 1
  apply List.map_congr_left
  intro j _
  show |dist_dot cell_cen i j (ex i) (ey i) (ez i)| = f * |dist_dot cell_cen i j _ _ _|
  rw [hx, hy, hz, dist_dot_scale, abs_mul, abs_of_nonneg hf]

/-- Without any cell to clip the loop on cells of mode 0 leaves its state as it is. -/
theorem clip_0_no_gate (climgp : ℚ) (w : Work) (s : Clip) (n : Nat)
    (h : ∀ i, i < n → ¬ w.denum i > climgp * w.denom i) :
    (List.range n).foldl (clip_step_0 climgp w) s = s := by
  induction n with
  | zero => rfl
  | succ n ih =>
    rw [List.range_succ, List.foldl_append, ih (fun i hi => h i (Nat.lt_succ_of_lt hi))]
    show clip_step_0 climgp w s n = s
    unfold clip_step_0
    rw [if_neg (h n (Nat.lt_succ_self n))]

/-! ### Mode 1 -/

/-- A loop whose body combines one observed value with a list of contributions, for any
operation. -/
theorem foldl_op_pointwise {σ α : Type} (op : ℚ → ℚ → ℚ) (step : σ → α → σ) (proj : σ → ℚ)
    (c : α → List ℚ) (h : ∀ s a, proj (step s a) = (c a).foldl op (proj s)) :
    ∀ (l : List α) (s : σ), proj (l.foldl step s) = (l.flatMap c).foldl op (proj s) := by
  intro l
  induction l with
  | nil => intro s; rfl
  | cons a l ih =>
    intro s
    rw [List.foldl_cons, ih, h, List.flatMap_cons, List.foldl_append]

/-- Contributions counted once or twice give the same result for an idempotent
operation. -/
theorem foldl_flatMap_pair (op : ℚ → ℚ → ℚ) (hidem : ∀ a x, op (op a x) x = op a x)
    (p q : Nat → Prop) [DecidablePred p] [DecidablePred q] (d : Nat → ℚ) :
    ∀ (l : List Nat) (a : ℚ),
      (l.flatMap (fun f => (if p f then [d f] else []) ++ (if q f then [d f] else []))).foldl
          op a
        = ((l.filter (fun f => p f ∨ q f)).map d).foldl op a := by
  intro l
  induction l with
  | nil => intro a; rfl
  | cons f l ih =>
    intro a
    rw [List.flatMap_cons, List.foldl_append, ih]
    by_cases hp : p f
    · by_cases hq : q f
      · simp [List.filter_cons, hp, hq, hidem]
      · simp [List.filter_cons, hp, hq]
    · by_cases hq : q f
      · simp [List.filter_cons, hp, hq]
      · simp [List.filter_cons, hp, hq]

theorem max_idem_right (a x : ℚ) : max (max a x) x = max a x := by
  rw [max_assoc, max_self]

theorem min_idem_right (a x : ℚ) : min (min a x) x = min a x := by
  rw [min_assoc, min_self]

theorem faces_step_1_denum (mesh : cs_mesh_t) (cell_cen var dpdx dpdy dpdz : Buf)
    (k : Nat) (w : Work) (f : Nat) :
    (faces_step_1 mesh cell_cen var dpdx dpdy dpdz w f).denum k
      = ((if face_i1 mesh f = k then
            [|dist_dot cell_cen (face_i1 mesh f) (face_i2 mesh f)
              (1 / 2 * (dpdx (face_i1 mesh f) + dpdx (face_i2 mesh f)))
              (1 / 2 * (dpdy (face_i1 mesh f) + dpdy (face_i2 mesh f)))
              (1 / 2 * (dpdz (face_i1 mesh f) + dpdz (face_i2 mesh f)))|] else [])
          ++ (if face_i2 mesh f = k then
            [|dist_dot cell_cen (face_i1 mesh f) (face_i2 mesh f)
              (1 / 2 * (dpdx (face_i1 mesh f) + dpdx (face_i2 mesh f)))
              (1 / 2 * (dpdy (face_i1 mesh f) + dpdy (face_i2 mesh f)))
              (1 / 2 * (dpdz (face_i1 mesh f) + dpdz (face_i2 mesh f)))|] else [])).foldl max
          (w.denum k) :=
  update2_max w.denum (face_i1 mesh f) (face_i2 mesh f) k _ _

theorem faces_step_1_denom (mesh : cs_mesh_t) (cell_cen var dpdx dpdy dpdz : Buf)
    (k : Nat) (w : Work) (f : Nat) :
    (faces_step_1 mesh cell_cen var dpdx dpdy dpdz w f).denom k
      = ((if face_i1 mesh f = k then [|var (face_i1 mesh f) - var (face_i2 mesh f)|] else [])
          ++ (if face_i2 mesh f = k then [|var (face_i1 mesh f) - var (face_i2 mesh f)|]
              else [])).foldl max (w.denom k) :=
  update2_max w.denom (face_i1 mesh f) (face_i2 mesh f) k _ _

/-- Mode 1, loop on the interior faces: the buffers at a cell of the ghosted mesh are the
maxima that the specification describes. -/
theorem faces_fold_1 (mesh : cs_mesh_t) (cell_cen : Buf) (buf : Work)
    (var dpdx dpdy dpdz : Buf) (k : Nat) (hk : k < mesh.n_cells_with_ghosts) :
    let w := (List.range mesh.n_i_faces).foldl
      (faces_step_1 mesh cell_cen var dpdx dpdy dpdz) (work_zero mesh buf)
    w.denum k = denum_spec_1 mesh cell_cen dpdx dpdy dpdz k
      ∧ w.denom k = denom_spec_1 mesh var k := by
  intro w
  constructor
  · have hf := foldl_op_pointwise max (faces_step_1 mesh cell_cen var dpdx dpdy dpdz)
      (fun w => w.denum k) _
      (fun s a => faces_step_1_denum mesh cell_cen var dpdx dpdy dpdz k s a)
      (List.range mesh.n_i_faces) (work_zero mesh buf)
    have h0 : (work_zero mesh buf).denum k = 0 := by
      show (if k < mesh.n_cells_with_ghosts then (0 : ℚ) else buf.denum k) = 0
      rw [if_pos hk]
    simp only [h0] at hf
    rw [foldl_flatMap_pair max max_idem_right] at hf
    exact hf
  · have hf := foldl_op_pointwise max (faces_step_1 mesh cell_cen var dpdx dpdy dpdz)
      (fun w => w.denom k) _
      (fun s a => faces_step_1_denom mesh cell_cen var dpdx dpdy dpdz k s a)
      (List.range mesh.n_i_faces) (work_zero mesh buf)
    have h0 : (work_zero mesh buf).denom k = 0 := by
      show (if k < mesh.n_cells_with_ghosts then (0 : ℚ) else buf.denom k) = 0
      rw [if_pos hk]
    simp only [h0] at hf
    rw [foldl_flatMap_pair max max_idem_right] at hf
    exact hf

theorem foldl_preserves {σ α β : Type} (step : σ → α → σ) (proj : σ → β)
    (h : ∀ s a, proj (step s a) = proj s) :
    ∀ (l : List α) (s : σ), proj (l.foldl step s) = proj s := by
  intro l
  induction l with
  | nil => intro s; rfl
  | cons a l ih =>
    intro s
    rw [List.foldl_cons, ih, h]

theorem ext_loop_1_standard (mesh : cs_mesh_t) (cell_cen : Buf) (imrgra : Int)
    (var dpdx dpdy dpdz : Buf) (w : Work) (hstd : ¬ (imrgra = 2 ∨ imrgra = 3)) :
    ext_loop_1 mesh cell_cen imrgra var dpdx dpdy dpdz w = w := by
  unfold ext_loop_1 halo_type_of
  cases mesh.cell_cells_idx with
  | none => rfl
  | some idx => simp [hstd]

theorem clip_ext_loop_1_standard (mesh : cs_mesh_t) (imrgra : Int) (climgp : ℚ) (w : Work)
    (s : Clip) (hstd : ¬ (imrgra = 2 ∨ imrgra = 3)) :
    clip_ext_loop_1 mesh imrgra climgp w s = s := by
  unfold clip_ext_loop_1 halo_type_of
  cases mesh.cell_cells_idx with
  | none => rfl
  | some idx => simp [hstd]

theorem clip_faces_step_1_clip_factor (mesh : cs_mesh_t) (climgp : ℚ) (w : Work) (k : Nat)
    (s : Clip) (f : Nat) :
    (clip_faces_step_1 mesh climgp w s f).clip_factor k
      = ((if face_i1 mesh f = k then
            [min (gated_factor climgp w (face_i1 mesh f))
              (gated_factor climgp w (face_i2 mesh f))] else [])
          ++ (if face_i2 mesh f = k then
            [min (gated_factor climgp w (face_i1 mesh f))
              (gated_factor climgp w (face_i2 mesh f))] else [])).foldl min
          (s.clip_factor k) :=
  update2_min s.clip_factor (face_i1 mesh f) (face_i2 mesh f) k _ _

/-- The loop on the interior faces of the clipping of mode 1 does not write the gradient,
and its array `clip_factor` at cell `k` is the minimum of the initial value and of the
values `min(factor1, factor2)` of the faces incident to `k`. -/
theorem clip_faces_fold_1 (mesh : cs_mesh_t) (climgp : ℚ) (w : Work) (s0 : Clip) (k : Nat) :
    let s := (List.range mesh.n_i_faces).foldl (clip_faces_step_1 mesh climgp w) s0
    s.dpdx = s0.dpdx ∧ s.dpdy = s0.dpdy ∧ s.dpdz = s0.dpdz
      ∧ s.clip_factor k = ((faces_of mesh k).map (fun f =>
          min (gated_factor climgp w (face_i1 mesh f))
            (gated_factor climgp w (face_i2 mesh f)))).foldl min (s0.clip_factor k) := by
  intro s
  refine ⟨?_, ?_, ?_, ?_⟩
  · exact foldl_preserves (clip_faces_step_1 mesh climgp w) (fun s => s.dpdx)
      (fun _ _ => rfl) _ s0
  · exact foldl_preserves (clip_faces_step_1 mesh climgp w) (fun s => s.dpdy)
      (fun _ _ => rfl) _ s0
  · exact foldl_preserves (clip_faces_step_1 mesh climgp w) (fun s => s.dpdz)
      (fun _ _ => rfl) _ s0
  · have hf := foldl_op_pointwise min (clip_faces_step_1 mesh climgp w)
      (fun s => s.clip_factor k) _
      (fun s a => clip_faces_step_1_clip_factor mesh climgp w k s a)
      (List.range mesh.n_i_faces) s0
    rw [foldl_flatMap_pair min min_idem_right] at hf
    exact hf

/-- One turn of the last loop on cells of mode 1, read at cell `k`. -/
theorem clip_apply_step_1_at (s : Clip) (i k : Nat) :
    (clip_apply_step_1 s i).clip_factor = s.clip_factor
      ∧ (clip_apply_step_1 s i).divisors = s.divisors
      ∧ (clip_apply_step_1 s i).dpdx k
          = (if i = k then s.dpdx k * s.clip_factor k else s.dpdx k)
      ∧ (clip_apply_step_1 s i).dpdy k
          = (if i = k then s.dpdy k * s.clip_factor k else s.dpdy k)
      ∧ (clip_apply_step_1 s i).dpdz k
          = (if i = k then s.dpdz k * s.clip_factor k else s.dpdz k) := by
  unfold clip_apply_step_1
  by_cases hk : i = k
  · subst hk
    by_cases hg : s.clip_factor i < 99 / 100
    · simp [hg]
    · simp [hg]
  · have hk2 : k ≠ i := fun h => hk h.symm
    by_cases hg : s.clip_factor i < 99 / 100
    · simp [hg, hk, Function.update_noteq hk2]
    · simp [hg, hk, Function.update_noteq hk2]

/-- The last loop on cells of mode 1 multiplies the gradient of each of the first `n`
cells by its `clip_factor`, and leaves `clip_factor` as it is. -/
theorem clip_apply_fold_1 (s0 : Clip) (n k : Nat) :
    let s := (List.range n).foldl clip_apply_step_1 s0
    s.clip_factor = s0.clip_factor ∧ s.divisors = s0.divisors
      ∧ s.dpdx k = (if k < n then s0.dpdx k * s0.clip_factor k else s0.dpdx k)
      ∧ s.dpdy k = (if k < n then s0.dpdy k * s0.clip_factor k else s0.dpdy k)
      ∧ s.dpdz k = (if k < n then s0.dpdz k * s0.clip_factor k else s0.dpdz k) := by
  induction n with
  | zero => simp
  | succ n ih =>
    intro s
    have hs : s = clip_apply_step_1 ((List.range n).foldl clip_apply_step_1 s0) n := by
      show (List.range (n + 1)).foldl _ _ = _
      rw [List.range_succ, List.foldl_append]
      rfl
    obtain ⟨ihc, ihd, ihx, ihy, ihz⟩ := ih
    obtain ⟨hc, hd, hx, hy, hz⟩ := clip_apply_step_1_at
      ((List.range n).foldl clip_apply_step_1 s0) n k
    rw [hs, hc, hd, hx, hy, hz, ihc, ihd, ihx, ihy, ihz]
    refine ⟨rfl, rfl, ?_, ?_, ?_⟩
    all_goals
      by_cases hk : n = k
      · have h1 : ¬ k < n := by omega
        have h2 : k < n + 1 := by omega
        simp [hk, h1, h2]
      · by_cases h1 : k < n
        · have h2 : k < n + 1 := by omega
          simp [hk, h1, h2]
        · have h2 : ¬ k < n + 1 := by omega
          simp [hk, h1, h2]

/-- Unfolding of `clmgrd` for `imligp = 1`. -/
theorem clmgrd_mode1_eq (mesh : cs_mesh_t) (cell_cen : Buf) (buf : Work) (cf : Buf)
    (imrgra itenso : Int) (climgp : ℚ) (var dpdx dpdy dpdz : Buf) :
    clmgrd mesh cell_cen buf cf imrgra 1 itenso climgp var dpdx dpdy dpdz
      = (let var1 := sync_field mesh imrgra var
         let g1 := sync_grad mesh imrgra itenso (dpdx, dpdy, dpdz)
         let w := first_1 mesh cell_cen buf imrgra var1 g1.1 g1.2.1 g1.2.2
         let w1 : Work :=
           { denum := sync_scalar mesh imrgra itenso w.denum,
             denom := sync_scalar mesh imrgra itenso w.denom }
         let s := clip_1 mesh imrgra climgp w1 cf g1.1 g1.2.1 g1.2.2
         let g2 := sync_grad mesh imrgra itenso (s.dpdx, s.dpdy, s.dpdz)
         { var := var1, dpdx := g2.1, dpdy := g2.2.1, dpdz := g2.2.2, n_clip := s.n_clip,
           min_factor := s.min_factor, max_factor := s.max_factor,
           clip_factor := s.clip_factor, divisors := s.divisors,
           n_sync := sync_scalar_calls mesh + sync_grad_calls mesh itenso
             + 2 * sync_scalar_calls mesh + sync_grad_calls mesh itenso }) := by
  unfold clmgrd
  simp

theorem sync_scalar_nohalo (mesh : cs_mesh_t) (hh : mesh.halo = none) (imrgra itenso : Int)
    (b : Buf) : sync_scalar mesh imrgra itenso b = b := by
  unfold sync_scalar
  rw [hh]

/-- The clipping ratio is at most 1 as soon as `denum >= 0`. -/
theorem factor_0_le_one (climgp denum denom : ℚ) (hd : 0 ≤ denum) :
    factor_0 climgp denum denom ≤ 1 := by
  unfold factor_0
  by_cases hg : denum > climgp * denom
  · rw [if_pos hg]
    rcases eq_or_lt_of_le hd with h0 | hpos
    · rw [← h0, div_zero]
      exact zero_le_one
    · exact (div_le_one hpos).mpr (le_of_lt hg)
  · rw [if_neg hg]

theorem one_le_DBL_MAX : (1 : ℚ) ≤ DBL_MAX := by
  unfold DBL_MAX
  norm_num

theorem foldl_min_le_init (l : List ℚ) (a : ℚ) : l.foldl min a ≤ a := by
  induction l generalizing a with
  | nil => exact le_refl a
  | cons b l ih => exact le_trans (ih (min a b)) (min_le_left a b)

theorem foldl_min_le_mem (l : List ℚ) (a x : ℚ) (hx : x ∈ l) : l.foldl min a ≤ x := by
  induction l generalizing a with
  | nil => cases hx
  | cons b l ih =>
    rcases List.mem_cons.mp hx with h | h
    · subst h
      exact le_trans (foldl_min_le_init l (min a x)) (min_le_right a x)
    · exact ih (min a b) h

theorem min_list_le_mem (l : List ℚ) (x : ℚ) (hx : x ∈ l) : min_list l ≤ x := by
  cases l with
  | nil => cases hx
  | cons b l =>
    show l.foldl min b ≤ x
    rcases List.mem_cons.mp hx with h | h
    · subst h
      exact foldl_min_le_init l x
    · exact foldl_min_le_mem l b x h

/-- Starting the minimum from a value above the first entry is starting from the first
entry. -/
theorem foldl_min_eq_min_list (l : List ℚ) (a : ℚ) (hne : l ≠ []) (h : ∀ x ∈ l, x ≤ a) :
    l.foldl min a = min_list l := by
  cases l with
  | nil => exact absurd rfl hne
  | cons b l =>
    show l.foldl min (min a b) = l.foldl min b
    rw [min_eq_right (h b (List.mem_cons_self b l))]

theorem mem_faces_of (mesh : cs_mesh_t) (k f : Nat) (hf : f ∈ faces_of mesh k) :
    f < mesh.n_i_faces ∧ (face_i1 mesh f = k ∨ face_i2 mesh f = k) := by
  unfold faces_of at hf
  rw [List.mem_filter] at hf
  exact ⟨List.mem_range.mp hf.1, by simpa using hf.2⟩

/-- The clipping of mode 1 in the standard neighbourhood, for any buffers `w`: the factor
of a cell of the ghosted mesh is the minimum of `DBL_MAX` and of the values
`min(factor1, factor2)` of its incident faces, and multiplies the gradient of an owned
cell. -/
theorem clip_1_standard (mesh : cs_mesh_t) (imrgra : Int) (climgp : ℚ) (w : Work) (cf : Buf)
    (dpdx dpdy dpdz : Buf) (hstd : ¬ (imrgra = 2 ∨ imrgra = 3))
    (hn : mesh.n_cells ≤ mesh.n_cells_with_ghosts) (i : Nat) (hi : i < mesh.n_cells) :
    let s := clip_1 mesh imrgra climgp w cf dpdx dpdy dpdz
    let c := ((faces_of mesh i).map (fun f =>
      min (gated_factor climgp w (face_i1 mesh f))
        (gated_factor climgp w (face_i2 mesh f)))).foldl min DBL_MAX
    s.clip_factor i = c ∧ s.dpdx i = dpdx i * c ∧ s.dpdy i = dpdy i * c
      ∧ s.dpdz i = dpdz i * c := by
  intro s c
  obtain ⟨fx, fy, fz, fc⟩ := clip_faces_fold_1 mesh climgp w
    { clip_init dpdx dpdy dpdz with clip_factor := clip_factor_init mesh cf } i
  have hinit : ({ clip_init dpdx dpdy dpdz with
      clip_factor := clip_factor_init mesh cf } : Clip).clip_factor i = DBL_MAX := by
    show (if i < mesh.n_cells_with_ghosts then DBL_MAX else cf i) = DBL_MAX
    rw [if_pos (by omega)]
  rw [hinit] at fc
  have he : clip_ext_loop_1 mesh imrgra climgp w
      ((List.range mesh.n_i_faces).foldl (clip_faces_step_1 mesh climgp w)
        { clip_init dpdx dpdy dpdz with clip_factor := clip_factor_init mesh cf })
      = (List.range mesh.n_i_faces).foldl (clip_faces_step_1 mesh climgp w)
        { clip_init dpdx dpdy dpdz with clip_factor := clip_factor_init mesh cf } :=
    clip_ext_loop_1_standard mesh imrgra climgp _ _ hstd
  obtain ⟨ac, _, ax, ay, az⟩ := clip_apply_fold_1
    (clip_ext_loop_1 mesh imrgra climgp w
      ((List.range mesh.n_i_faces).foldl (clip_faces_step_1 mesh climgp w)
        { clip_init dpdx dpdy dpdz with clip_factor := clip_factor_init mesh cf }))
    mesh.n_cells i
  rw [if_pos hi] at ax ay az
  have hc2 : (clip_ext_loop_1 mesh imrgra climgp w
      ((List.range mesh.n_i_faces).foldl (clip_faces_step_1 mesh climgp w)
        { clip_init dpdx dpdy dpdz with clip_factor := clip_factor_init mesh cf })).clip_factor i
      = c := by
    rw [he]
    exact fc
  have hx2 : (clip_ext_loop_1 mesh imrgra climgp w
      ((List.range mesh.n_i_faces).foldl (clip_faces_step_1 mesh climgp w)
        { clip_init dpdx dpdy dpdz with clip_factor := clip_factor_init mesh cf })).dpdx i
      = dpdx i := by
    rw [he, fx]
    rfl
  have hy2 : (clip_ext_loop_1 mesh imrgra climgp w
      ((List.range mesh.n_i_faces).foldl (clip_faces_step_1 mesh climgp w)
        { clip_init dpdx dpdy dpdz with clip_factor := clip_factor_init mesh cf })).dpdy i
      = dpdy i := by
    rw [he, fy]
    rfl
  have hz2 : (clip_ext_loop_1 mesh imrgra climgp w
      ((List.range mesh.n_i_faces).foldl (clip_faces_step_1 mesh climgp w)
        { clip_init dpdx dpdy dpdz with clip_factor := clip_factor_init mesh cf })).dpdz i
      = dpdz i := by
    rw [he, fz]
    rfl
  rw [hc2, hx2] at ax
  rw [hc2, hy2] at ay
  rw [hc2, hz2] at az
  have h1 : s.clip_factor i = _ := congrFun ac i
  exact ⟨h1.trans hc2, ax, ay, az⟩

/-- Mode 1 on a mesh without halo, standard neighbourhood, well-formed connectivity: an
owned cell with an incident interior face gets the factor of the specification, and its
gradient is multiplied by it. -/
theorem clmgrd_mode1_owned (mesh : cs_mesh_t) (cell_cen : Buf) (buf : Work) (cf : Buf)
    (imrgra itenso : Int) (climgp : ℚ) (var dpdx dpdy dpdz : Buf)
    (hh : mesh.halo = none) (hstd : ¬ (imrgra = 2 ∨ imrgra = 3))
    (hn : mesh.n_cells ≤ mesh.n_cells_with_ghosts) (hwf : faces_in_range mesh)
    (i : Nat) (hi : i < mesh.n_cells) (hne : faces_of mesh i ≠ []) :
    let r := clmgrd mesh cell_cen buf cf imrgra 1 itenso climgp var dpdx dpdy dpdz
    let c := clip_factor_spec_1 mesh cell_cen climgp var dpdx dpdy dpdz i
    r.var = var ∧ r.clip_factor i = c
      ∧ r.dpdx i = dpdx i * c ∧ r.dpdy i = dpdy i * c ∧ r.dpdz i = dpdz i * c := by
  intro r c
  have hr : r = _ := clmgrd_mode1_eq mesh cell_cen buf cf imrgra itenso climgp var
    dpdx dpdy dpdz
  simp only [sync_field_nohalo mesh hh, sync_grad_nohalo mesh hh,
    sync_scalar_nohalo mesh hh] at hr
  -- the buffers
  have hw : ∀ k, k < mesh.n_cells_with_ghosts →
      gated_factor climgp (first_1 mesh cell_cen buf imrgra var dpdx dpdy dpdz) k
        = ratio_spec_1 mesh cell_cen climgp var dpdx dpdy dpdz k := by
    intro k hk
    obtain ⟨h1, h2⟩ := faces_fold_1 mesh cell_cen buf var dpdx dpdy dpdz k hk
    unfold gated_factor ratio_spec_1 factor_0 first_1
    rw [ext_loop_1_standard mesh cell_cen imrgra var dpdx dpdy dpdz _ hstd, h1, h2]
  have hmap : (faces_of mesh i).map (fun f =>
      min (gated_factor climgp (first_1 mesh cell_cen buf imrgra var dpdx dpdy dpdz)
            (face_i1 mesh f))
        (gated_factor climgp (first_1 mesh cell_cen buf imrgra var dpdx dpdy dpdz)
            (face_i2 mesh f)))
      = (faces_of mesh i).map (fun f =>
          min (ratio_spec_1 mesh cell_cen climgp var dpdx dpdy dpdz (face_i1 mesh f))
            (ratio_spec_1 mesh cell_cen climgp var dpdx dpdy dpdz (face_i2 mesh f))) := by
    apply List.map_congr_left
    intro f hf
    obtain ⟨hlt, _⟩ := mem_faces_of mesh i f hf
    obtain ⟨ha, hb⟩ := hwf f hlt
    show min _ _ = min _ _
    rw [hw _ ha, hw _ hb]
  have hle : ∀ x ∈ (faces_of mesh i).map (fun f =>
      min (ratio_spec_1 mesh cell_cen climgp var dpdx dpdy dpdz (face_i1 mesh f))
        (ratio_spec_1 mesh cell_cen climgp var dpdx dpdy dpdz (face_i2 mesh f))),
      x ≤ DBL_MAX := by
    intro x hx
    obtain ⟨f, _, rfl⟩ := List.mem_map.mp hx
    refine le_trans (min_le_left _ _) (le_trans ?_ one_le_DBL_MAX)
    exact factor_0_le_one _ _ _ (max0_nonneg _)
  obtain ⟨sc, sx, sy, sz⟩ := clip_1_standard mesh imrgra climgp
    (first_1 mesh cell_cen buf imrgra var dpdx dpdy dpdz) cf dpdx dpdy dpdz hstd hn i hi
  rw [hmap, foldl_min_eq_min_list _ _ (by simpa using hne) hle] at sc sx sy sz
  rw [hr]
  exact ⟨rfl, sc, sx, sy, sz⟩

/-! ## Properties of the limiter -/

/-- C1: mode 0 (`imligp = 0`) of `clmgrd` on a mesh without halo.  For every owned cell
`i`, with `denum` the maximum over the neighbours `j` of `i` (cells sharing an interior
face with `i`, plus the extended neighbours when `imrgra` is 2 or 3 and the adjacency is
present) of `|grad(i).(x_i - x_j)|` and `denom` the maximum over the same cells of
`|var_i - var_j|` (both 0 without neighbour), the output gradient of `i` is
`grad(i) * (climgp*denom/denum)` when `denum > climgp*denom` and `grad(i)` otherwise;
the field `var` is unchanged. -/
theorem clmgrd_mode0_cell_based (mesh : cs_mesh_t) (cell_cen : Buf) (buf : Work) (cf : Buf)
    (imrgra itenso : Int) (climgp : ℚ) (var dpdx dpdy dpdz : Buf)
    (hh : mesh.halo = none) (hn : mesh.n_cells ≤ mesh.n_cells_with_ghosts)
    (i : Nat) (hi : i < mesh.n_cells) :
    let r := clmgrd mesh cell_cen buf cf imrgra 0 itenso climgp var dpdx dpdy dpdz
    let denum := denum_spec_0 mesh cell_cen imrgra dpdx dpdy dpdz i
    let denom := denom_spec mesh imrgra var i
    r.var = var
      ∧ (nbrs mesh imrgra i = [] → denum = 0 ∧ denom = 0)
      ∧ (denum > climgp * denom →
          r.dpdx i = dpdx i * (climgp * denom / denum)
            ∧ r.dpdy i = dpdy i * (climgp * denom / denum)
            ∧ r.dpdz i = dpdz i * (climgp * denom / denum))
      ∧ (¬ denum > climgp * denom →
          r.dpdx i = dpdx i ∧ r.dpdy i = dpdy i ∧ r.dpdz i = dpdz i) := by
  intro r denum denom
  obtain ⟨hv, hx, hy, hz, _⟩ := clmgrd_mode0_owned mesh cell_cen buf cf imrgra itenso climgp
    var dpdx dpdy dpdz (halo_keeps_owned_of_nohalo mesh hh) hn i hi
  rw [sync_field_nohalo mesh hh] at hv hx hy hz
  refine ⟨hv, ?_, ?_, ?_⟩
  · intro he
    show max0 _ = 0 ∧ max0 _ = 0
    rw [he]
    exact ⟨rfl, rfl⟩
  · intro hg
    have hf : factor_0 climgp denum denom = climgp * denom / denum := if_pos hg
    rw [hf] at hx hy hz
    exact ⟨hx, hy, hz⟩
  · intro hg
    have hf : factor_0 climgp denum denom = 1 := if_neg hg
    rw [hf, mul_one] at hx hy hz
    exact ⟨hx, hy, hz⟩

/-- C1, on `mesh_two` with the gradient `(4, 0, 0)` in both cells and `climgp = 1`:
`denum = 4`, `denom = 1`, and the gradient of cell 0 becomes `(1, 0, 0)`. -/
theorem clmgrd_mode0_cell_based_witness :
    mesh_two.halo = none ∧ mesh_two.n_cells ≤ mesh_two.n_cells_with_ghosts
      ∧ 0 < mesh_two.n_cells
      ∧ denum_spec_0 mesh_two cen_two 0 (fun _ => 4) (fun _ => 0) (fun _ => 0) 0 = 4
      ∧ denom_spec mesh_two 0 var_two 0 = 1
      ∧ (clmgrd mesh_two cen_two work_any (fun _ => 0) 0 0 0 1 var_two
          (fun _ => 4) (fun _ => 0) (fun _ => 0)).dpdx 0 = 1 := by
  have hd : denum_spec_0 mesh_two cen_two 0 (fun _ => 4) (fun _ => 0) (fun _ => 0) 0 = 4 := by
    norm_num [denum_spec_0, nbrs, ext_nbrs, mesh_two, face_nbrs, face_i1, face_i2, max0,
      dist_dot, cen_diff, cen_two, List.range_succ]
  have hm : denom_spec mesh_two 0 var_two 0 = 1 := by
    norm_num [denom_spec, nbrs, ext_nbrs, mesh_two, face_nbrs, face_i1, face_i2, max0,
      var_two, List.range_succ]
  have h := (clmgrd_mode0_cell_based mesh_two cen_two work_any (fun _ => 0) 0 0 1 var_two
    (fun _ => 4) (fun _ => 0) (fun _ => 0) rfl (le_refl 2) 0 (by decide)).2.2.1
  rw [hd, hm] at h
  refine ⟨rfl, le_refl 2, by decide, hd, hm, ?_⟩
  rw [(h (by norm_num)).1]
  norm_num

/-- C2: limiter boundedness of mode 0 in exact arithmetic.  For `climgp >= 0`, after
`clmgrd` with `imligp = 0`, every owned cell `i` and every cell `j` incident to `i` (by an
interior face or as an active extended neighbour) satisfy
`|grad_out(i).(x_i - x_j)| <= climgp * max_k |var_i - var_k|`, the maximum being over the
cells `k` incident to `i`.  The mesh may have a halo: the halo service is assumed to leave
the entries of the owned cells as they are, and `var` is the field after the call. -/
theorem clmgrd_mode0_bounded (mesh : cs_mesh_t) (cell_cen : Buf) (buf : Work) (cf : Buf)
    (imrgra itenso : Int) (climgp : ℚ) (var dpdx dpdy dpdz : Buf)
    (hc : 0 ≤ climgp) (hk : halo_keeps_owned mesh)
    (hn : mesh.n_cells ≤ mesh.n_cells_with_ghosts)
    (i : Nat) (hi : i < mesh.n_cells) (j : Nat) (hj : j ∈ nbrs mesh imrgra i) :
    let r := clmgrd mesh cell_cen buf cf imrgra 0 itenso climgp var dpdx dpdy dpdz
    |dist_dot cell_cen i j (r.dpdx i) (r.dpdy i) (r.dpdz i)|
      ≤ climgp * denom_spec mesh imrgra r.var i := by
  intro r
  obtain ⟨hv, hx, hy, hz, _⟩ := clmgrd_mode0_owned mesh cell_cen buf cf imrgra itenso climgp
    var dpdx dpdy dpdz hk hn i hi
  rw [hv, hx, hy, hz, dist_dot_scale, abs_mul]
  have hd : 0 ≤ denom_spec mesh imrgra (sync_field mesh imrgra var) i := max0_nonneg _
  obtain ⟨hf0, _⟩ := factor_0_range climgp
    (denum_spec_0 mesh cell_cen imrgra dpdx dpdy dpdz i)
    (denom_spec mesh imrgra (sync_field mesh imrgra var) i) hc hd
  rw [abs_of_nonneg hf0]
  have hle : |dist_dot cell_cen i j (dpdx i) (dpdy i) (dpdz i)|
      ≤ denum_spec_0 mesh cell_cen imrgra dpdx dpdy dpdz i := by
    apply max0_ge_mem
    exact List.mem_map.mpr ⟨j, hj, rfl⟩
  exact le_trans (mul_le_mul_of_nonneg_left hle hf0)
    (factor_0_mul_denum climgp _ _ hc hd)

theorem halo_keeps_owned_mesh_halo : halo_keeps_owned mesh_halo := by
  intro halo h t i hi
  have hi1 : i < 1 := hi
  have he : halo = halo_three := by
    have h2 : some halo_three = some halo := h
    exact (Option.some.inj h2).symm
  subst he
  refine ⟨fun b => ?_, fun b => ?_, fun g => ⟨rfl, rfl, rfl⟩⟩
  · show (if i < 1 then b i else 3) = b i
    rw [if_pos hi1]
  · show (if i < 1 then b i else 3) = b i
    rw [if_pos hi1]

/-- C2, on `mesh_halo` (one owned cell, one ghost cell filled by the halo service) with
`climgp = 1`. -/
theorem clmgrd_mode0_bounded_witness :
    (0 : ℚ) ≤ 1 ∧ halo_keeps_owned mesh_halo
      ∧ mesh_halo.n_cells ≤ mesh_halo.n_cells_with_ghosts ∧ 0 < mesh_halo.n_cells
      ∧ 1 ∈ nbrs mesh_halo 0 0
      ∧ |dist_dot cen_two 0 1
          ((clmgrd mesh_halo cen_two work_any (fun _ => 0) 0 0 0 1 var_two
            (fun _ => 4) (fun _ => 0) (fun _ => 0)).dpdx 0)
          ((clmgrd mesh_halo cen_two work_any (fun _ => 0) 0 0 0 1 var_two
            (fun _ => 4) (fun _ => 0) (fun _ => 0)).dpdy 0)
          ((clmgrd mesh_halo cen_two work_any (fun _ => 0) 0 0 0 1 var_two
            (fun _ => 4) (fun _ => 0) (fun _ => 0)).dpdz 0)|
        ≤ 1 * denom_spec mesh_halo 0
            (clmgrd mesh_halo cen_two work_any (fun _ => 0) 0 0 0 1 var_two
              (fun _ => 4) (fun _ => 0) (fun _ => 0)).var 0 := by
  have hj : 1 ∈ nbrs mesh_halo 0 0 := by
    simp [nbrs, ext_nbrs, mesh_halo, face_nbrs, face_i1, face_i2, List.range_succ]
  exact ⟨zero_le_one, halo_keeps_owned_mesh_halo, by decide, by decide, hj,
    clmgrd_mode0_bounded mesh_halo cen_two work_any (fun _ => 0) 0 0 1 var_two
      (fun _ => 4) (fun _ => 0) (fun _ => 0) zero_le_one halo_keeps_owned_mesh_halo
      (by decide) 0 (by decide) 1 hj⟩

/-- In the second of two successive passes of mode 0 (same `climgp >= 0`, no halo) no owned
cell passes the gate `denum[i] > climgp*denom[i]`. -/
theorem second_pass_no_gate (mesh : cs_mesh_t) (cell_cen : Buf) (buf buf2 : Work) (cf : Buf)
    (imrgra itenso : Int) (climgp : ℚ) (var dpdx dpdy dpdz : Buf)
    (hc : 0 ≤ climgp) (hh : mesh.halo = none)
    (hn : mesh.n_cells ≤ mesh.n_cells_with_ghosts) (i : Nat) (hi : i < mesh.n_cells) :
    let r1 := clmgrd mesh cell_cen buf cf imrgra 0 itenso climgp var dpdx dpdy dpdz
    let w2 := first_0 mesh cell_cen buf2 imrgra r1.var r1.dpdx r1.dpdy r1.dpdz
    ¬ w2.denum i > climgp * w2.denom i := by
  intro r1 w2
  obtain ⟨hv, hx, hy, hz, _⟩ := clmgrd_mode0_owned mesh cell_cen buf cf imrgra itenso climgp
    var dpdx dpdy dpdz (halo_keeps_owned_of_nohalo mesh hh) hn i hi
  rw [sync_field_nohalo mesh hh] at hv hx hy hz
  have hd : 0 ≤ denom_spec mesh imrgra var i := max0_nonneg _
  obtain ⟨hf0, _⟩ := factor_0_range climgp
    (denum_spec_0 mesh cell_cen imrgra dpdx dpdy dpdz i) (denom_spec mesh imrgra var i) hc hd
  have h1 : w2.denum i = factor_0 climgp
      (denum_spec_0 mesh cell_cen imrgra dpdx dpdy dpdz i) (denom_spec mesh imrgra var i)
      * denum_spec_0 mesh cell_cen imrgra dpdx dpdy dpdz i := by
    show (first_0 mesh cell_cen buf2 imrgra r1.var r1.dpdx r1.dpdy r1.dpdz).denum i = _
    rw [first_0_denum mesh cell_cen buf2 imrgra _ _ _ _ i hi hn]
    exact denum_spec_0_scale mesh cell_cen imrgra dpdx dpdy dpdz _ _ _ i _ hf0 hx hy hz
  have h2 : w2.denom i = denom_spec mesh imrgra var i := by
    show (first_0 mesh cell_cen buf2 imrgra r1.var r1.dpdx r1.dpdy r1.dpdz).denom i = _
    rw [first_0_denom mesh cell_cen buf2 imrgra _ _ _ _ i hi hn, hv]
  rw [h1, h2]
  exact not_lt.mpr (factor_0_mul_denum climgp _ _ hc hd)

/-- C4: limiter idempotence of mode 0 (exact arithmetic, no halo).  For `climgp >= 0`,
applying `clmgrd` with `imligp = 0` twice in succession with the same `climgp` yields the
same gradient as applying it once; in the second pass no owned cell satisfies
`denum[i] > climgp*denom[i]`, and the count of clipped cells of the second pass is 0. -/
theorem clmgrd_mode0_idempotent (mesh : cs_mesh_t) (cell_cen : Buf) (buf buf2 : Work)
    (cf cf2 : Buf) (imrgra itenso : Int) (climgp : ℚ) (var dpdx dpdy dpdz : Buf)
    (hc : 0 ≤ climgp) (hh : mesh.halo = none)
    (hn : mesh.n_cells ≤ mesh.n_cells_with_ghosts) :
    let r1 := clmgrd mesh cell_cen buf cf imrgra 0 itenso climgp var dpdx dpdy dpdz
    let r2 := clmgrd mesh cell_cen buf2 cf2 imrgra 0 itenso climgp r1.var r1.dpdx r1.dpdy
      r1.dpdz
    let w2 := first_0 mesh cell_cen buf2 imrgra r1.var r1.dpdx r1.dpdy r1.dpdz
    r2.dpdx = r1.dpdx ∧ r2.dpdy = r1.dpdy ∧ r2.dpdz = r1.dpdz ∧ r2.var = r1.var
      ∧ (∀ i, i < mesh.n_cells → ¬ w2.denum i > climgp * w2.denom i)
      ∧ r2.n_clip = 0 := by
  intro r1 r2 w2
  have hg : ∀ i, i < mesh.n_cells → ¬ w2.denum i > climgp * w2.denom i :=
    fun i hi => second_pass_no_gate mesh cell_cen buf buf2 cf imrgra itenso climgp var
      dpdx dpdy dpdz hc hh hn i hi
  have hr2 : r2 = _ := clmgrd_mode0_eq mesh cell_cen buf2 cf2 imrgra itenso climgp r1.var
    r1.dpdx r1.dpdy r1.dpdz
  have hclip : clip_0 mesh climgp w2 r1.dpdx r1.dpdy r1.dpdz
      = clip_init r1.dpdx r1.dpdy r1.dpdz :=
    clip_0_no_gate climgp w2 _ mesh.n_cells hg
  simp only [sync_field_nohalo mesh hh, sync_grad_nohalo mesh hh] at hr2
  rw [hr2]
  simp only [sync_field_nohalo mesh hh] at hclip
  have hw : first_0 mesh cell_cen buf2 imrgra r1.var r1.dpdx r1.dpdy r1.dpdz = w2 := rfl
  rw [hw, hclip]
  exact ⟨rfl, rfl, rfl, rfl, hg, rfl⟩

/-- C4, on `mesh_two` with the gradient `(4, 0, 0)` and `climgp = 1`: the first pass clips
both cells, the second pass clips none. -/
theorem clmgrd_mode0_idempotent_witness :
    (0 : ℚ) ≤ 1 ∧ mesh_two.halo = none ∧ mesh_two.n_cells ≤ mesh_two.n_cells_with_ghosts
      ∧ (clmgrd mesh_two cen_two work_any (fun _ => 0) 0 0 0 1 var_two
          (fun _ => 4) (fun _ => 0) (fun _ => 0)).n_clip = 2
      ∧ (clmgrd mesh_two cen_two work_any (fun _ => 0) 0 0 0 1
          (clmgrd mesh_two cen_two work_any (fun _ => 0) 0 0 0 1 var_two
            (fun _ => 4) (fun _ => 0) (fun _ => 0)).var
          (clmgrd mesh_two cen_two work_any (fun _ => 0) 0 0 0 1 var_two
            (fun _ => 4) (fun _ => 0) (fun _ => 0)).dpdx
          (clmgrd mesh_two cen_two work_any (fun _ => 0) 0 0 0 1 var_two
            (fun _ => 4) (fun _ => 0) (fun _ => 0)).dpdy
          (clmgrd mesh_two cen_two work_any (fun _ => 0) 0 0 0 1 var_two
            (fun _ => 4) (fun _ => 0) (fun _ => 0)).dpdz).n_clip = 0 := by
  refine ⟨zero_le_one, rfl, le_refl 2, ?_, ?_⟩
  · norm_num [clmgrd, sync_field, sync_grad, mesh_two, first_0, ext_loop_0, faces_step_0,
      work_zero, clip_0, clip_step_0, clip_init, face_i1, face_i2, dist_dot, cen_diff,
      cen_two, var_two, List.range_succ, work_any, Function.update]
  · exact (clmgrd_mode0_idempotent mesh_two cen_two work_any work_any (fun _ => 0)
      (fun _ => 0) 0 0 1 var_two (fun _ => 4) (fun _ => 0) (fun _ => 0) zero_le_one rfl
      (le_refl 2)).2.2.2.2.2

theorem mem_faces_of_iff (mesh : cs_mesh_t) (k f : Nat) :
    f ∈ faces_of mesh k ↔ f < mesh.n_i_faces ∧ (face_i1 mesh f = k ∨ face_i2 mesh f = k) := by
  unfold faces_of
  rw [List.mem_filter, List.mem_range]
  simp

/-- C5: mode 1 (`imligp = 1`) of `clmgrd`, standard neighbourhood, no halo.  With
`denum[k]` the maximum over the interior faces `(a, b)` incident to `k` of
`|0.5*(grad_a + grad_b).(x_a - x_b)|`, `denom[k]` the maximum over the same faces of
`|var_a - var_b|` and `r(k) = climgp*denom[k]/denum[k]` if `denum[k] > climgp*denom[k]`,
else 1, every owned cell `i` with an incident interior face gets the single factor
`clip_factor[i] = min over the faces (a, b) incident to i of min(r(a), r(b))`, its three
gradient components are multiplied by that factor, and for a face shared by the owned cells
`i` and `j` both factors are at most `min(r(i), r(j))`. -/
theorem clmgrd_mode1_face_averaged (mesh : cs_mesh_t) (cell_cen : Buf) (buf : Work) (cf : Buf)
    (imrgra itenso : Int) (climgp : ℚ) (var dpdx dpdy dpdz : Buf)
    (hh : mesh.halo = none) (hstd : ¬ (imrgra = 2 ∨ imrgra = 3))
    (hn : mesh.n_cells ≤ mesh.n_cells_with_ghosts) (hwf : faces_in_range mesh)
    (i : Nat) (hi : i < mesh.n_cells) (hne : faces_of mesh i ≠ []) :
    let r := clmgrd mesh cell_cen buf cf imrgra 1 itenso climgp var dpdx dpdy dpdz
    let c := clip_factor_spec_1 mesh cell_cen climgp var dpdx dpdy dpdz i
    r.clip_factor i = c
      ∧ r.dpdx i = dpdx i * c ∧ r.dpdy i = dpdy i * c ∧ r.dpdz i = dpdz i * c
      ∧ (∀ f j, f < mesh.n_i_faces →
          (face_i1 mesh f = i ∧ face_i2 mesh f = j) ∨ (face_i1 mesh f = j ∧ face_i2 mesh f = i) →
          j < mesh.n_cells →
          r.clip_factor i
              ≤ min (ratio_spec_1 mesh cell_cen climgp var dpdx dpdy dpdz i)
                  (ratio_spec_1 mesh cell_cen climgp var dpdx dpdy dpdz j)
            ∧ r.clip_factor j
              ≤ min (ratio_spec_1 mesh cell_cen climgp var dpdx dpdy dpdz i)
                  (ratio_spec_1 mesh cell_cen climgp var dpdx dpdy dpdz j)) := by
  intro r c
  obtain ⟨_, hc, hx, hy, hz⟩ := clmgrd_mode1_owned mesh cell_cen buf cf imrgra itenso climgp
    var dpdx dpdy dpdz hh hstd hn hwf i hi hne
  refine ⟨hc, hx, hy, hz, ?_⟩
  intro f j hf hij hj
  have hfi : f ∈ faces_of mesh i := by
    rw [mem_faces_of_iff]
    rcases hij with h | h
    · exact ⟨hf, Or.inl h.1⟩
    · exact ⟨hf, Or.inr h.2⟩
  have hfj : f ∈ faces_of mesh j := by
    rw [mem_faces_of_iff]
    rcases hij with h | h
    · exact ⟨hf, Or.inr h.2⟩
    · exact ⟨hf, Or.inl h.1⟩
  have hnej : faces_of mesh j ≠ [] := List.ne_nil_of_mem hfj
  obtain ⟨_, hcj, _⟩ := clmgrd_mode1_owned mesh cell_cen buf cf imrgra itenso climgp
    var dpdx dpdy dpdz hh hstd hn hwf j hj hnej
  have hval : min (ratio_spec_1 mesh cell_cen climgp var dpdx dpdy dpdz (face_i1 mesh f))
      (ratio_spec_1 mesh cell_cen climgp var dpdx dpdy dpdz (face_i2 mesh f))
      = min (ratio_spec_1 mesh cell_cen climgp var dpdx dpdy dpdz i)
          (ratio_spec_1 mesh cell_cen climgp var dpdx dpdy dpdz j) := by
    rcases hij with h | h
    · rw [h.1, h.2]
    · rw [h.1, h.2, min_comm]
  rw [hc, hcj, ← hval]
  constructor
  · exact min_list_le_mem _ _ (List.mem_map.mpr ⟨f, hfi, rfl⟩)
  · exact min_list_le_mem _ _ (List.mem_map.mpr ⟨f, hfj, rfl⟩)

theorem faces_in_range_mesh_two : faces_in_range mesh_two := by
  intro f hf
  have h0 : f = 0 := by
    have h1 : f < 1 := hf
    omega
  subst h0
  exact ⟨by decide, by decide⟩

/-- C5, on `mesh_two` with the gradient `(4, 0, 0)` in both cells and `climgp = 1`: the
factor of cell 0 is `1/4`. -/
theorem clmgrd_mode1_face_averaged_witness :
    mesh_two.halo = none ∧ ¬ ((0 : Int) = 2 ∨ (0 : Int) = 3)
      ∧ mesh_two.n_cells ≤ mesh_two.n_cells_with_ghosts ∧ faces_in_range mesh_two
      ∧ 0 < mesh_two.n_cells ∧ faces_of mesh_two 0 ≠ []
      ∧ clip_factor_spec_1 mesh_two cen_two 1 var_two (fun _ => 4) (fun _ => 0) (fun _ => 0) 0
          = 1 / 4
      ∧ (clmgrd mesh_two cen_two work_any (fun _ => 0) 0 1 0 1 var_two
          (fun _ => 4) (fun _ => 0) (fun _ => 0)).clip_factor 0 = 1 / 4 := by
  have hne : faces_of mesh_two 0 ≠ [] := by
    simp [faces_of, mesh_two, face_i1, face_i2, List.range_succ]
  have hstd : ¬ ((0 : Int) = 2 ∨ (0 : Int) = 3) := by decide
  have hc : clip_factor_spec_1 mesh_two cen_two 1 var_two (fun _ => 4) (fun _ => 0)
      (fun _ => 0) 0 = 1 / 4 := by
    norm_num [clip_factor_spec_1, ratio_spec_1, factor_0, denum_spec_1, denom_spec_1, faces_of,
      mesh_two, face_i1, face_i2, max0, min_list, dist_dot, cen_diff, cen_two, var_two,
      List.range_succ]
  have h := (clmgrd_mode1_face_averaged mesh_two cen_two work_any (fun _ => 0) 0 0 1 var_two
    (fun _ => 4) (fun _ => 0) (fun _ => 0) rfl hstd (le_refl 2) faces_in_range_mesh_two
    0 (by decide) hne).1
  rw [hc] at h
  exact ⟨rfl, hstd, le_refl 2, faces_in_range_mesh_two, by decide, hne, hc, h⟩

/-- C6: for a negative limiter-mode flag (`imligp < 0`) `clmgrd` returns without modifying
anything: every entry (owned and ghost) of `var`, `dpdx`, `dpdy`, `dpdz` is unchanged and
no halo synchronisation is issued. -/
theorem clmgrd_negative_mode_noop (mesh : cs_mesh_t) (cell_cen : Buf) (buf : Work) (cf : Buf)
    (imrgra imligp itenso : Int) (climgp : ℚ) (var dpdx dpdy dpdz : Buf)
    (hneg : imligp < 0) :
    let r := clmgrd mesh cell_cen buf cf imrgra imligp itenso climgp var dpdx dpdy dpdz
    r.var = var ∧ r.dpdx = dpdx ∧ r.dpdy = dpdy ∧ r.dpdz = dpdz ∧ r.n_sync = 0 := by
  intro r
  show (clmgrd mesh cell_cen buf cf imrgra imligp itenso climgp var dpdx dpdy dpdz).var = var
    ∧ (clmgrd mesh cell_cen buf cf imrgra imligp itenso climgp var dpdx dpdy dpdz).dpdx = dpdx
    ∧ (clmgrd mesh cell_cen buf cf imrgra imligp itenso climgp var dpdx dpdy dpdz).dpdy = dpdy
    ∧ (clmgrd mesh cell_cen buf cf imrgra imligp itenso climgp var dpdx dpdy dpdz).dpdz = dpdz
    ∧ (clmgrd mesh cell_cen buf cf imrgra imligp itenso climgp var dpdx dpdy dpdz).n_sync = 0
  unfold clmgrd
  rw [if_pos hneg]
  exact ⟨rfl, rfl, rfl, rfl, rfl⟩

/-- C6, on `mesh_halo` (a mesh with a halo) with `imligp = -1`. -/
theorem clmgrd_negative_mode_noop_witness :
    (-1 : Int) < 0
      ∧ (clmgrd mesh_halo cen_two work_any (fun _ => 0) 0 (-1) 0 1 var_two
          (fun _ => 4) (fun _ => 0) (fun _ => 0)).dpdx = (fun _ => 4)
      ∧ (clmgrd mesh_halo cen_two work_any (fun _ => 0) 0 (-1) 0 1 var_two
          (fun _ => 4) (fun _ => 0) (fun _ => 0)).n_sync = 0 := by
  have h := clmgrd_negative_mode_noop mesh_halo cen_two work_any (fun _ => 0) 0 (-1) 0 1
    var_two (fun _ => 4) (fun _ => 0) (fun _ => 0) (by decide)
  exact ⟨by decide, h.2.1, h.2.2.2.2⟩

theorem foldl_min_ge (l : List ℚ) (a b : ℚ) (ha : b ≤ a) (hl : ∀ x ∈ l, b ≤ x) :
    b ≤ l.foldl min a := by
  induction l generalizing a with
  | nil => exact ha
  | cons x l ih =>
    rw [List.foldl_cons]
    exact ih (min a x) (le_min ha (hl x (List.mem_cons_self x l)))
      (fun y hy => hl y (List.mem_cons_of_mem x hy))

/-- The part of C3 that holds in mode 0: for `climgp >= 0` the factor applied to an owned
cell lies in `[0, 1]`. -/
theorem clmgrd_mode0_factor_range (mesh : cs_mesh_t) (cell_cen : Buf) (buf : Work) (cf : Buf)
    (imrgra itenso : Int) (climgp : ℚ) (var dpdx dpdy dpdz : Buf)
    (hc : 0 ≤ climgp) (hk : halo_keeps_owned mesh)
    (hn : mesh.n_cells ≤ mesh.n_cells_with_ghosts) (i : Nat) (hi : i < mesh.n_cells) :
    let r := clmgrd mesh cell_cen buf cf imrgra 0 itenso climgp var dpdx dpdy dpdz
    0 ≤ r.clip_factor i ∧ r.clip_factor i ≤ 1 := by
  intro r
  obtain ⟨_, _, _, _, hf⟩ := clmgrd_mode0_owned mesh cell_cen buf cf imrgra itenso climgp
    var dpdx dpdy dpdz hk hn i hi
  rw [hf]
  exact factor_0_range climgp _ _ hc (max0_nonneg _)

/-- The part of C3 that holds in mode 1 (no halo, standard neighbourhood): for
`climgp >= 0` the factor of an owned cell that has an incident interior face lies in
`[0, 1]`. -/
theorem clmgrd_mode1_factor_range (mesh : cs_mesh_t) (cell_cen : Buf) (buf : Work) (cf : Buf)
    (imrgra itenso : Int) (climgp : ℚ) (var dpdx dpdy dpdz : Buf)
    (hc : 0 ≤ climgp) (hh : mesh.halo = none) (hstd : ¬ (imrgra = 2 ∨ imrgra = 3))
    (hn : mesh.n_cells ≤ mesh.n_cells_with_ghosts) (hwf : faces_in_range mesh)
    (i : Nat) (hi : i < mesh.n_cells) (hne : faces_of mesh i ≠ []) :
    let r := clmgrd mesh cell_cen buf cf imrgra 1 itenso climgp var dpdx dpdy dpdz
    0 ≤ r.clip_factor i ∧ r.clip_factor i ≤ 1 := by
  intro r
  obtain ⟨_, hf, _⟩ := clmgrd_mode1_owned mesh cell_cen buf cf imrgra itenso climgp
    var dpdx dpdy dpdz hh hstd hn hwf i hi hne
  rw [hf]
  unfold clip_factor_spec_1
  have hr : ∀ k, 0 ≤ ratio_spec_1 mesh cell_cen climgp var dpdx dpdy dpdz k
      ∧ ratio_spec_1 mesh cell_cen climgp var dpdx dpdy dpdz k ≤ 1 :=
    fun k => factor_0_range climgp _ _ hc (max0_nonneg _)
  cases hl : faces_of mesh i with
  | nil => exact absurd hl hne
  | cons f l =>
    constructor
    · show 0 ≤ (l.map _).foldl min _
      apply foldl_min_ge
      · exact le_min (hr _).1 (hr _).1
      · intro x hx
        obtain ⟨g, _, rfl⟩ := List.mem_map.mp hx
        exact le_min (hr _).1 (hr _).1
    · show (l.map _).foldl min _ ≤ 1
      exact le_trans (foldl_min_le_init _ _) (le_trans (min_le_left _ _) (hr _).2)

/-- C3 (defect of the code): mode 1 on the single-cell mesh `mesh_one`, which has no
interior face, with the gradient `(1, 0, 0)` and `climgp = 1`.  No face lowers the initial
value of `clip_factor[0]`, so the factor applied to the owned cell is `DBL_MAX`, which is
not in `[0, 1]`, and the gradient is multiplied by it. -/
theorem clmgrd_mode1_isolated_cell_factor :
    (clmgrd mesh_one cen_two work_any (fun _ => 0) 0 1 0 1 var_two
        (fun _ => 1) (fun _ => 0) (fun _ => 0)).clip_factor 0 = DBL_MAX
      ∧ (clmgrd mesh_one cen_two work_any (fun _ => 0) 0 1 0 1 var_two
        (fun _ => 1) (fun _ => 0) (fun _ => 0)).dpdx 0 = DBL_MAX
      ∧ ¬ (DBL_MAX ≤ 1) := by
  have hD : ¬ DBL_MAX < 99 / 100 := by
    unfold DBL_MAX
    norm_num
  refine ⟨?_, ?_, ?_⟩
  · simp [clmgrd, clip_1, clip_ext_loop_1, clip_apply_step_1, clip_init, clip_factor_init,
      sync_grad, sync_field, sync_scalar, mesh_one, first_1, ext_loop_1, work_zero,
      List.range_succ, hD]
  · simp [clmgrd, clip_1, clip_ext_loop_1, clip_apply_step_1, clip_init, clip_factor_init,
      sync_grad, sync_field, sync_scalar, mesh_one, first_1, ext_loop_1, work_zero,
      List.range_succ, hD]
  · unfold DBL_MAX
    norm_num

theorem min_list_all_one (l : List ℚ) (h : ∀ x ∈ l, x = 1) : min_list l = 1 := by
  cases l with
  | nil => rfl
  | cons b l =>
    show l.foldl min b = 1
    rw [h b (List.mem_cons_self b l)]
    have hl : ∀ x ∈ l, x = 1 := fun x hx => h x (List.mem_cons_of_mem b hx)
    clear h
    induction l with
    | nil => rfl
    | cons a l ih =>
      rw [List.foldl_cons, hl a (List.mem_cons_self a l), min_self]
      exact ih (fun x hx => hl x (List.mem_cons_of_mem a hx))

/-- C7 fails as stated: on `mesh_two` with the gradient `(4, 0, 0)`, mode 0 and
`climgp = -1 < 0` the gradient of cell 0 becomes `(-1, 0, 0)`: the cell is rescaled by
`climgp*denom/denum = -1/4`, so that the output array `dpdx` differs from the input. -/
theorem clmgrd_negative_climgp_counterexample :
    (-1 : ℚ) < 0
      ∧ (clmgrd mesh_two cen_two work_any (fun _ => 0) 0 0 0 (-1) var_two
          (fun _ => 4) (fun _ => 0) (fun _ => 0)).dpdx 0 = -1
      ∧ (clmgrd mesh_two cen_two work_any (fun _ => 0) 0 0 0 (-1) var_two
          (fun _ => 4) (fun _ => 0) (fun _ => 0)).dpdx ≠ (fun _ => 4) := by
  have h : (clmgrd mesh_two cen_two work_any (fun _ => 0) 0 0 0 (-1) var_two
      (fun _ => 4) (fun _ => 0) (fun _ => 0)).dpdx 0 = -1 := by
    norm_num [clmgrd, sync_field, sync_grad, mesh_two, first_0, ext_loop_0, faces_step_0,
      work_zero, clip_0, clip_step_0, clip_init, face_i1, face_i2, dist_dot, cen_diff,
      cen_two, var_two, List.range_succ, work_any, Function.update]
  refine ⟨by norm_num, h, ?_⟩
  intro he
  rw [he] at h
  norm_num at h

/-- C7 as amended: for `climgp < 0` the limiter is not a no-op.  On a mesh without halo,
in mode 0 an owned cell `i` keeps its gradient when `denum[i] = 0` and `denom[i] = 0`,
whereas every owned cell with `denum[i] > 0` has its gradient multiplied by
`climgp*denom[i]/denum[i]`, which is `<= 0`; in mode 1 (standard neighbourhood) an owned
cell with an incident interior face keeps its gradient when `denum[k] = 0` and
`denom[k] = 0` for both cells `k` of each of its incident faces. -/
theorem clmgrd_negative_climgp (mesh : cs_mesh_t) (cell_cen : Buf) (buf : Work) (cf : Buf)
    (imrgra itenso : Int) (climgp : ℚ) (var dpdx dpdy dpdz : Buf)
    (hc : climgp < 0) (hh : mesh.halo = none)
    (hn : mesh.n_cells ≤ mesh.n_cells_with_ghosts) (i : Nat) (hi : i < mesh.n_cells) :
    let r0 := clmgrd mesh cell_cen buf cf imrgra 0 itenso climgp var dpdx dpdy dpdz
    let r1 := clmgrd mesh cell_cen buf cf imrgra 1 itenso climgp var dpdx dpdy dpdz
    let denum := denum_spec_0 mesh cell_cen imrgra dpdx dpdy dpdz i
    let denom := denom_spec mesh imrgra var i
    (denum = 0 → denom = 0 →
        r0.dpdx i = dpdx i ∧ r0.dpdy i = dpdy i ∧ r0.dpdz i = dpdz i)
      ∧ (0 < denum →
          climgp * denom / denum ≤ 0
            ∧ r0.dpdx i = dpdx i * (climgp * denom / denum)
            ∧ r0.dpdy i = dpdy i * (climgp * denom / denum)
            ∧ r0.dpdz i = dpdz i * (climgp * denom / denum))
      ∧ (¬ (imrgra = 2 ∨ imrgra = 3) → faces_in_range mesh → faces_of mesh i ≠ [] →
          (∀ f ∈ faces_of mesh i,
            denum_spec_1 mesh cell_cen dpdx dpdy dpdz (face_i1 mesh f) = 0
              ∧ denom_spec_1 mesh var (face_i1 mesh f) = 0
              ∧ denum_spec_1 mesh cell_cen dpdx dpdy dpdz (face_i2 mesh f) = 0
              ∧ denom_spec_1 mesh var (face_i2 mesh f) = 0) →
          r1.dpdx i = dpdx i ∧ r1.dpdy i = dpdy i ∧ r1.dpdz i = dpdz i) := by
  intro r0 r1 denum denom
  obtain ⟨_, hx, hy, hz, _⟩ := clmgrd_mode0_owned mesh cell_cen buf cf imrgra itenso climgp
    var dpdx dpdy dpdz (halo_keeps_owned_of_nohalo mesh hh) hn i hi
  rw [sync_field_nohalo mesh hh] at hx hy hz
  have hd : 0 ≤ denom := max0_nonneg _
  refine ⟨?_, ?_, ?_⟩
  · intro h1 h2
    have hf : factor_0 climgp denum denom = 1 := by
      unfold factor_0
      rw [h1, h2, mul_zero, if_neg (lt_irrefl 0)]
    rw [hf, mul_one] at hx hy hz
    exact ⟨hx, hy, hz⟩
  · intro hpos
    have hle : climgp * denom ≤ 0 := mul_nonpos_of_nonpos_of_nonneg (le_of_lt hc) hd
    have hg : denum > climgp * denom := lt_of_le_of_lt hle hpos
    have hf : factor_0 climgp denum denom = climgp * denom / denum := if_pos hg
    rw [hf] at hx hy hz
    exact ⟨div_nonpos_of_nonpos_of_nonneg hle (le_of_lt hpos), hx, hy, hz⟩
  · intro hstd hwf hne hzero
    obtain ⟨_, _, gx, gy, gz⟩ := clmgrd_mode1_owned mesh cell_cen buf cf imrgra itenso climgp
      var dpdx dpdy dpdz hh hstd hn hwf i hi hne
    have hone : clip_factor_spec_1 mesh cell_cen climgp var dpdx dpdy dpdz i = 1 := by
      unfold clip_factor_spec_1
      apply min_list_all_one
      intro x hx
      obtain ⟨f, hf, rfl⟩ := List.mem_map.mp hx
      obtain ⟨z1, z2, z3, z4⟩ := hzero f hf
      unfold ratio_spec_1 factor_0
      rw [z1, z2, z3, z4, mul_zero, if_neg (lt_irrefl 0), min_self]
    rw [hone, mul_one] at gx gy gz
    exact ⟨gx, gy, gz⟩

/-- C7 as amended, on `mesh_two` with the gradient `(4, 0, 0)` and `climgp = -1`: cell 0
has `denum = 4 > 0` and its gradient is multiplied by `-1/4`. -/
theorem clmgrd_negative_climgp_witness :
    (-1 : ℚ) < 0 ∧ mesh_two.halo = none
      ∧ mesh_two.n_cells ≤ mesh_two.n_cells_with_ghosts ∧ 0 < mesh_two.n_cells
      ∧ (clmgrd mesh_two cen_two work_any (fun _ => 0) 0 0 0 (-1) var_two
          (fun _ => 4) (fun _ => 0) (fun _ => 0)).dpdx 0 = 4 * (-1 * 1 / 4) := by
  have hd : denum_spec_0 mesh_two cen_two 0 (fun _ => 4) (fun _ => 0) (fun _ => 0) 0 = 4 := by
    norm_num [denum_spec_0, nbrs, ext_nbrs, mesh_two, face_nbrs, face_i1, face_i2, max0,
      dist_dot, cen_diff, cen_two, List.range_succ]
  have hm : denom_spec mesh_two 0 var_two 0 = 1 := by
    norm_num [denom_spec, nbrs, ext_nbrs, mesh_two, face_nbrs, face_i1, face_i2, max0,
      var_two, List.range_succ]
  have h := (clmgrd_negative_climgp mesh_two cen_two work_any (fun _ => 0) 0 0 (-1) var_two
    (fun _ => 4) (fun _ => 0) (fun _ => 0) (by norm_num) rfl (le_refl 2) 0
    (by decide)).2.1
  rw [hd, hm] at h
  exact ⟨by norm_num, rfl, le_refl 2, by decide, (h (by norm_num)).2.1⟩

/-! ### The divisors -/

theorem mul_block_inv {n : Nat} (A : Matrix (Fin n) (Fin n) ℚ) (h : A.det ≠ 0) :
    A * block_inv A = 1 := by
  unfold block_inv
  rw [Matrix.mul_smul, Matrix.mul_adjugate, smul_smul, inv_mul_cancel₀ h, one_smul]

/-- C9: condensation/recovery round trip.  For every local block system
`(A_ff, A_fc, A_cf, A_cc, b_f, b_c)` with invertible `A_cc`, with the cached data
`rc_tilda = A_cc⁻¹ b_c` and `acf_tilda = A_cc⁻¹ A_cf`, the recovered cell value
`x_c = rc_tilda - acf_tilda x_f` satisfies `A_cc x_c = b_c - A_cf x_f` for every face vector
`x_f`; and when `x_f` solves the condensed system
`(A_ff - A_fc A_cc⁻¹ A_cf) x_f = b_f - A_fc A_cc⁻¹ b_c`, the pair `(x_f, x_c)` solves the
original system. -/
theorem condensation_recovery_round_trip {nf nc : Nat} (s : BlockSystem nf nc)
    (x_f : Fin nf → ℚ) (hinv : s.A_cc.det ≠ 0) :
    let c := cs_static_condensation_vector_eq s
    let x_c := cs_static_condensation_recover_vector c.rc_tilda c.acf_tilda x_f
    c.rc_tilda = (block_inv s.A_cc).mulVec s.b_c
      ∧ c.acf_tilda = block_inv s.A_cc * s.A_cf
      ∧ s.A_cc.mulVec x_c = s.b_c - s.A_cf.mulVec x_f
      ∧ (c.mat.mulVec x_f = c.rhs →
          s.A_ff.mulVec x_f + s.A_fc.mulVec x_c = s.b_f
            ∧ s.A_cf.mulVec x_f + s.A_cc.mulVec x_c = s.b_c) := by
  intro c x_c
  have hcell : s.A_cc.mulVec x_c = s.b_c - s.A_cf.mulVec x_f := by
    show s.A_cc.mulVec ((block_inv s.A_cc).mulVec s.b_c
      - (block_inv s.A_cc * s.A_cf).mulVec x_f) = _
    rw [Matrix.mulVec_sub, Matrix.mulVec_mulVec, Matrix.mulVec_mulVec, ← Matrix.mul_assoc,
      mul_block_inv s.A_cc hinv, Matrix.one_mul, Matrix.one_mulVec]
  refine ⟨rfl, rfl, hcell, ?_⟩
  intro hred
  constructor
  · have h1 : (s.A_ff - s.A_fc * block_inv s.A_cc * s.A_cf).mulVec x_f
        = s.b_f - (s.A_fc * block_inv s.A_cc).mulVec s.b_c := hred
    have h2 : s.A_fc.mulVec x_c = (s.A_fc * block_inv s.A_cc).mulVec s.b_c
        - (s.A_fc * block_inv s.A_cc * s.A_cf).mulVec x_f := by
      show s.A_fc.mulVec ((block_inv s.A_cc).mulVec s.b_c
        - (block_inv s.A_cc * s.A_cf).mulVec x_f) = _
      rw [Matrix.mulVec_sub, Matrix.mulVec_mulVec, Matrix.mulVec_mulVec, ← Matrix.mul_assoc]
    rw [Matrix.sub_mulVec] at h1
    rw [h2]
    have h3 : s.A_ff.mulVec x_f = s.b_f - (s.A_fc * block_inv s.A_cc).mulVec s.b_c
        + (s.A_fc * block_inv s.A_cc * s.A_cf).mulVec x_f := by
      rw [← h1]
      abel
    rw [h3]
    abel
  · rw [hcell]
    abel

/-- C9, on `block_two`, whose cell block has determinant 1, with the face vector
`(1, 1)`. -/
theorem condensation_recovery_round_trip_witness :
    block_two.A_cc.det ≠ 0
      ∧ block_two.A_cc.mulVec (cs_static_condensation_recover_vector
          (cs_static_condensation_vector_eq block_two).rc_tilda
          (cs_static_condensation_vector_eq block_two).acf_tilda ![1, 1])
        = block_two.b_c - block_two.A_cf.mulVec ![1, 1] := by
  have hdet : block_two.A_cc.det ≠ 0 := by
    norm_num [block_two, Matrix.det_fin_two]
  exact ⟨hdet, (condensation_recovery_round_trip block_two ![1, 1] hdet).2.2.1⟩

/-! ## Internal enforcement in the initialisation of the cellwise system -/

/-- One turn of the loop on `k` for an enforced face, read at the unknown `j`. -/
theorem enforce_dof_at (ext : init_externals) (f : Nat) (id : Int) (c : cs_cell_sys_t)
    (k j : Nat) :
    (enforce_dof ext f id c k).dof_flag = c.dof_flag
      ∧ (enforce_dof ext f id c k).intern_forced_ids j
        = (if j = 3 * f + k then
            (if ext.cs_cdo_bc_is_dirichlet (c.dof_flag (3 * f + k)) = true then -1
             else 3 * id + (k : Int))
           else c.intern_forced_ids j)
      ∧ ((enforce_dof ext f id c k).has_internal_enforcement = true
          ↔ c.has_internal_enforcement = true
            ∨ ext.cs_cdo_bc_is_dirichlet (c.dof_flag (3 * f + k)) = false) := by
  unfold enforce_dof
  by_cases hd : ext.cs_cdo_bc_is_dirichlet (c.dof_flag (3 * f + k)) = true
  · by_cases hj : j = 3 * f + k
    · subst hj
      simp [hd]
    · simp [hd, hj, Function.update_noteq hj]
  · have hd2 : ext.cs_cdo_bc_is_dirichlet (c.dof_flag (3 * f + k)) = false := by
      simpa using hd
    by_cases hj : j = 3 * f + k
    · subst hj
      simp [hd2]
    · simp [hd2, hj, Function.update_noteq hj]

theorem enforced_id_spec_neg (ext : init_externals) (cm : cs_cell_mesh_t)
    (forced_ids : Nat → Int) (dof_flag : Nat → Nat) (f k : Nat)
    (h : forced_ids (cm.f_ids f) < 0) :
    enforced_id_spec ext cm forced_ids dof_flag f k = -1 := by
  unfold enforced_id_spec
  rw [if_pos (Or.inl h)]

theorem enforced_id_spec_nonneg (ext : init_externals) (cm : cs_cell_mesh_t)
    (forced_ids : Nat → Int) (dof_flag : Nat → Nat) (f k : Nat)
    (h : ¬ forced_ids (cm.f_ids f) < 0) :
    enforced_id_spec ext cm forced_ids dof_flag f k
      = (if ext.cs_cdo_bc_is_dirichlet (dof_flag (3 * f + k)) = true then -1
         else 3 * forced_ids (cm.f_ids f) + (k : Int)) := by
  unfold enforced_id_spec
  by_cases hd : ext.cs_cdo_bc_is_dirichlet (dof_flag (3 * f + k)) = true
  · rw [if_pos (Or.inr hd), if_pos hd]
  · rw [if_neg (fun h2 => h2.elim h hd), if_neg hd]

/-- One turn of the loop on the faces, read at the unknown `j`. -/
theorem enforce_face_at (ext : init_externals) (cm : cs_cell_mesh_t) (forced_ids : Nat → Int)
    (c : cs_cell_sys_t) (f j : Nat) :
    (enforce_face ext cm forced_ids c f).dof_flag = c.dof_flag
      ∧ (enforce_face ext cm forced_ids c f).intern_forced_ids j
        = (if j / 3 = f then enforced_id_spec ext cm forced_ids c.dof_flag f (j % 3)
           else c.intern_forced_ids j)
      ∧ ((enforce_face ext cm forced_ids c f).has_internal_enforcement = true
          ↔ c.has_internal_enforcement = true
            ∨ ∃ k, k < 3 ∧ 0 ≤ forced_ids (cm.f_ids f)
                ∧ ext.cs_cdo_bc_is_dirichlet (c.dof_flag (3 * f + k)) = false) := by
  have hr : List.range 3 = [0, 1, 2] := rfl
  by_cases hid : forced_ids (cm.f_ids f) < 0
  · have he : enforce_face ext cm forced_ids c f
        = { c with intern_forced_ids :=
              Function.update (Function.update (Function.update c.intern_forced_ids
                (3 * f + 0) (-1)) (3 * f + 1) (-1)) (3 * f + 2) (-1) } := by
      unfold enforce_face
      simp only [if_pos hid, hr, List.foldl_cons, List.foldl_nil]
    rw [he]
    refine ⟨rfl, ?_, ?_⟩
    · show Function.update (Function.update (Function.update c.intern_forced_ids
        (3 * f + 0) (-1)) (3 * f + 1) (-1)) (3 * f + 2) (-1) j = _
      rw [enforced_id_spec_neg ext cm forced_ids c.dof_flag f (j % 3) hid]
      simp only [Function.update_apply]
      split_ifs <;> first | rfl | omega
    · show c.has_internal_enforcement = true ↔ _
      constructor
      · intro h
        exact Or.inl h
      · rintro (h | ⟨k, _, hk, _⟩)
        · exact h
        · exact absurd hid (not_lt.mpr hk)
  · have he : enforce_face ext cm forced_ids c f
        = enforce_dof ext f (forced_ids (cm.f_ids f))
            (enforce_dof ext f (forced_ids (cm.f_ids f))
              (enforce_dof ext f (forced_ids (cm.f_ids f)) c 0) 1) 2 := by
      unfold enforce_face
      simp only [if_neg hid, hr, List.foldl_cons, List.foldl_nil]
    obtain ⟨a0, b0, c0⟩ := enforce_dof_at ext f (forced_ids (cm.f_ids f)) c 0 j
    obtain ⟨a1, b1, c1⟩ := enforce_dof_at ext f (forced_ids (cm.f_ids f))
      (enforce_dof ext f (forced_ids (cm.f_ids f)) c 0) 1 j
    obtain ⟨a2, b2, c2⟩ := enforce_dof_at ext f (forced_ids (cm.f_ids f))
      (enforce_dof ext f (forced_ids (cm.f_ids f))
        (enforce_dof ext f (forced_ids (cm.f_ids f)) c 0) 1) 2 j
    rw [a1, a0] at a2 b2 c2
    rw [a0] at b1 c1
    rw [he]
    refine ⟨a2, ?_, ?_⟩
    · rw [b2, b1, b0]
      by_cases hj : j / 3 = f
      · rw [if_pos hj, enforced_id_spec_nonneg ext cm forced_ids c.dof_flag f (j % 3) hid]
        have h3 : j = 3 * f + 0 ∨ j = 3 * f + 1 ∨ j = 3 * f + 2 := by omega
        rcases h3 with h | h | h
        · have n1 : ¬ j = 3 * f + 1 := by omega
          have n2 : ¬ j = 3 * f + 2 := by omega
          have hm : j % 3 = 0 := by omega
          rw [if_neg n2, if_neg n1, if_pos h, hm]
        · have n2 : ¬ j = 3 * f + 2 := by omega
          have hm : j % 3 = 1 := by omega
          rw [if_neg n2, if_pos h, hm]
        · have hm : j % 3 = 2 := by omega
          rw [if_pos h, hm]
      · have n0 : ¬ j = 3 * f + 0 := by omega
        have n1 : ¬ j = 3 * f + 1 := by omega
        have n2 : ¬ j = 3 * f + 2 := by omega
        rw [if_neg hj, if_neg n2, if_neg n1, if_neg n0]
    · rw [c2, c1, c0]
      have hid2 : 0 ≤ forced_ids (cm.f_ids f) := not_lt.mp hid
      constructor
      · rintro ((h | h) | h)
        · rcases h with h | h
          · exact Or.inl h
          · exact Or.inr ⟨0, by omega, hid2, h⟩
        · exact Or.inr ⟨1, by omega, hid2, h⟩
        · exact Or.inr ⟨2, by omega, hid2, h⟩
      · rintro (h | ⟨k, hk, _, hd⟩)
        · exact Or.inl (Or.inl (Or.inl h))
        · have h3 : k = 0 ∨ k = 1 ∨ k = 2 := by omega
          rcases h3 with h | h | h
          · subst h
            exact Or.inl (Or.inl (Or.inr hd))
          · subst h
            exact Or.inl (Or.inr hd)
          · subst h
            exact Or.inr hd

/-- The loop on the faces of the cell, read at the unknown `j`. -/
theorem enforce_fold_at (ext : init_externals) (cm : cs_cell_mesh_t) (forced_ids : Nat → Int)
    (c : cs_cell_sys_t) (n j : Nat) :
    ((List.range n).foldl (enforce_face ext cm forced_ids) c).dof_flag = c.dof_flag
      ∧ ((List.range n).foldl (enforce_face ext cm forced_ids) c).intern_forced_ids j
        = (if j / 3 < n then enforced_id_spec ext cm forced_ids c.dof_flag (j / 3) (j % 3)
           else c.intern_forced_ids j)
      ∧ (((List.range n).foldl (enforce_face ext cm forced_ids) c).has_internal_enforcement
            = true
          ↔ c.has_internal_enforcement = true
            ∨ ∃ f, f < n ∧ ∃ k, k < 3 ∧ 0 ≤ forced_ids (cm.f_ids f)
                ∧ ext.cs_cdo_bc_is_dirichlet (c.dof_flag (3 * f + k)) = false) := by
  induction n with
  | zero =>
    refine ⟨rfl, ?_, ?_⟩
    · rw [if_neg (Nat.not_lt_zero _)]
      rfl
    · constructor
      · intro h
        exact Or.inl h
      · rintro (h | ⟨f, hf, _⟩)
        · exact h
        · exact absurd hf (Nat.not_lt_zero f)
  | succ n ih =>
    obtain ⟨i1, i2, i3⟩ := ih
    rw [List.range_succ, List.foldl_append]
    obtain ⟨e1, e2, e3⟩ := enforce_face_at ext cm forced_ids
      ((List.range n).foldl (enforce_face ext cm forced_ids) c) n j
    rw [i1] at e1 e2 e3
    refine ⟨e1, ?_, ?_⟩
    · show (enforce_face ext cm forced_ids _ n).intern_forced_ids j = _
      rw [e2, i2]
      by_cases hj : j / 3 = n
      · rw [if_pos hj, if_pos (by omega), hj]
      · rw [if_neg hj]
        by_cases hlt : j / 3 < n
        · rw [if_pos hlt, if_pos (by omega)]
        · rw [if_neg hlt, if_neg (by omega)]
    · show (enforce_face ext cm forced_ids _ n).has_internal_enforcement = true ↔ _
      rw [e3, i3]
      constructor
      · rintro ((h | ⟨f, hf, k, hk⟩) | ⟨k, hk⟩)
        · exact Or.inl h
        · exact Or.inr ⟨f, by omega, k, hk⟩
        · exact Or.inr ⟨n, by omega, k, hk⟩
      · rintro (h | ⟨f, hf, k, hk⟩)
        · exact Or.inl (Or.inl h)
        · by_cases hfn : f = n
          · subst hfn
            exact Or.inr ⟨k, hk⟩
          · exact Or.inl (Or.inr ⟨f, by omega, k, hk⟩)

/-- C10: Dirichlet wins over internal enforcement.  After
`cs_cdofb_vecteq_init_cell_system` on an equation with internal enforcement, for every
local face `f` and component `k`, `intern_forced_ids[3f+k]` is -1 if
`forced_ids[f_ids[f]] < 0` or if `dof_flag[3f+k]` is a Dirichlet flag, and
`3*forced_ids[f_ids[f]] + k` otherwise; so for an unknown flagged both Dirichlet and
internally enforced the stored id is the same as when the internal enforcement is disabled
for its face (any `forced_ids` negative there), and `has_internal_enforcement` is set only
by an enforced unknown that is not Dirichlet. -/
theorem init_cell_system_dirichlet_wins (ext : init_externals) (cell_flag : Nat)
    (cm : cs_cell_mesh_t) (face_values dir_values : Nat → ℚ) (forced_ids : Nat → Int)
    (field_tn : Nat → ℚ) (t_eval : ℚ) (csys : cs_cell_sys_t)
    (henf : ext.has_internal_enforcement = true)
    (f k : Nat) (hf : f < cm.n_fc) (hk : k < 3) :
    let out := cs_cdofb_vecteq_init_cell_system ext cell_flag cm face_values dir_values
      forced_ids field_tn t_eval csys
    let pre := init_cell_system_bc ext cell_flag cm face_values dir_values field_tn t_eval
      csys
    out.intern_forced_ids (3 * f + k)
        = (if forced_ids (cm.f_ids f) < 0
              ∨ ext.cs_cdo_bc_is_dirichlet (out.dof_flag (3 * f + k)) = true
           then -1 else 3 * forced_ids (cm.f_ids f) + (k : Int))
      ∧ (ext.cs_cdo_bc_is_dirichlet (out.dof_flag (3 * f + k)) = true →
          ∀ forced_off : Nat → Int, forced_off (cm.f_ids f) < 0 →
            (cs_cdofb_vecteq_init_cell_system ext cell_flag cm face_values dir_values
              forced_off field_tn t_eval csys).intern_forced_ids (3 * f + k)
              = out.intern_forced_ids (3 * f + k))
      ∧ (out.has_internal_enforcement = true
          ↔ pre.has_internal_enforcement = true
            ∨ ∃ f2, f2 < cm.n_fc ∧ ∃ k2, k2 < 3 ∧ 0 ≤ forced_ids (cm.f_ids f2)
                ∧ ext.cs_cdo_bc_is_dirichlet (out.dof_flag (3 * f2 + k2)) = false) := by
  intro out pre
  have hout : ∀ fi : Nat → Int,
      cs_cdofb_vecteq_init_cell_system ext cell_flag cm face_values dir_values fi field_tn
        t_eval csys = (List.range cm.n_fc).foldl (enforce_face ext cm fi) pre := by
    intro fi
    unfold cs_cdofb_vecteq_init_cell_system
    simp only [henf, if_true]
  have hdiv : (3 * f + k) / 3 = f := by omega
  have hmod : (3 * f + k) % 3 = k := by omega
  obtain ⟨d1, d2, d3⟩ := enforce_fold_at ext cm forced_ids pre cm.n_fc (3 * f + k)
  have hflag : out.dof_flag = pre.dof_flag := by
    show (cs_cdofb_vecteq_init_cell_system ext cell_flag cm face_values dir_values
      forced_ids field_tn t_eval csys).dof_flag = _
    rw [hout]
    exact d1
  have hval : out.intern_forced_ids (3 * f + k)
      = enforced_id_spec ext cm forced_ids pre.dof_flag f k := by
    show (cs_cdofb_vecteq_init_cell_system ext cell_flag cm face_values dir_values
      forced_ids field_tn t_eval csys).intern_forced_ids (3 * f + k) = _
    rw [hout, d2, hdiv, hmod, if_pos hf]
  refine ⟨?_, ?_, ?_⟩
  · rw [hval, hflag]
    rfl
  · intro hdir forced_off hoff
    obtain ⟨_, o2, _⟩ := enforce_fold_at ext cm forced_off pre cm.n_fc (3 * f + k)
    rw [hout, o2, hdiv, hmod, if_pos hf, hval,
      enforced_id_spec_neg ext cm forced_off pre.dof_flag f k hoff]
    rw [hflag] at hdir
    unfold enforced_id_spec
    rw [if_pos (Or.inr hdir)]
  · rw [hflag]
    show (cs_cdofb_vecteq_init_cell_system ext cell_flag cm face_values dir_values
      forced_ids field_tn t_eval csys).has_internal_enforcement = true ↔ _
    rw [hout]
    exact d3

/-- C10, on a boundary cell with one face whose component 0 is Dirichlet and whose face
is enforced with the id 7: the unknown 0 gets -1, the unknown 1 gets `3*7 + 1`. -/
theorem init_cell_system_dirichlet_wins_witness :
    ext_one.has_internal_enforcement = true ∧ 0 < cm_one.n_fc ∧ 1 < 3
      ∧ (cs_cdofb_vecteq_init_cell_system ext_one 1 cm_one (fun _ => 0) (fun _ => 0)
          (fun _ => 7) (fun _ => 0) 0 csys_any).intern_forced_ids 0 = -1
      ∧ (cs_cdofb_vecteq_init_cell_system ext_one 1 cm_one (fun _ => 0) (fun _ => 0)
          (fun _ => 7) (fun _ => 0) 0 csys_any).intern_forced_ids 1 = 22 := by
  have h0 := (init_cell_system_dirichlet_wins ext_one 1 cm_one (fun _ => 0) (fun _ => 0)
    (fun _ => 7) (fun _ => 0) 0 csys_any rfl 0 0 (by decide) (by decide)).1
  have h1 := (init_cell_system_dirichlet_wins ext_one 1 cm_one (fun _ => 0) (fun _ => 0)
    (fun _ => 7) (fun _ => 0) 0 csys_any rfl 0 1 (by decide) (by decide)).1
  have hflag : (cs_cdofb_vecteq_init_cell_system ext_one 1 cm_one (fun _ => 0) (fun _ => 0)
      (fun _ => 7) (fun _ => 0) 0 csys_any).dof_flag = fun j => if j = 0 then 1 else 0 := by
    have hd := (enforce_fold_at ext_one cm_one (fun _ => 7)
      (init_cell_system_bc ext_one 1 cm_one (fun _ => 0) (fun _ => 0) (fun _ => 0) 0
        csys_any) cm_one.n_fc 0).1
    exact hd
  rw [hflag] at h0 h1
  refine ⟨rfl, by decide, by decide, ?_, ?_⟩
  · rw [h0]
    simp [ext_one]
  · rw [h1]
    simp [ext_one]

/-! ## Setting up the scheme -/

/-- With settings that pass the other checks, `cs_cdofb_vecteq_init_context` ends as the
choice of the advection functions does. -/
theorem init_context_of_valid (eqp : cs_equation_param_t) (eqb : cs_equation_builder_t)
    (hv : valid_apart_from_advection eqp) :
    ∃ stiff dir, cs_cdofb_vecteq_init_context eqp eqb =
      (init_context_advection eqp).map (fun adv =>
        (({ get_stiffness_matrix := stiff, enforce_dirichlet := some dir,
            enforce_sliding := decide (eqb.n_sliding_faces > 0),
            adv_func := adv.1, adv_func_bc := adv.2 } : vecteq_funcs),
         init_context_time eqp
           { eqb with sys_time_diag := false, sys_mass_matrix := false })) := by
  obtain ⟨h1, h2, h3, h4, h5⟩ := hv
  have hd : ∃ stiff, init_context_diffusion eqp = some stiff := by
    unfold init_context_diffusion
    by_cases hdiff : eqp.has_diffusion = true
    · rcases h3 hdiff with h | h <;> simp [hdiff, h]
    · simp [hdiff]
  have he : ∃ dir, init_context_enforcement eqp = some dir := by
    unfold init_context_enforcement
    rcases h4 with h | h | h | h <;> simp [h]
  have hr : init_context_reaction eqp = some () := by
    unfold init_context_reaction
    by_cases hreac : eqp.has_reaction = true
    · simp [hreac, h5 hreac]
    · simp [hreac]
  obtain ⟨stiff, hd⟩ := hd
  obtain ⟨dir, he⟩ := he
  refine ⟨stiff, dir, ?_⟩
  unfold cs_cdofb_vecteq_init_context
  simp only [h1, h2, hd, he, hr]
  cases init_context_advection eqp <;> simp

/-- With a convection term, the choice of the advection functions succeeds exactly on the
supported pairs. -/
theorem init_context_advection_isSome (eqp : cs_equation_param_t)
    (hc : eqp.has_convection = true) :
    (init_context_advection eqp).isSome = true ↔ advection_accepted eqp := by
  unfold init_context_advection advection_accepted
  rw [if_pos hc]
  cases hf : eqp.adv_formulation <;> cases hs : eqp.adv_scheme <;>
    cases hdf : eqp.has_diffusion <;> simp

/-- With a convection term, a successful choice sets both advection functions. -/
theorem init_context_advection_funcs (eqp : cs_equation_param_t)
    (hc : eqp.has_convection = true) (adv : Option adv_func_t × Option adv_func_bc_t)
    (h : init_context_advection eqp = some adv) :
    adv.1.isSome = true ∧ adv.2.isSome = true := by
  unfold init_context_advection at h
  rw [if_pos hc] at h
  cases hf : eqp.adv_formulation <;> cases hs : eqp.adv_scheme <;>
    cases hdf : eqp.has_diffusion <;> simp [hf, hs, hdf] at h <;> subst h <;> simp

/-- C16: for an equation with a convection term and settings that pass the other checks,
`cs_cdofb_vecteq_init_context` ends without fatal error if and only if the scheme is
upwind with a conservative, non-conservative or skew-symmetric formulation, or centered
with the skew-symmetric formulation and a diffusion term; on success `adv_func` and
`adv_func_bc` are both set.  Without convection the function succeeds and both are
`NULL`. -/
theorem init_context_advection_acceptance (eqp : cs_equation_param_t)
    (eqb : cs_equation_builder_t) (hv : valid_apart_from_advection eqp) :
    (eqp.has_convection = true →
      ((cs_cdofb_vecteq_init_context eqp eqb).isSome = true ↔ advection_accepted eqp) ∧
      ∀ r, cs_cdofb_vecteq_init_context eqp eqb = some r →
        r.1.adv_func.isSome = true ∧ r.1.adv_func_bc.isSome = true) ∧
    (eqp.has_convection = false →
      ∃ r, cs_cdofb_vecteq_init_context eqp eqb = some r ∧
        r.1.adv_func = none ∧ r.1.adv_func_bc = none) := by
  obtain ⟨stiff, dir, h⟩ := init_context_of_valid eqp eqb hv
  refine ⟨fun hc => ⟨?_, ?_⟩, fun hc => ?_⟩
  · rw [h, ← init_context_advection_isSome eqp hc]
    cases init_context_advection eqp <;> simp
  · intro r hr
    rw [h] at hr
    cases hadv : init_context_advection eqp with
    | none => rw [hadv] at hr; simp at hr
    | some adv =>
      rw [hadv] at hr
      simp only [Option.map_some'] at hr
      have hr2 := Option.some.inj hr
      subst hr2
      exact init_context_advection_funcs eqp hc adv hadv
  · have hadv : init_context_advection eqp = some (none, none) := by
      unfold init_context_advection
      simp [hc]
    rw [h, hadv]
    exact ⟨_, rfl, rfl, rfl⟩

/-- C16, on an equation with convection only, upwind scheme and conservative formulation:
the settings pass the other checks and the function succeeds. -/
theorem init_context_advection_acceptance_witness :
    valid_apart_from_advection eqp_upwind ∧
      (cs_cdofb_vecteq_init_context eqp_upwind eqb_any).isSome = true := by
  have hv : valid_apart_from_advection eqp_upwind := by
    unfold valid_apart_from_advection
    simp [eqp_upwind]
  refine ⟨hv, ?_⟩
  refine ((init_context_advection_acceptance eqp_upwind eqb_any hv).1 rfl).1.2 ?_
  unfold advection_accepted
  simp [eqp_upwind]

/-! ## Build steps of the cellwise system: the local matrix -/

/-- The statement `b->val[e] += v` changes one entry. -/
theorem mat_add_apply (m : Nat → Nat → Nat → ℚ) (bi bj e : Nat) (v : ℚ) (i j k : Nat) :
    mat_add m bi bj e v i j k = m i j k + (if i = bi ∧ j = bj ∧ k = e then v else 0) := by
  unfold mat_add
  split_ifs <;> simp

/-- The three statements on a block add `v` to its entries 0, 4 and 8. -/
theorem block_add_diag_apply (m : Nat → Nat → Nat → ℚ) (bi bj : Nat) (v : ℚ)
    (i j e : Nat) :
    block_add_diag m bi bj v i j e
      = m i j e + (if i = bi ∧ j = bj ∧ (e = 0 ∨ e = 4 ∨ e = 8) then v else 0) := by
  unfold block_add_diag
  rw [mat_add_apply, mat_add_apply, mat_add_apply]
  by_cases hi : i = bi <;> by_cases hj : j = bj <;> by_cases h0 : e = 0 <;>
    by_cases h4 : e = 4 <;> by_cases h8 : e = 8 <;> simp [hi, hj, h0, h4, h8]

/-- The loop on `bj` up to `k`, in the row `bi` of blocks. -/
theorem add_row_fold_apply (w : Nat) (sval : Nat → ℚ) (bi : Nat) (k : Nat)
    (m : Nat → Nat → Nat → ℚ) (i j e : Nat) :
    ((List.range k).foldl
        (fun m2 bj => block_add_diag m2 bi bj (sval (w * bi + bj))) m) i j e
      = m i j e
        + (if i = bi ∧ j < k ∧ (e = 0 ∨ e = 4 ∨ e = 8) then sval (w * bi + j) else 0) := by
  induction k with
  | zero => simp
  | succ k ih =>
    rw [List.range_succ, List.foldl_append]
    simp only [List.foldl_cons, List.foldl_nil]
    rw [block_add_diag_apply, ih, add_assoc]
    congr 1
    by_cases hi : i = bi
    · by_cases hj : j < k
      · have h1 : j < k + 1 := by omega
        have h2 : j ≠ k := by omega
        simp [hi, hj, h1, h2]
      · by_cases hjk : j = k
        · subst hjk
          simp [hi]
        · have h1 : ¬ j < k + 1 := by omega
          simp [hi, hj, hjk, h1]
    · simp [hi]

/-- The loop on `bi` up to `k` around the loop on `bj`. -/
theorem add_rows_fold_apply (w : Nat) (sval : Nat → ℚ) (k : Nat)
    (m : Nat → Nat → Nat → ℚ) (i j e : Nat) :
    ((List.range k).foldl
        (fun m1 bi => (List.range w).foldl
          (fun m2 bj => block_add_diag m2 bi bj (sval (w * bi + bj))) m1) m) i j e
      = m i j e
        + (if i < k ∧ j < w ∧ (e = 0 ∨ e = 4 ∨ e = 8)
            then sval (w * i + j) else 0) := by
  induction k with
  | zero => simp
  | succ k ih =>
    rw [List.range_succ, List.foldl_append]
    simp only [List.foldl_cons, List.foldl_nil]
    rw [add_row_fold_apply, ih, add_assoc]
    congr 1
    by_cases hi : i < k
    · have h1 : i < k + 1 := by omega
      have h2 : i ≠ k := by omega
      simp [hi, h1, h2]
    · by_cases hik : i = k
      · subst hik
        simp
      · have h1 : ¬ i < k + 1 := by omega
        simp [hi, hik, h1]

/-- The two nested loops add `sval[(n_fc+1)*bi + bj]` to the entries 0, 4 and 8 of every
block `(bi, bj)` with `bi, bj <= n_fc`, and change nothing else. -/
theorem add_local_operator_apply (n_fc : Nat) (sval : Nat → ℚ)
    (m : Nat → Nat → Nat → ℚ) (i j e : Nat) :
    add_local_operator n_fc sval m i j e
      = m i j e
        + (if i ≤ n_fc ∧ j ≤ n_fc ∧ (e = 0 ∨ e = 4 ∨ e = 8)
            then sval ((n_fc + 1) * i + j) else 0) := by
  unfold add_local_operator
  rw [add_rows_fold_apply]
  congr 1
  simp only [Nat.lt_succ_iff]

/-- The loop on `k` of the diagonal time term: entries 0, 4, 8 of the cell-cell block and
the three cell rows of the right-hand side. -/
theorem time_diag_fold (n_f : Nat) (ptyc : ℚ) (csys : cs_cell_sys_t) :
    (∀ bi bj e, ((List.range 3).foldl (time_diag_step n_f ptyc) csys).mat bi bj e
        = csys.mat bi bj e
          + (if bi = n_f ∧ bj = n_f ∧ (e = 0 ∨ e = 4 ∨ e = 8) then ptyc else 0))
    ∧ (∀ i, ((List.range 3).foldl (time_diag_step n_f ptyc) csys).rhs i
        = csys.rhs i
          + (if 3 * n_f ≤ i ∧ i < 3 * n_f + 3 then ptyc * csys.val_n i else 0))
    ∧ ((List.range 3).foldl (time_diag_step n_f ptyc) csys).val_n = csys.val_n
    ∧ ((List.range 3).foldl (time_diag_step n_f ptyc) csys).n_dofs = csys.n_dofs := by
  have hr : List.range 3 = [0, 1, 2] := rfl
  rw [hr]
  simp only [List.foldl_cons, List.foldl_nil]
  refine ⟨?_, ?_, rfl, rfl⟩
  · intro bi bj e
    show mat_add (mat_add (mat_add csys.mat n_f n_f (4 * 0) ptyc) n_f n_f (4 * 1) ptyc)
      n_f n_f (4 * 2) ptyc bi bj e = _
    rw [mat_add_apply, mat_add_apply, mat_add_apply]
    by_cases hi : bi = n_f <;> by_cases hj : bj = n_f <;> by_cases h0 : e = 0 <;>
      by_cases h4 : e = 4 <;> by_cases h8 : e = 8 <;> simp [hi, hj, h0, h4, h8]
  · intro i
    simp only [time_diag_step]
    by_cases h0 : i = 3 * n_f + 0
    · subst h0
      simp [Function.update]
    · by_cases h1 : i = 3 * n_f + 1
      · subst h1
        simp [Function.update]
      · by_cases h2 : i = 3 * n_f + 2
        · subst h2
          simp [Function.update]
        · have hn : ¬ (3 * n_f ≤ i ∧ i < 3 * n_f + 3) := by omega
          rw [if_neg hn]
          simp only [Nat.add_zero] at h0
          simp [Function.update, h0, h1, h2]

/-- The result of `cs_cdofb_vecteq_diffusion` for an isotropic diffusion term. -/
theorem diffusion_iso_eq (ext : build_externals) (eqp : cs_equation_param_t)
    (cm : cs_cell_mesh_t) (st : CellState) (hd : eqp.has_diffusion = true)
    (hi : eqp.diffusion_hodge_is_iso = true) :
    cs_cdofb_vecteq_diffusion ext eqp cm st
      = some { st with
          cb := ext.get_stiffness_matrix cm st.cb,
          csys := { st.csys with
            mat := add_local_operator cm.n_fc (ext.get_stiffness_matrix cm st.cb).loc_val
              st.csys.mat } } := by
  unfold cs_cdofb_vecteq_diffusion
  simp [hd, hi]

/-- The result of `cs_cdofb_vecteq_diffusion` without diffusion term. -/
theorem diffusion_none_eq (ext : build_externals) (eqp : cs_equation_param_t)
    (cm : cs_cell_mesh_t) (st : CellState) (hd : eqp.has_diffusion = false) :
    cs_cdofb_vecteq_diffusion ext eqp cm st = some st := by
  unfold cs_cdofb_vecteq_diffusion
  simp [hd]

/-- The fatal error of `cs_cdofb_vecteq_diffusion`. -/
theorem diffusion_noniso_eq (ext : build_externals) (eqp : cs_equation_param_t)
    (cm : cs_cell_mesh_t) (st : CellState) (hd : eqp.has_diffusion = true)
    (hi : eqp.diffusion_hodge_is_iso = false) :
    cs_cdofb_vecteq_diffusion ext eqp cm st = none := by
  unfold cs_cdofb_vecteq_diffusion
  simp [hd, hi]

/-- The result of the diagonal time term when `CS_FLAG_SYS_TIME_DIAG` is set. -/
theorem time_term_diag_eq (eqb : cs_equation_builder_t) (cm : cs_cell_mesh_t)
    (inv_dtcur : ℚ) (st : CellState) (h : eqb.sys_time_diag = true) :
    time_term_diag eqb cm inv_dtcur st
      = some { st with
          csys := (List.range 3).foldl
            (time_diag_step cm.n_fc (st.cb.tpty_val * cm.vol_c * inv_dtcur)) st.csys } := by
  unfold time_term_diag
  simp [h]

/-- The fatal error of the time term when `CS_FLAG_SYS_TIME_DIAG` is not set. -/
theorem time_term_diag_none (eqb : cs_equation_builder_t) (cm : cs_cell_mesh_t)
    (inv_dtcur : ℚ) (st : CellState) (h : eqb.sys_time_diag = false) :
    time_term_diag eqb cm inv_dtcur st = none := by
  unfold time_term_diag
  simp [h]

/-- C11: when the equation has an isotropic diffusion term, `cs_cdofb_vecteq_diffusion`
adds `S[(n_fc+1)*bi + bj]` to the entries (0,0), (1,1), (2,2) of every block `(bi, bj)`
with `bi, bj <= n_fc`, where `S` is the stiffness set by `get_stiffness_matrix`; the
other entries and the right-hand side are unchanged.  Without diffusion the local system
is unchanged.  With a diffusion Hodge operator that is not isotropic a fatal error is
raised. -/
theorem diffusion_step (ext : build_externals) (eqp : cs_equation_param_t)
    (cm : cs_cell_mesh_t) (st : CellState) :
    (eqp.has_diffusion = true → eqp.diffusion_hodge_is_iso = true →
      ∃ st1, cs_cdofb_vecteq_diffusion ext eqp cm st = some st1 ∧
        (∀ bi bj e, st1.csys.mat bi bj e
          = st.csys.mat bi bj e
            + (if bi ≤ cm.n_fc ∧ bj ≤ cm.n_fc ∧ (e = 0 ∨ e = 4 ∨ e = 8)
                then (ext.get_stiffness_matrix cm st.cb).loc_val ((cm.n_fc + 1) * bi + bj)
                else 0)) ∧
        st1.csys.rhs = st.csys.rhs) ∧
    (eqp.has_diffusion = false → cs_cdofb_vecteq_diffusion ext eqp cm st = some st) ∧
    (eqp.has_diffusion = true → eqp.diffusion_hodge_is_iso = false →
      cs_cdofb_vecteq_diffusion ext eqp cm st = none) := by
  refine ⟨fun hd hi => ?_, fun hd => ?_, fun hd hi => ?_⟩
  · refine ⟨_, diffusion_iso_eq ext eqp cm st hd hi, ?_, rfl⟩
    intro bi bj e
    exact add_local_operator_apply cm.n_fc _ st.csys.mat bi bj e
  · exact diffusion_none_eq ext eqp cm st hd
  · exact diffusion_noniso_eq ext eqp cm st hd hi

/-- C11, on a cell with one face, from a zero matrix, with `S[i] = i + 1`: the entry
(1,1) of the block (1,0) becomes `S[2] = 3`, its entry (0,1) stays 0. -/
theorem diffusion_step_witness :
    ({ eqp_none with has_diffusion := true } : cs_equation_param_t).has_diffusion = true ∧
    ∃ st1, cs_cdofb_vecteq_diffusion ext_build { eqp_none with has_diffusion := true }
        cm_one st_any = some st1 ∧ st1.csys.mat 1 0 4 = 3 ∧ st1.csys.mat 1 0 1 = 0 := by
  obtain ⟨st1, h1, h2, _⟩ :=
    (diffusion_step ext_build { eqp_none with has_diffusion := true } cm_one st_any).1
      rfl rfl
  refine ⟨rfl, st1, h1, ?_, ?_⟩
  · rw [h2]
    norm_num [st_any, csys_any, cm_one, ext_build]
  · rw [h2]
    norm_num [st_any, csys_any, cm_one, ext_build]

/-- C17: for an equation with a reaction term and neither diffusion nor convection,
`cs_cdofb_vecteq_conv_diff_reac` adds `rpty_val * vol_c` to the entries (0,0), (1,1),
(2,2) of the cell-cell block `(n_fc, n_fc)`; every other entry of the local matrix and
the right-hand side are unchanged. -/
theorem reaction_step (ext : build_externals) (eqp : cs_equation_param_t)
    (cm : cs_cell_mesh_t) (time_eval : ℚ) (st : CellState)
    (hr : eqp.has_reaction = true) (hd : eqp.has_diffusion = false)
    (hc : eqp.has_convection = false) :
    ∃ st1, cs_cdofb_vecteq_conv_diff_reac ext eqp cm time_eval st = some st1 ∧
      (∀ bi bj e, st1.csys.mat bi bj e
        = st.csys.mat bi bj e
          + (if bi = cm.n_fc ∧ bj = cm.n_fc ∧ (e = 0 ∨ e = 4 ∨ e = 8)
              then st.cb.rpty_val * cm.vol_c else 0)) ∧
      st1.csys.rhs = st.csys.rhs := by
  have h : cs_cdofb_vecteq_conv_diff_reac ext eqp cm time_eval st
      = some { st with
          csys := { st.csys with
            mat := block_add_diag st.csys.mat cm.n_fc cm.n_fc
              (st.cb.rpty_val * cm.vol_c) } } := by
    unfold cs_cdofb_vecteq_conv_diff_reac
    rw [diffusion_none_eq ext eqp cm st hd]
    simp [conv_part, reac_part, hr, hc]
  refine ⟨_, h, ?_, rfl⟩
  intro bi bj e
  exact block_add_diag_apply st.csys.mat cm.n_fc cm.n_fc _ bi bj e

/-- C17, on a cell with one face and volume 1, reaction property 2, from a zero matrix:
the entry (2,2) of the cell-cell block becomes 2, the entry (0,0) of a face block
stays 0. -/
theorem reaction_step_witness :
    ({ eqp_none with has_reaction := true } : cs_equation_param_t).has_reaction = true ∧
    ∃ st1, cs_cdofb_vecteq_conv_diff_reac ext_build { eqp_none with has_reaction := true }
        cm_one 0 st_any = some st1 ∧ st1.csys.mat 1 1 8 = 2 ∧ st1.csys.mat 0 0 0 = 0 := by
  obtain ⟨st1, h1, h2, _⟩ :=
    reaction_step ext_build { eqp_none with has_reaction := true } cm_one 0 st_any
      rfl rfl rfl
  refine ⟨rfl, st1, h1, ?_, ?_⟩
  · rw [h2]
    norm_num [st_any, csys_any, cb_any, cm_one]
  · rw [h2]
    norm_num [st_any, csys_any, cb_any, cm_one]

/-- C14: in the time term of `cs_cdofb_vecteq_solve_implicit`, when
`CS_FLAG_SYS_TIME_DIAG` is set, with `p = tpty_val * vol_c * (1/dt)`, the entries (0,0),
(1,1), (2,2) of the cell-cell block increase by `p`, the three cell rows `3*n_f + k` of
the right-hand side by `p * val_n[3*n_f + k]`, and every other entry of the matrix and
of the right-hand side is unchanged; when the flag is not set a fatal error is raised. -/
theorem implicit_time_term (eqb : cs_equation_builder_t) (cm : cs_cell_mesh_t)
    (dt_cur : ℚ) (st : CellState) :
    (eqb.sys_time_diag = true →
      ∃ st1, time_term_diag eqb cm (1 / dt_cur) st = some st1 ∧
        (∀ bi bj e, st1.csys.mat bi bj e
          = st.csys.mat bi bj e
            + (if bi = cm.n_fc ∧ bj = cm.n_fc ∧ (e = 0 ∨ e = 4 ∨ e = 8)
                then st.cb.tpty_val * cm.vol_c * (1 / dt_cur) else 0)) ∧
        (∀ i, st1.csys.rhs i
          = st.csys.rhs i
            + (if 3 * cm.n_fc ≤ i ∧ i < 3 * cm.n_fc + 3
                then st.cb.tpty_val * cm.vol_c * (1 / dt_cur) * st.csys.val_n i else 0))) ∧
    (eqb.sys_time_diag = false → time_term_diag eqb cm (1 / dt_cur) st = none) := by
  refine ⟨fun h => ?_, fun h => ?_⟩
  · have hf := time_diag_fold cm.n_fc (st.cb.tpty_val * cm.vol_c * (1 / dt_cur)) st.csys
    exact ⟨_, time_term_diag_eq eqb cm (1 / dt_cur) st h, hf.1, hf.2.1⟩
  · exact time_term_diag_none eqb cm (1 / dt_cur) st h

/-- C14, on a cell with one face and volume 1, time property 3, time step 1/2, from a
zero matrix: the entry (1,1) of the cell-cell block becomes 6. -/
theorem implicit_time_term_witness :
    ({ eqb_any with sys_time_diag := true } : cs_equation_builder_t).sys_time_diag = true ∧
    ∃ st1, time_term_diag { eqb_any with sys_time_diag := true } cm_one (1 / (1 / 2)) st_any
        = some st1 ∧ st1.csys.mat 1 1 4 = 6 := by
  obtain ⟨st1, h1, h2, _⟩ :=
    (implicit_time_term { eqb_any with sys_time_diag := true } cm_one (1 / 2) st_any).1 rfl
  refine ⟨rfl, st1, h1, ?_⟩
  rw [h2]
  norm_num [st_any, csys_any, cb_any, cm_one]

/-- The loop `rhs[i] -= tcoef * adr_pn[i]` on `i < n`. -/
theorem rhs_sub_fold (n : Nat) (tcoef : ℚ) (a rhs : Nat → ℚ) (j : Nat) :
    ((List.range n).foldl (fun r i => Function.update r i (r i - tcoef * a i)) rhs) j
      = if j < n then rhs j - tcoef * a j else rhs j := by
  induction n with
  | zero => simp
  | succ n ih =>
    rw [List.range_succ, List.foldl_append]
    simp only [List.foldl_cons, List.foldl_nil]
    by_cases hj : j = n
    · subst hj
      rw [Function.update_same, ih]
      simp
    · rw [Function.update_noteq hj, ih]
      by_cases h1 : j < n
      · have h2 : j < n + 1 := by omega
        rw [if_pos h1, if_pos h2]
      · have h2 : ¬ j < n + 1 := by omega
        rw [if_neg h1, if_neg h2]

/-- The result of the time scheme of `cs_cdofb_vecteq_solve_theta` when
`CS_FLAG_SYS_TIME_DIAG` is set. -/
theorem theta_time_scheme_eq (ext : build_externals) (eqp : cs_equation_param_t)
    (eqb : cs_equation_builder_t) (cm : cs_cell_mesh_t) (inv_dtcur : ℚ) (st : CellState)
    (hflag : eqb.sys_time_diag = true) :
    theta_time_scheme ext eqp eqb cm inv_dtcur st
      = some { theta_step2 ext eqp.theta cm (theta_step1 ext (1 - eqp.theta) st) with
          csys := (List.range 3).foldl
            (time_diag_step cm.n_fc (st.cb.tpty_val * cm.vol_c * inv_dtcur))
            (theta_step2 ext eqp.theta cm (theta_step1 ext (1 - eqp.theta) st)).csys } := by
  unfold theta_time_scheme
  exact time_term_diag_eq eqb cm inv_dtcur _ hflag

/-- C13: the theta step of `cs_cdofb_vecteq_solve_theta` with a diagonal time treatment.
With `A`, `b` the local matrix and right-hand side before the step, `v = val_n`,
`p = tpty_val * vol_c * (1/dt)` and `A*v` the vector that `cs_sdm_block_matvec` returns
for `A` and `v`: after the step the matrix is `theta * A` plus `p` on the entries (0,0),
(1,1), (2,2) of the cell-cell block, and the right-hand side is `b - (1 - theta) * (A*v)`
plus `p * v` on the three cell rows.  The matrix has `n_fc + 1` blocks by row, the system
`3 * (n_fc + 1)` unknowns, and the values of the blocks lie in the first `n_dofs * n_dofs`
positions of `csys->mat->val`. -/
theorem theta_step (ext : build_externals) (eqp : cs_equation_param_t)
    (eqb : cs_equation_builder_t) (cm : cs_cell_mesh_t) (dt_cur : ℚ) (st : CellState)
    (hflag : eqb.sys_time_diag = true)
    (hn : st.csys.n_dofs = 3 * (cm.n_fc + 1))
    (hl : ∀ bi bj e, bi ≤ cm.n_fc → bj ≤ cm.n_fc → e < 9 →
      ext.mat_val_index (cm.n_fc + 1) bi bj e < st.csys.n_dofs * st.csys.n_dofs) :
    ∃ st1, theta_time_scheme ext eqp eqb cm (1 / dt_cur) st = some st1 ∧
      (∀ bi bj e, bi ≤ cm.n_fc → bj ≤ cm.n_fc → e < 9 →
        st1.csys.mat bi bj e
          = eqp.theta * st.csys.mat bi bj e
            + (if bi = cm.n_fc ∧ bj = cm.n_fc ∧ (e = 0 ∨ e = 4 ∨ e = 8)
                then st.cb.tpty_val * cm.vol_c * (1 / dt_cur) else 0)) ∧
      (∀ i, i < 3 * (cm.n_fc + 1) →
        st1.csys.rhs i
          = st.csys.rhs i
            - (1 - eqp.theta) * ext.cs_sdm_block_matvec st.csys.mat st.csys.val_n i
            + (if 3 * cm.n_fc ≤ i
                then st.cb.tpty_val * cm.vol_c * (1 / dt_cur) * st.csys.val_n i else 0)) := by
  have hf := time_diag_fold cm.n_fc (st.cb.tpty_val * cm.vol_c * (1 / dt_cur))
    (theta_step2 ext eqp.theta cm (theta_step1 ext (1 - eqp.theta) st)).csys
  refine ⟨_, theta_time_scheme_eq ext eqp eqb cm (1 / dt_cur) st hflag, ?_, ?_⟩
  · intro bi bj e hbi hbj he
    refine (hf.1 bi bj e).trans ?_
    congr 1
    show (if ext.mat_val_index (cm.n_fc + 1) bi bj e < st.csys.n_dofs * st.csys.n_dofs
      then st.csys.mat bi bj e * eqp.theta else st.csys.mat bi bj e) = _
    rw [if_pos (hl bi bj e hbi hbj he), mul_comm]
  · intro i hi
    refine (hf.2.1 i).trans ?_
    have h1 : (theta_step2 ext eqp.theta cm (theta_step1 ext (1 - eqp.theta) st)).csys.rhs i
        = st.csys.rhs i
          - (1 - eqp.theta) * ext.cs_sdm_block_matvec st.csys.mat st.csys.val_n i := by
      show ((List.range st.csys.n_dofs).foldl
        (fun r k => Function.update r k
          (r k - (1 - eqp.theta) * ext.cs_sdm_block_matvec st.csys.mat st.csys.val_n k))
        st.csys.rhs) i = _
      rw [rhs_sub_fold, if_pos (by omega)]
    rw [h1]
    congr 1
    have hv : (theta_step2 ext eqp.theta cm
        (theta_step1 ext (1 - eqp.theta) st)).csys.val_n = st.csys.val_n := rfl
    rw [hv]
    by_cases h3 : 3 * cm.n_fc ≤ i
    · rw [if_pos h3, if_pos ⟨h3, by omega⟩]
    · rw [if_neg h3, if_neg (fun h => h3 h.1)]
/-- C13, on a cell with one face whose blocks are all the identity, right-hand side 10,
previous values 1, `theta = 1/2`, time step 1/2, time property 3, volume 1: the entry
(0,0) of the cell-cell block becomes `1/2 + 6`, the first cell row of the right-hand
side `10 - (1/2) * 2 + 6`. -/
theorem theta_step_witness :
    eqb_diag.sys_time_diag = true ∧ st_theta.csys.n_dofs = 3 * (cm_one.n_fc + 1) ∧
    ∃ st1, theta_time_scheme ext_build eqp_half eqb_diag cm_one (1 / (1 / 2)) st_theta
        = some st1 ∧ st1.csys.mat 1 1 0 = 13 / 2 ∧ st1.csys.rhs 3 = 15 := by
  have hl : ∀ bi bj e, bi ≤ cm_one.n_fc → bj ≤ cm_one.n_fc → e < 9 →
      ext_build.mat_val_index (cm_one.n_fc + 1) bi bj e
        < st_theta.csys.n_dofs * st_theta.csys.n_dofs := by
    intro bi bj e hbi hbj he
    simp only [cm_one] at hbi hbj
    show 9 * ((1 + 1) * bi + bj) + e < 6 * 6
    omega
  obtain ⟨st1, h1, h2, h3⟩ :=
    theta_step ext_build eqp_half eqb_diag cm_one (1 / 2) st_theta rfl rfl hl
  refine ⟨rfl, rfl, st1, h1, ?_, ?_⟩
  · rw [h2 1 1 0 (by decide) (by decide) (by decide)]
    norm_num [st_theta, st_any, csys_any, cb_any, cm_one, eqp_half, eqp_none, eqp_upwind]
  · rw [h3 3 (by decide)]
    norm_num [st_theta, st_any, csys_any, cb_any, cm_one, eqp_half, eqp_none, eqp_upwind,
      ext_build, List.range_succ]

/-! ## The two passes on the boundary conditions -/

/-- An invocation adds one entry to the list of the callbacks invoked. -/
theorem invoke_count (name x : bc_callback)
    (f : cs_cell_sys_t × cs_cell_builder_t → cs_cell_sys_t × cs_cell_builder_t)
    (st : CellState) :
    (invoke name f st).calls.count x = st.calls.count x + (if name = x then 1 else 0) := by
  unfold invoke
  simp only [List.count_append, List.count_singleton]
  by_cases h : name = x
  · simp [h]
  · simp [h]

/-- Number of invocations of `enforce_dirichlet` in `_apply_bc_partly`. -/
theorem apply_bc_partly_count (ext : build_externals) (eqp : cs_equation_param_t)
    (cm : cs_cell_mesh_t) (st : CellState) :
    (_apply_bc_partly ext eqp cm st).calls.count bc_callback.enforce_dirichlet
      = st.calls.count bc_callback.enforce_dirichlet
        + (if is_boundary_cell ext st.csys = true ∧ eqp.has_diffusion = true ∧
              (eqp.default_enforcement
                  = cs_param_bc_enforce_t.CS_PARAM_BC_ENFORCE_WEAK_NITSCHE ∨
               eqp.default_enforcement
                  = cs_param_bc_enforce_t.CS_PARAM_BC_ENFORCE_WEAK_SYM)
            then 1 else 0) := by
  have hs : ∀ s : CellState,
      (if s.csys.has_sliding = true then
          invoke bc_callback.enforce_sliding (ext.enforce_sliding cm) s
        else s).calls.count bc_callback.enforce_dirichlet
        = s.calls.count bc_callback.enforce_dirichlet := by
    intro s
    split_ifs
    · rw [invoke_count]
      simp
    · rfl
  have hn : (if st.csys.has_nhmg_neumann = true then
        ({ st with csys := add_neumann cm st.csys } : CellState) else st).calls
      = st.calls := by
    split_ifs <;> rfl
  unfold _apply_bc_partly
  by_cases hb : is_boundary_cell ext st.csys = true
  · rw [if_pos hb]
    dsimp only
    rw [hs]
    by_cases hd : eqp.has_diffusion = true
    · rw [if_pos hd]
      by_cases hw : eqp.default_enforcement
            = cs_param_bc_enforce_t.CS_PARAM_BC_ENFORCE_WEAK_NITSCHE ∨
          eqp.default_enforcement = cs_param_bc_enforce_t.CS_PARAM_BC_ENFORCE_WEAK_SYM
      · have hc : is_boundary_cell ext st.csys = true ∧ eqp.has_diffusion = true ∧
            (eqp.default_enforcement
                = cs_param_bc_enforce_t.CS_PARAM_BC_ENFORCE_WEAK_NITSCHE ∨
              eqp.default_enforcement
                = cs_param_bc_enforce_t.CS_PARAM_BC_ENFORCE_WEAK_SYM) := ⟨hb, hd, hw⟩
        rw [if_pos hw, if_pos hc, invoke_count, hn]
        simp
      · have hc : ¬ (is_boundary_cell ext st.csys = true ∧ eqp.has_diffusion = true ∧
            (eqp.default_enforcement
                = cs_param_bc_enforce_t.CS_PARAM_BC_ENFORCE_WEAK_NITSCHE ∨
              eqp.default_enforcement
                = cs_param_bc_enforce_t.CS_PARAM_BC_ENFORCE_WEAK_SYM)) :=
          fun h => hw h.2.2
        rw [if_neg hw, if_neg hc, hn]
        simp
    · have hc : ¬ (is_boundary_cell ext st.csys = true ∧ eqp.has_diffusion = true ∧
          (eqp.default_enforcement
              = cs_param_bc_enforce_t.CS_PARAM_BC_ENFORCE_WEAK_NITSCHE ∨
            eqp.default_enforcement
              = cs_param_bc_enforce_t.CS_PARAM_BC_ENFORCE_WEAK_SYM)) :=
        fun h => hd h.2.1
      rw [if_neg hd, if_neg hc, hn]
      simp
  · have hc : ¬ (is_boundary_cell ext st.csys = true ∧ eqp.has_diffusion = true ∧
        (eqp.default_enforcement
            = cs_param_bc_enforce_t.CS_PARAM_BC_ENFORCE_WEAK_NITSCHE ∨
          eqp.default_enforcement
            = cs_param_bc_enforce_t.CS_PARAM_BC_ENFORCE_WEAK_SYM)) :=
      fun h => hb h.1
    rw [if_neg hb, if_neg hc]
    simp

/-- Number of invocations of `enforce_dirichlet` in `_apply_remaining_bc`. -/
theorem apply_remaining_bc_count (ext : build_externals) (eqp : cs_equation_param_t)
    (cm : cs_cell_mesh_t) (st : CellState) :
    (_apply_remaining_bc ext eqp cm st).calls.count bc_callback.enforce_dirichlet
      = st.calls.count bc_callback.enforce_dirichlet
        + (if is_boundary_cell ext st.csys = true ∧
              (eqp.default_enforcement
                  = cs_param_bc_enforce_t.CS_PARAM_BC_ENFORCE_PENALIZED ∨
               eqp.default_enforcement
                  = cs_param_bc_enforce_t.CS_PARAM_BC_ENFORCE_ALGEBRAIC)
            then 1 else 0) := by
  have hs : ∀ s : CellState,
      (if s.csys.has_internal_enforcement = true then
          invoke bc_callback.internal_enforcement
            ext.cs_equation_enforced_internal_block_dofs s
        else s).calls.count bc_callback.enforce_dirichlet
        = s.calls.count bc_callback.enforce_dirichlet := by
    intro s
    split_ifs
    · rw [invoke_count]
      simp
    · rfl
  unfold _apply_remaining_bc
  dsimp only
  rw [hs]
  by_cases hb : is_boundary_cell ext st.csys = true
  · rw [if_pos hb]
    by_cases hw : eqp.default_enforcement
          = cs_param_bc_enforce_t.CS_PARAM_BC_ENFORCE_PENALIZED ∨
        eqp.default_enforcement = cs_param_bc_enforce_t.CS_PARAM_BC_ENFORCE_ALGEBRAIC
    · have hc : is_boundary_cell ext st.csys = true ∧
          (eqp.default_enforcement
              = cs_param_bc_enforce_t.CS_PARAM_BC_ENFORCE_PENALIZED ∨
            eqp.default_enforcement
              = cs_param_bc_enforce_t.CS_PARAM_BC_ENFORCE_ALGEBRAIC) := ⟨hb, hw⟩
      rw [if_pos hw, if_pos hc, invoke_count]
      simp
    · have hc : ¬ (is_boundary_cell ext st.csys = true ∧
          (eqp.default_enforcement
              = cs_param_bc_enforce_t.CS_PARAM_BC_ENFORCE_PENALIZED ∨
            eqp.default_enforcement
              = cs_param_bc_enforce_t.CS_PARAM_BC_ENFORCE_ALGEBRAIC)) :=
        fun h => hw h.2
      rw [if_neg hw, if_neg hc]
      simp
  · have hc : ¬ (is_boundary_cell ext st.csys = true ∧
        (eqp.default_enforcement
            = cs_param_bc_enforce_t.CS_PARAM_BC_ENFORCE_PENALIZED ∨
          eqp.default_enforcement
            = cs_param_bc_enforce_t.CS_PARAM_BC_ENFORCE_ALGEBRAIC)) :=
      fun h => hb h.1
    rw [if_neg hb, if_neg hc]
    simp

/-- C19: `_apply_bc_partly` invokes `enforce_dirichlet` (once) if and only if the cell is
a boundary cell, the equation has a diffusion term and the enforcement is weak (Nitsche
or symmetric); `_apply_remaining_bc` invokes it (once) if and only if the cell is a
boundary cell and the enforcement is penalized or algebraic.  Hence it is never invoked
in both passes, whatever the states `st` and `st2` that the passes start from, and never
on a cell that is not a boundary cell. -/
theorem dirichlet_two_passes (ext : build_externals) (eqp : cs_equation_param_t)
    (cm : cs_cell_mesh_t) (st st2 : CellState) :
    ((_apply_bc_partly ext eqp cm st).calls.count bc_callback.enforce_dirichlet
      = st.calls.count bc_callback.enforce_dirichlet
        + (if is_boundary_cell ext st.csys = true ∧ eqp.has_diffusion = true ∧
              (eqp.default_enforcement
                  = cs_param_bc_enforce_t.CS_PARAM_BC_ENFORCE_WEAK_NITSCHE ∨
               eqp.default_enforcement
                  = cs_param_bc_enforce_t.CS_PARAM_BC_ENFORCE_WEAK_SYM)
            then 1 else 0)) ∧
    ((_apply_remaining_bc ext eqp cm st2).calls.count bc_callback.enforce_dirichlet
      = st2.calls.count bc_callback.enforce_dirichlet
        + (if is_boundary_cell ext st2.csys = true ∧
              (eqp.default_enforcement
                  = cs_param_bc_enforce_t.CS_PARAM_BC_ENFORCE_PENALIZED ∨
               eqp.default_enforcement
                  = cs_param_bc_enforce_t.CS_PARAM_BC_ENFORCE_ALGEBRAIC)
            then 1 else 0)) ∧
    ¬ ((_apply_bc_partly ext eqp cm st).calls.count bc_callback.enforce_dirichlet
          ≠ st.calls.count bc_callback.enforce_dirichlet ∧
        (_apply_remaining_bc ext eqp cm st2).calls.count bc_callback.enforce_dirichlet
          ≠ st2.calls.count bc_callback.enforce_dirichlet) ∧
    (is_boundary_cell ext st.csys = false →
      (_apply_bc_partly ext eqp cm st).calls.count bc_callback.enforce_dirichlet
        = st.calls.count bc_callback.enforce_dirichlet) ∧
    (is_boundary_cell ext st2.csys = false →
      (_apply_remaining_bc ext eqp cm st2).calls.count bc_callback.enforce_dirichlet
        = st2.calls.count bc_callback.enforce_dirichlet) := by
  have h1 := apply_bc_partly_count ext eqp cm st
  have h2 := apply_remaining_bc_count ext eqp cm st2
  refine ⟨h1, h2, ?_, ?_, ?_⟩
  · rintro ⟨ha, hb⟩
    rw [h1] at ha
    rw [h2] at hb
    split_ifs at ha with hc1
    · split_ifs at hb with hc2
      · rcases hc1.2.2 with hw | hw <;> rcases hc2.2 with hs | hs <;>
          rw [hw] at hs <;> exact absurd hs (by decide)
      · exact hb rfl
    · exact ha rfl
  · intro hb
    rw [h1, if_neg (fun h => by rw [hb] at h; exact absurd h.1 (by decide))]
    rfl
  · intro hb
    rw [h2, if_neg (fun h => by rw [hb] at h; exact absurd h.1 (by decide))]
    rfl

/-- C19, on a boundary cell of an equation with diffusion and a weak symmetric
enforcement: one invocation in the first pass, none in the second. -/
theorem dirichlet_two_passes_witness :
    is_boundary_cell ext_build st_bnd.csys = true ∧
    (_apply_bc_partly ext_build eqp_weak cm_one st_bnd).calls.count
        bc_callback.enforce_dirichlet = 1 ∧
    (_apply_remaining_bc ext_build eqp_weak cm_one st_bnd).calls.count
        bc_callback.enforce_dirichlet = 0 := by
  have h := dirichlet_two_passes ext_build eqp_weak cm_one st_bnd st_bnd
  have hb : is_boundary_cell ext_build st_bnd.csys = true := by decide
  refine ⟨hb, ?_, ?_⟩
  · have hc : is_boundary_cell ext_build st_bnd.csys = true ∧
        eqp_weak.has_diffusion = true ∧
        (eqp_weak.default_enforcement
            = cs_param_bc_enforce_t.CS_PARAM_BC_ENFORCE_WEAK_NITSCHE ∨
          eqp_weak.default_enforcement
            = cs_param_bc_enforce_t.CS_PARAM_BC_ENFORCE_WEAK_SYM) := ⟨hb, rfl, Or.inr rfl⟩
    rw [h.1, if_pos hc]
    rfl
  · have hc : ¬ (is_boundary_cell ext_build st_bnd.csys = true ∧
        (eqp_weak.default_enforcement
            = cs_param_bc_enforce_t.CS_PARAM_BC_ENFORCE_PENALIZED ∨
          eqp_weak.default_enforcement
            = cs_param_bc_enforce_t.CS_PARAM_BC_ENFORCE_ALGEBRAIC)) := by
      decide
    rw [h.2.1, if_neg hc]
    rfl

/-! ## The blocks of the local matrix stay scalar -/

/-- Adding a value to the entries 0, 4, 8 of some blocks keeps the blocks scalar. -/
theorem blocks_scalar_add (n_fc : Nat) (m m1 : Nat → Nat → Nat → ℚ)
    (c : Nat → Nat → Prop) [∀ i j, Decidable (c i j)] (a : Nat → Nat → ℚ)
    (h : ∀ bi bj e, m1 bi bj e
      = m bi bj e + (if c bi bj ∧ (e = 0 ∨ e = 4 ∨ e = 8) then a bi bj else 0))
    (hm : blocks_scalar n_fc m) : blocks_scalar n_fc m1 := by
  intro bi bj hbi hbj e he
  rw [h bi bj e, h bi bj 0, hm bi bj hbi hbj e he]
  by_cases hd : e = 0 ∨ e = 4 ∨ e = 8
  · by_cases hc : c bi bj <;> simp [hd, hc]
  · simp [hd]

/-- The diffusion step keeps the blocks scalar and the number of unknowns. -/
theorem diffusion_keeps_scalar (ext : build_externals) (eqp : cs_equation_param_t)
    (cm : cs_cell_mesh_t) (st st1 : CellState)
    (h : cs_cdofb_vecteq_diffusion ext eqp cm st = some st1)
    (hm : blocks_scalar cm.n_fc st.csys.mat) :
    blocks_scalar cm.n_fc st1.csys.mat ∧ st1.csys.n_dofs = st.csys.n_dofs := by
  by_cases hd : eqp.has_diffusion = true
  · by_cases hi : eqp.diffusion_hodge_is_iso = true
    · rw [diffusion_iso_eq ext eqp cm st hd hi] at h
      have h1 := Option.some.inj h
      subst h1
      refine ⟨?_, rfl⟩
      refine blocks_scalar_add cm.n_fc st.csys.mat _
        (fun bi bj => bi ≤ cm.n_fc ∧ bj ≤ cm.n_fc)
        (fun bi bj => (ext.get_stiffness_matrix cm st.cb).loc_val ((cm.n_fc + 1) * bi + bj))
        ?_ hm
      intro bi bj e
      refine (add_local_operator_apply cm.n_fc _ st.csys.mat bi bj e).trans ?_
      simp only [and_assoc]
    · rw [diffusion_noniso_eq ext eqp cm st hd (by simpa using hi)] at h
      exact absurd h (by simp)
  · rw [diffusion_none_eq ext eqp cm st (by simpa using hd)] at h
    have h1 := Option.some.inj h
    subst h1
    exact ⟨hm, rfl⟩

/-- The advection part keeps the blocks scalar and the number of unknowns. -/
theorem conv_part_keeps_scalar (ext : build_externals) (eqp : cs_equation_param_t)
    (cm : cs_cell_mesh_t) (time_eval : ℚ) (st : CellState)
    (hm : blocks_scalar cm.n_fc st.csys.mat) :
    blocks_scalar cm.n_fc (conv_part ext eqp cm time_eval st).csys.mat
      ∧ (conv_part ext eqp cm time_eval st).csys.n_dofs = st.csys.n_dofs := by
  unfold conv_part
  split_ifs
  · refine ⟨?_, rfl⟩
    refine blocks_scalar_add cm.n_fc st.csys.mat _
      (fun bi bj => bi ≤ cm.n_fc ∧ bj ≤ cm.n_fc)
      (fun bi bj =>
        (ext.cs_cdofb_advection_build cm time_eval st.cb).loc_val ((cm.n_fc + 1) * bi + bj))
      ?_ hm
    intro bi bj e
    refine (add_local_operator_apply cm.n_fc _ st.csys.mat bi bj e).trans ?_
    simp only [and_assoc]
  · exact ⟨hm, rfl⟩

/-- The reaction part keeps the blocks scalar and the number of unknowns. -/
theorem reac_part_keeps_scalar (eqp : cs_equation_param_t) (cm : cs_cell_mesh_t)
    (st : CellState) (hm : blocks_scalar cm.n_fc st.csys.mat) :
    blocks_scalar cm.n_fc (reac_part eqp cm st).csys.mat
      ∧ (reac_part eqp cm st).csys.n_dofs = st.csys.n_dofs := by
  unfold reac_part
  split_ifs
  · refine ⟨?_, rfl⟩
    refine blocks_scalar_add cm.n_fc st.csys.mat _
      (fun bi bj => bi = cm.n_fc ∧ bj = cm.n_fc)
      (fun _ _ => st.cb.rpty_val * cm.vol_c) ?_ hm
    intro bi bj e
    refine (block_add_diag_apply st.csys.mat cm.n_fc cm.n_fc _ bi bj e).trans ?_
    simp only [and_assoc]
  · exact ⟨hm, rfl⟩

/-- The diagonal time term keeps the blocks scalar and the number of unknowns. -/
theorem time_term_keeps_scalar (eqb : cs_equation_builder_t) (cm : cs_cell_mesh_t)
    (inv_dtcur : ℚ) (st st1 : CellState) (h : time_term_diag eqb cm inv_dtcur st = some st1)
    (hm : blocks_scalar cm.n_fc st.csys.mat) :
    blocks_scalar cm.n_fc st1.csys.mat ∧ st1.csys.n_dofs = st.csys.n_dofs := by
  by_cases hf : eqb.sys_time_diag = true
  · rw [time_term_diag_eq eqb cm inv_dtcur st hf] at h
    have h1 := Option.some.inj h
    subst h1
    have hfold := time_diag_fold cm.n_fc (st.cb.tpty_val * cm.vol_c * inv_dtcur) st.csys
    refine ⟨?_, hfold.2.2.2⟩
    refine blocks_scalar_add cm.n_fc st.csys.mat _
      (fun bi bj => bi = cm.n_fc ∧ bj = cm.n_fc)
      (fun _ _ => st.cb.tpty_val * cm.vol_c * inv_dtcur) ?_ hm
    intro bi bj e
    refine (hfold.1 bi bj e).trans ?_
    simp only [and_assoc]
  · rw [time_term_diag_none eqb cm inv_dtcur st (by simpa using hf)] at h
    exact absurd h (by simp)

/-- The multiplication by `theta` keeps the blocks scalar and the number of unknowns,
when the values of the blocks lie in the first `n_dofs * n_dofs` positions. -/
theorem theta_step2_keeps_scalar (ext : build_externals) (theta : ℚ) (cm : cs_cell_mesh_t)
    (st : CellState)
    (hl : ∀ bi bj e, bi ≤ cm.n_fc → bj ≤ cm.n_fc → e < 9 →
      ext.mat_val_index (cm.n_fc + 1) bi bj e < st.csys.n_dofs * st.csys.n_dofs)
    (hm : blocks_scalar cm.n_fc st.csys.mat) :
    blocks_scalar cm.n_fc (theta_step2 ext theta cm st).csys.mat
      ∧ (theta_step2 ext theta cm st).csys.n_dofs = st.csys.n_dofs := by
  refine ⟨?_, rfl⟩
  intro bi bj hbi hbj e he
  show (if ext.mat_val_index (cm.n_fc + 1) bi bj e < st.csys.n_dofs * st.csys.n_dofs
      then st.csys.mat bi bj e * theta else st.csys.mat bi bj e)
    = if e = 0 ∨ e = 4 ∨ e = 8 then
        (if ext.mat_val_index (cm.n_fc + 1) bi bj 0 < st.csys.n_dofs * st.csys.n_dofs
          then st.csys.mat bi bj 0 * theta else st.csys.mat bi bj 0)
      else 0
  rw [if_pos (hl bi bj e hbi hbj he), if_pos (hl bi bj 0 hbi hbj (by decide)),
    hm bi bj hbi hbj e he]
  split_ifs <;> simp

/-- Each build step keeps the blocks scalar and the number of unknowns. -/
theorem build_step_keeps_scalar (ext : build_externals) (cm : cs_cell_mesh_t)
    (s : build_step) (st st1 : CellState)
    (hl : ∀ bi bj e, bi ≤ cm.n_fc → bj ≤ cm.n_fc → e < 9 →
      ext.mat_val_index (cm.n_fc + 1) bi bj e < st.csys.n_dofs * st.csys.n_dofs)
    (h : apply_build_step ext cm st s = some st1)
    (hm : blocks_scalar cm.n_fc st.csys.mat) :
    blocks_scalar cm.n_fc st1.csys.mat ∧ st1.csys.n_dofs = st.csys.n_dofs := by
  cases s with
  | diffusion eqp => exact diffusion_keeps_scalar ext eqp cm st st1 h hm
  | conv_diff_reac eqp time_eval =>
    simp only [apply_build_step, cs_cdofb_vecteq_conv_diff_reac] at h
    cases hd : cs_cdofb_vecteq_diffusion ext eqp cm st with
    | none => rw [hd] at h; exact absurd h (by simp)
    | some s1 =>
      rw [hd] at h
      have h1 := Option.some.inj h
      subst h1
      have h2 := diffusion_keeps_scalar ext eqp cm st s1 hd hm
      have h3 := conv_part_keeps_scalar ext eqp cm time_eval s1 h2.1
      have h4 := reac_part_keeps_scalar eqp cm _ h3.1
      exact ⟨h4.1, h4.2.trans (h3.2.trans h2.2)⟩
  | time_term eqb inv_dtcur => exact time_term_keeps_scalar eqb cm inv_dtcur st st1 h hm
  | theta_rescale theta =>
    simp only [apply_build_step] at h
    have h1 := Option.some.inj h
    subst h1
    exact theta_step2_keeps_scalar ext theta cm st hl hm

/-- C18: from a local matrix whose blocks are zero, after any sequence of build steps
(diffusion, advection and reaction additions, implicit time term, multiplication by
`theta`, mass term) that ends without fatal error, every 3x3 block `(bi, bj)` with
`bi, bj <= n_fc` is a scalar multiple of the identity; in particular the six off-diagonal
entries of the cell-cell block are zero.  The values of the blocks lie in the first
`n_dofs * n_dofs` positions of `csys->mat->val`. -/
theorem blocks_stay_scalar (ext : build_externals) (cm : cs_cell_mesh_t)
    (steps : List build_step) (st st1 : CellState)
    (h0 : ∀ bi bj e, st.csys.mat bi bj e = 0)
    (hl : ∀ bi bj e, bi ≤ cm.n_fc → bj ≤ cm.n_fc → e < 9 →
      ext.mat_val_index (cm.n_fc + 1) bi bj e < st.csys.n_dofs * st.csys.n_dofs)
    (h : run_build_steps ext cm steps st = some st1) :
    blocks_scalar cm.n_fc st1.csys.mat ∧
    ∀ e, e < 9 → e ≠ 0 → e ≠ 4 → e ≠ 8 → st1.csys.mat cm.n_fc cm.n_fc e = 0 := by
  have hgen : ∀ (l : List build_step) (s s1 : CellState),
      blocks_scalar cm.n_fc s.csys.mat →
      (∀ bi bj e, bi ≤ cm.n_fc → bj ≤ cm.n_fc → e < 9 →
        ext.mat_val_index (cm.n_fc + 1) bi bj e < s.csys.n_dofs * s.csys.n_dofs) →
      run_build_steps ext cm l s = some s1 → blocks_scalar cm.n_fc s1.csys.mat := by
    intro l
    induction l with
    | nil =>
      intro s s1 hm _ hrun
      simp only [run_build_steps] at hrun
      have h1 := Option.some.inj hrun
      subst h1
      exact hm
    | cons a l ih =>
      intro s s1 hm hls hrun
      simp only [run_build_steps] at hrun
      cases ha : apply_build_step ext cm s a with
      | none => rw [ha] at hrun; exact absurd hrun (by simp)
      | some s2 =>
        rw [ha] at hrun
        have hk := build_step_keeps_scalar ext cm a s s2 hls ha hm
        refine ih s2 s1 hk.1 ?_ hrun
        rw [hk.2]
        exact hls
  have hm0 : blocks_scalar cm.n_fc st.csys.mat := by
    intro bi bj _ _ e _
    rw [h0 bi bj e, h0 bi bj 0]
    simp
  have hfin := hgen steps st st1 hm0 hl h
  refine ⟨hfin, ?_⟩
  intro e he h0e h4e h8e
  rw [hfin cm.n_fc cm.n_fc (le_refl _) (le_refl _) e he]
  simp [h0e, h4e, h8e]

/-- C18, on a cell with one face: the diffusion, advection and reaction terms, the
multiplication by 1/2 and the mass term end without error, and the blocks of the result
are scalar. -/
theorem blocks_stay_scalar_witness :
    ∃ st1, run_build_steps ext_build cm_one steps_theta st_zero = some st1 ∧
      blocks_scalar cm_one.n_fc st1.csys.mat ∧ st1.csys.mat 1 1 1 = 0 := by
  have hs : (run_build_steps ext_build cm_one steps_theta st_zero).isSome = true := rfl
  obtain ⟨st1, h1⟩ := Option.isSome_iff_exists.mp hs
  have hl : ∀ bi bj e, bi ≤ cm_one.n_fc → bj ≤ cm_one.n_fc → e < 9 →
      ext_build.mat_val_index (cm_one.n_fc + 1) bi bj e
        < st_zero.csys.n_dofs * st_zero.csys.n_dofs := by
    intro bi bj e hbi hbj he
    simp only [cm_one] at hbi hbj
    show 9 * ((1 + 1) * bi + bj) + e < 6 * 6
    omega
  have h := blocks_stay_scalar ext_build cm_one steps_theta st_zero st1
    (fun _ _ _ => rfl) hl h1
  exact ⟨st1, h1, h.1, h.2 1 (by decide) (by decide) (by decide) (by decide)⟩

/-! ## The terms of the cellwise system in the three loops on cells -/

/-- The three builds of the cellwise system read neither
`cs_equation_param_has_reaction(eqp)` nor `cs_equation_param_has_convection(eqp)`. -/
theorem builds_ignore_reaction_and_convection (ext : build_externals)
    (eqp : cs_equation_param_t) (eqb : cs_equation_builder_t) (inp : cell_inputs)
    (cis : Bool) (t_cur dt_cur : ℚ) (c_id : Nat) (st : CellState) :
    build_steady_state ext eqp inp (t_cur + dt_cur) c_id st
        = build_steady_state ext { eqp with has_reaction := false, has_convection := false }
            inp (t_cur + dt_cur) c_id st
      ∧ build_implicit ext eqp eqb inp (t_cur + dt_cur) (1 / dt_cur) c_id st
        = build_implicit ext { eqp with has_reaction := false, has_convection := false }
            eqb inp (t_cur + dt_cur) (1 / dt_cur) c_id st
      ∧ build_theta ext eqp eqb inp cis t_cur dt_cur c_id st
        = build_theta ext { eqp with has_reaction := false, has_convection := false }
            eqb inp cis t_cur dt_cur c_id st :=
  ⟨rfl, rfl, rfl⟩

/-- C12 (defect of the code): on an interior cell with one face and volume 1, for an
equation with a reaction term only and the reaction property 2, the cellwise systems that
the three loops hand to the static condensation hold no reaction term: the entry (0,0) of
the cell-cell block is 0 in the steady build and the time term 3 alone in the two
unsteady builds, whereas `cs_cdofb_vecteq_conv_diff_reac` puts `rpty_val * vol_c = 2`
there.  For an equation with a convection term only, the steady build leaves the matrix
zero although the advection operator is 5. -/
theorem solve_builds_omit_reaction :
    (∃ s, build_steady_state ext_build eqp_reac inp_one 0 0 st_any = some s ∧
      s.cb.rpty_val * cm_one.vol_c = 2 ∧ s.csys.mat 1 1 0 = 0) ∧
    (∃ s, build_implicit ext_build eqp_reac_time eqb_diag inp_one 1 (1 / 1) 0 st_any
        = some s ∧ s.csys.mat 1 1 0 = 3) ∧
    (∃ s, build_theta ext_build eqp_reac_time eqb_diag inp_one true 0 1 0 st_any = some s ∧
      s.csys.mat 1 1 0 = 3) ∧
    (∃ s, cs_cdofb_vecteq_conv_diff_reac ext_build eqp_reac cm_one 0
        (init_cell ext_build inp_one 0 0 st_any) = some s ∧ s.csys.mat 1 1 0 = 2) ∧
    (∃ s, build_steady_state ext_build eqp_upwind inp_one 0 0 st_any = some s ∧
      (ext_build.cs_cdofb_advection_build cm_one 0 s.cb).loc_val 0 = 5 ∧
      s.csys.mat 0 0 0 = 0) := by
  refine ⟨⟨_, rfl, ?_, rfl⟩, ?_, ?_, ⟨_, rfl, ?_⟩, ⟨_, rfl, rfl, rfl⟩⟩
  · show (2 : ℚ) * 1 = 2
    norm_num
  · have h : build_implicit ext_build eqp_reac_time eqb_diag inp_one 1 (1 / 1) 0 st_any
        = time_term_diag eqb_diag cm_one (1 / 1) (init_cell ext_build inp_one 0 1 st_any) :=
      rfl
    refine ⟨_, h.trans (time_term_diag_eq eqb_diag cm_one (1 / 1) _ rfl), ?_⟩
    refine ((time_diag_fold cm_one.n_fc _ _).1 1 1 0).trans ?_
    show (0 : ℚ) + (if 1 = cm_one.n_fc ∧ 1 = cm_one.n_fc ∧ (0 = 0 ∨ 0 = 4 ∨ 0 = 8)
      then (3 : ℚ) * 1 * (1 / 1) else 0) = 3
    norm_num [cm_one]
  · have h : build_theta ext_build eqp_reac_time eqb_diag inp_one true 0 1 0 st_any
        = theta_time_scheme ext_build eqp_reac_time eqb_diag cm_one (1 / 1)
            (init_cell ext_build inp_one 0 (0 + eqp_reac_time.theta * 1) st_any) := rfl
    refine ⟨_, h.trans (theta_time_scheme_eq ext_build eqp_reac_time eqb_diag cm_one
      (1 / 1) _ rfl), ?_⟩
    refine ((time_diag_fold cm_one.n_fc _ _).1 1 1 0).trans ?_
    show (if 9 * ((1 + 1) * 1 + 1) + 0 < 6 * 6 then (0 : ℚ) * eqp_reac_time.theta else 0)
      + (if 1 = cm_one.n_fc ∧ 1 = cm_one.n_fc ∧ (0 = 0 ∨ 0 = 4 ∨ 0 = 8)
          then (3 : ℚ) * 1 * (1 / 1) else 0) = 3
    norm_num [cm_one]
  · show block_add_diag (fun _ _ _ => 0) 1 1 ((2 : ℚ) * 1) 1 1 0 = 2
    rw [block_add_diag_apply]
    norm_num

/-! ## Where the configuration errors are raised -/

/-- A fold whose step keeps `none` stays at `none`. -/
theorem foldl_none_absorb {α β : Type} (F : Option α → β → Option α)
    (hF : ∀ c, F none c = none) (l : List β) : l.foldl F none = none := by
  induction l with
  | nil => rfl
  | cons a l ih =>
    rw [List.foldl_cons, hF]
    exact ih

/-- A build that fails on every cell makes the loop fail exactly when there is a cell. -/
theorem cell_loop_none_iff (ext : build_externals) (eqp : cs_equation_param_t)
    (inp : cell_inputs) (build : Nat → CellState → Option CellState)
    (hb : ∀ c_id s, build c_id s = none) (n_cells : Nat) (st : CellState) :
    cell_loop ext eqp inp build n_cells st = none ↔ 0 < n_cells := by
  cases n_cells with
  | zero =>
    constructor
    · intro h
      exact absurd h (by simp [cell_loop])
    · intro h
      exact absurd h (by decide)
  | succ n =>
    constructor
    · intro _
      exact Nat.succ_pos n
    · intro _
      unfold cell_loop
      rw [List.range_succ_eq_map, List.foldl_cons]
      simp only [hb]
      exact foldl_none_absorb _ (fun _ => rfl) _

/-- The build of a cell in `cs_cdofb_vecteq_solve_implicit` fails for a diffusion Hodge
operator that is not isotropic and for a time treatment that is not diagonal. -/
theorem build_implicit_none (ext : build_externals) (eqp : cs_equation_param_t)
    (eqb : cs_equation_builder_t) (inp : cell_inputs) (time_eval inv_dtcur : ℚ)
    (hbad : (eqp.has_diffusion = true ∧ eqp.diffusion_hodge_is_iso = false)
      ∨ eqb.sys_time_diag = false) (c_id : Nat) (st : CellState) :
    build_implicit ext eqp eqb inp time_eval inv_dtcur c_id st = none := by
  unfold build_implicit
  dsimp only
  rcases hbad with ⟨hd, hi⟩ | hf
  · rw [diffusion_noniso_eq ext eqp _ _ hd hi]
  · cases cs_cdofb_vecteq_diffusion ext eqp (inp.cell_mesh c_id)
        (init_cell ext inp c_id time_eval st) with
    | none => rfl
    | some st1 => exact time_term_diag_none eqb _ inv_dtcur _ hf

/-- The build of a cell in `cs_cdofb_vecteq_solve_theta` fails for a diffusion Hodge
operator that is not isotropic and for a time treatment that is not diagonal. -/
theorem build_theta_none (ext : build_externals) (eqp : cs_equation_param_t)
    (eqb : cs_equation_builder_t) (inp : cell_inputs) (cis : Bool) (t_cur dt_cur : ℚ)
    (hbad : (eqp.has_diffusion = true ∧ eqp.diffusion_hodge_is_iso = false)
      ∨ eqb.sys_time_diag = false) (c_id : Nat) (st : CellState) :
    build_theta ext eqp eqb inp cis t_cur dt_cur c_id st = none := by
  unfold build_theta
  dsimp only
  rcases hbad with ⟨hd, hi⟩ | hf
  · rw [diffusion_noniso_eq ext eqp _ _ hd hi]
  · cases cs_cdofb_vecteq_diffusion ext eqp (inp.cell_mesh c_id)
        (init_cell ext inp c_id (t_cur + eqp.theta * dt_cur) st) with
    | none => rfl
    | some st1 =>
      dsimp only
      unfold theta_time_scheme
      exact time_term_diag_none eqb _ (1 / dt_cur) _ hf

/-- The bit `CS_FLAG_SYS_TIME_DIAG` after `cs_cdofb_vecteq_init_context`. -/
theorem init_context_time_diag (eqp : cs_equation_param_t) (eqb : cs_equation_builder_t) :
    (init_context_time eqp
        { eqb with sys_time_diag := false, sys_mass_matrix := false }).sys_time_diag = true
      ↔ eqp.has_time = true ∧
        (eqp.time_hodge_algo = cs_param_hodge_algo_t.CS_PARAM_HODGE_ALGO_VORONOI ∨
          (eqp.time_hodge_algo = cs_param_hodge_algo_t.CS_PARAM_HODGE_ALGO_COST ∧
            eqp.do_lumping = true)) := by
  unfold init_context_time
  cases ht : eqp.has_time <;> cases ha : eqp.time_hodge_algo <;>
    cases hl : eqp.do_lumping <;> simp

/-- C15, as amended: with settings that pass its checks, `cs_cdofb_vecteq_init_context`
raises no error for a diffusion Hodge operator that is not isotropic nor for a time
treatment that is not diagonal; it sets `CS_FLAG_SYS_TIME_DIAG` exactly for a Voronoi
time Hodge operator or a COST one with lumping.  For such an equation the fatal error is
raised in the loop on cells of `cs_cdofb_vecteq_solve_implicit` and of
`cs_cdofb_vecteq_solve_theta`, while the first cell is built: it is raised if and only
if there is at least one cell. -/
theorem config_errors_in_cell_loop (ext : build_externals) (eqp : cs_equation_param_t)
    (eqb : cs_equation_builder_t) (inp : cell_inputs) (cis : Bool) (t_cur dt_cur : ℚ)
    (st : CellState) (hv : valid_apart_from_advection eqp)
    (ha : eqp.has_convection = true → advection_accepted eqp) :
    ∃ r, cs_cdofb_vecteq_init_context eqp eqb = some r ∧
      (r.2.sys_time_diag = true
        ↔ eqp.has_time = true ∧
          (eqp.time_hodge_algo = cs_param_hodge_algo_t.CS_PARAM_HODGE_ALGO_VORONOI ∨
            (eqp.time_hodge_algo = cs_param_hodge_algo_t.CS_PARAM_HODGE_ALGO_COST ∧
              eqp.do_lumping = true))) ∧
      ((eqp.has_diffusion = true ∧ eqp.diffusion_hodge_is_iso = false)
          ∨ r.2.sys_time_diag = false →
        ∀ n_cells,
          (cs_cdofb_vecteq_solve_implicit ext eqp r.2 inp n_cells t_cur dt_cur st = none
            ↔ 0 < n_cells) ∧
          (cs_cdofb_vecteq_solve_theta ext eqp r.2 inp cis n_cells t_cur dt_cur st = none
            ↔ 0 < n_cells)) := by
  obtain ⟨stiff, dir, h⟩ := init_context_of_valid eqp eqb hv
  have hadv : ∃ adv, init_context_advection eqp = some adv := by
    by_cases hc : eqp.has_convection = true
    · exact Option.isSome_iff_exists.mp ((init_context_advection_isSome eqp hc).mpr (ha hc))
    · refine ⟨(none, none), ?_⟩
      unfold init_context_advection
      simp [hc]
  obtain ⟨adv, hadv⟩ := hadv
  rw [hadv] at h
  refine ⟨_, h, init_context_time_diag eqp eqb, ?_⟩
  intro hbad n_cells
  constructor
  · exact cell_loop_none_iff ext eqp inp _
      (build_implicit_none ext eqp _ inp (t_cur + dt_cur) (1 / dt_cur) hbad) n_cells _
  · exact cell_loop_none_iff ext eqp inp _
      (build_theta_none ext eqp _ inp cis t_cur dt_cur hbad) n_cells _

/-- C15, on an unsteady equation whose time Hodge operator is COST without lumping: the
set-up succeeds without `CS_FLAG_SYS_TIME_DIAG`, and the implicit build fails on a mesh
of one cell. -/
theorem config_errors_in_cell_loop_witness :
    valid_apart_from_advection eqp_nodiag ∧
    ∃ r, cs_cdofb_vecteq_init_context eqp_nodiag eqb_any = some r ∧
      r.2.sys_time_diag = false ∧
      cs_cdofb_vecteq_solve_implicit ext_build eqp_nodiag r.2 inp_one 1 0 1 st_any = none := by
  have hv : valid_apart_from_advection eqp_nodiag := by
    unfold valid_apart_from_advection
    simp [eqp_nodiag, eqp_half, eqp_none, eqp_upwind]
  obtain ⟨r, h1, h2, h3⟩ := config_errors_in_cell_loop ext_build eqp_nodiag eqb_any inp_one
    true 0 1 st_any hv (fun h => absurd h (by decide))
  have hf : r.2.sys_time_diag = false := by
    cases hr : r.2.sys_time_diag with
    | false => rfl
    | true =>
      have := h2.mp hr
      simp [eqp_nodiag, eqp_half, eqp_none, eqp_upwind] at this
  exact ⟨hv, r, h1, hf, ((h3 (Or.inr hf) 1).1).mpr (by decide)⟩

/-- C15, counterexample: for a diffusion Hodge operator that is not isotropic, and for a
COST time Hodge operator without lumping, `cs_cdofb_vecteq_init_context` raises no error;
on a mesh without cell `cs_cdofb_vecteq_solve_implicit` and
`cs_cdofb_vecteq_solve_theta` raise none either. -/
theorem config_errors_counterexample :
    (cs_cdofb_vecteq_init_context eqp_noniso eqb_any).isSome = true ∧
    (cs_cdofb_vecteq_init_context eqp_nodiag eqb_any).isSome = true ∧
    (cs_cdofb_vecteq_solve_implicit ext_build eqp_noniso eqb_diag inp_one 0 0 1
      st_any).isSome = true ∧
    (cs_cdofb_vecteq_solve_theta ext_build eqp_nodiag eqb_any inp_one true 0 0 1
      st_any).isSome = true :=
  ⟨rfl, rfl, rfl, rfl⟩

/-! ## Reduction of the counters of the limiter over the ranks -/

/-- Mode 1 on the three cells in a row, on one rank: no cell is counted as clipped, the
last face leaves `min_factor = 1`. -/
theorem run_row_values :
    run_row.n_clip = 0 ∧ run_row.min_factor = 1 ∧ run_row.max_factor = 0
      ∧ run_row.clip_factor 0 = 199 / 200 ∧ run_row.clip_factor 1 = 199 / 200
      ∧ run_row.clip_factor 2 = 1 := by
  have hD : ¬ DBL_MAX < 99 / 100 := by
    unfold DBL_MAX
    norm_num
  have hD1 : min DBL_MAX (199 / 200 : ℚ) = 199 / 200 := by
    apply min_eq_right
    unfold DBL_MAX
    norm_num
  have hD2 : min DBL_MAX (1 : ℚ) = 1 := by
    apply min_eq_right
    unfold DBL_MAX
    norm_num
  refine ⟨?_, ?_, ?_, ?_, ?_, ?_⟩ <;>
  norm_num [run_row, clmgrd, clip_1, clip_ext_loop_1, clip_apply_step_1, clip_init,
      clip_factor_init, clip_faces_step_1, gated_factor, gated_divisor,
      sync_grad, sync_field, sync_scalar, mesh_row, first_1, ext_loop_1, faces_step_1,
      work_zero, work_any, face_i1, face_i2, dist_dot, cen_diff, cen_row, var_row,
      List.range_succ, Function.update, hD, hD1, hD2]

/-- Mode 1 on the rank that owns the cells 0 and 1: its last face is (cell 0, cell 1) and
leaves `min_factor = 199/200`. -/
theorem run_row_a_values :
    run_row_a.n_clip = 0 ∧ run_row_a.min_factor = 199 / 200 ∧ run_row_a.max_factor = 0
      ∧ run_row_a.clip_factor 0 = 199 / 200 ∧ run_row_a.clip_factor 1 = 199 / 200 := by
  have hD : ¬ DBL_MAX < 99 / 100 := by
    unfold DBL_MAX
    norm_num
  have hD1 : min DBL_MAX (199 / 200 : ℚ) = 199 / 200 := by
    apply min_eq_right
    unfold DBL_MAX
    norm_num
  have hD2 : min DBL_MAX (1 : ℚ) = 1 := by
    apply min_eq_right
    unfold DBL_MAX
    norm_num
  refine ⟨?_, ?_, ?_, ?_, ?_⟩ <;>
  norm_num [run_row_a, clmgrd, clip_1, clip_ext_loop_1, clip_apply_step_1, clip_init,
      clip_factor_init, clip_faces_step_1, gated_factor, gated_divisor,
      sync_grad, sync_field, sync_scalar, mesh_row_a, halo_keep, first_1, ext_loop_1,
      faces_step_1, work_zero, work_any, face_i1, face_i2, dist_dot, cen_diff, cen_row,
      var_row, List.range_succ, Function.update, hD, hD1, hD2]

/-- Mode 1 on the rank that owns the cell 2. -/
theorem run_row_b_values :
    run_row_b.n_clip = 0 ∧ run_row_b.min_factor = 1 ∧ run_row_b.max_factor = 0
      ∧ run_row_b.clip_factor 0 = 1 := by
  have hD : ¬ DBL_MAX < 99 / 100 := by
    unfold DBL_MAX
    norm_num
  have hD2 : min DBL_MAX (1 : ℚ) = 1 := by
    apply min_eq_right
    unfold DBL_MAX
    norm_num
  refine ⟨?_, ?_, ?_, ?_⟩ <;>
  norm_num [run_row_b, clmgrd, clip_1, clip_ext_loop_1, clip_apply_step_1, clip_init,
      clip_factor_init, clip_faces_step_1, gated_factor, gated_divisor,
      sync_grad, sync_field, sync_scalar, mesh_row_b, halo_keep, first_1, ext_loop_1,
      faces_step_1, work_zero, work_any, face_i1, face_i2, dist_dot, cen_diff, cen_row_b,
      var_row_b, List.range_succ, Function.update, hD, hD2]

/-- C20 (defect of the code): three cells in a row, mode 1, `climgp = 1`, field
`(0, 199, 399)`, gradient `(200, 0, 0)`.  Each owned cell gets the same clip factor on
one rank and on two ranks (199/200, 199/200, 1), no cell is counted as clipped and the
maximum factor is 0 in both runs, but the minimum factor reported is 1 on one rank and
199/200 after the reduction over the two ranks. -/
theorem clmgrd_reduction_min_factor :
    run_row_a.clip_factor 0 = run_row.clip_factor 0
      ∧ run_row_a.clip_factor 1 = run_row.clip_factor 1
      ∧ run_row_b.clip_factor 0 = run_row.clip_factor 2
      ∧ (clmgrd_reduce mesh_row run_row []).n_clip = 0
      ∧ (clmgrd_reduce mesh_row_a run_row_a [run_row_b]).n_clip = 0
      ∧ (clmgrd_reduce mesh_row run_row []).max_factor = 0
      ∧ (clmgrd_reduce mesh_row_a run_row_a [run_row_b]).max_factor = 0
      ∧ (clmgrd_reduce mesh_row run_row []).min_factor = 1
      ∧ (clmgrd_reduce mesh_row_a run_row_a [run_row_b]).min_factor = 199 / 200
      ∧ (clmgrd_reduce mesh_row_b run_row_b [run_row_a]).min_factor = 199 / 200 := by
  obtain ⟨s1, s2, s3, s4, s5, s6⟩ := run_row_values
  obtain ⟨a1, a2, a3, a4, a5⟩ := run_row_a_values
  obtain ⟨b1, b2, b3, b4⟩ := run_row_b_values
  have hA : mesh_row_a.n_domains > 1 := by decide
  have hB : mesh_row_b.n_domains > 1 := by decide
  have h1 : ¬ mesh_row.n_domains > 1 := by decide
  refine ⟨by rw [a4, s4], by rw [a5, s5], by rw [b4, s6], ?_, ?_, ?_, ?_, ?_, ?_, ?_⟩
  · simp [clmgrd_reduce, h1, s1]
  · simp [clmgrd_reduce, hA, a1, b1]
  · simp [clmgrd_reduce, h1, s3]
  · simp [clmgrd_reduce, hA, a3, b3]
  · simp [clmgrd_reduce, h1, s2]
  · simp only [clmgrd_reduce, if_pos hA, List.foldl_cons, List.foldl_nil, a2, b2]
    norm_num
  · simp only [clmgrd_reduce, if_pos hB, List.foldl_cons, List.foldl_nil, a2, b2]
    norm_num

/-! ## Postprocessing utilities -/

/-- The test `itytur == 2 && itytur == 6 && itytur == 5` of `cs_post_b_pressure` never
holds: the function returns what its first loop computes. -/
theorem b_pressure_first_loop_only (env : b_pressure_env) (n_b_faces : Nat)
    (b_face_ids : Nat → Nat) (pres : Nat → ℚ) :
    cs_post_b_pressure env n_b_faces b_face_ids pres
      = (List.range n_b_faces).foldl (b_pressure_step env b_face_ids) pres := by
  unfold cs_post_b_pressure
  have h : ¬ (env.itytur = 2 ∧ env.itytur = 6 ∧ env.itytur = 5) := by
    rintro ⟨h2, h6, _⟩
    rw [h2] at h6
    exact absurd h6 (by decide)
  simp only [if_neg h]

/-- C30 (defect of the code): with a `k-epsilon` model (`itytur = 2`), one boundary face,
pressure 10 and `k = 3` in its cell, density 1, the pressure the claim gives is
`10 - 2/3 * 1 * 3 = 8`, and `cs_post_b_pressure` returns 10: the correction of the
turbulent kinetic energy is not subtracted. -/
theorem b_pressure_misses_k_correction :
    env_k.itytur = 2 ∧ b_pressure_spec env_k 0 = 8
      ∧ cs_post_b_pressure env_k 1 (fun _ => 0) (fun _ => 0) 0 = 10 := by
  refine ⟨rfl, ?_, ?_⟩
  · norm_num [b_pressure_spec, env_k, cs_math_3_dot_product]
  · rw [b_pressure_first_loop_only]
    norm_num [b_pressure_step, env_k, cs_math_3_dot_product, List.range_succ]

/-- C25 (defect of the code): for a Reynolds stress model (`itytur = 3`)
`cs_post_anisotropy_invariant` calls `cs_post_evm_reynolds_stresses`, which raises its
fatal error; for the eddy viscosity models (`itytur` 2, 5 or 6) it completes with the
Reynolds stresses taken from the transported fields. -/
theorem anisotropy_invariant_sources (env : rij_env) (n_cells : Nat)
    (cell_ids : Nat → Nat) (rij0 : Nat → Nat → ℚ) (inv : Nat → ℚ × ℚ) :
    cs_post_anisotropy_invariant env 3 n_cells cell_ids rij0 inv = none
      ∧ (∃ r, cs_post_anisotropy_invariant env 2 n_cells cell_ids rij0 inv = some r
          ∧ r.2 = rij_source.transported_fields)
      ∧ (∃ r, cs_post_anisotropy_invariant env 5 n_cells cell_ids rij0 inv = some r
          ∧ r.2 = rij_source.transported_fields)
      ∧ (∃ r, cs_post_anisotropy_invariant env 6 n_cells cell_ids rij0 inv = some r
          ∧ r.2 = rij_source.transported_fields) := by
  refine ⟨?_, ?_, ?_, ?_⟩
  · simp [cs_post_anisotropy_invariant, cs_post_evm_reynolds_stresses]
  · by_cases h : env.irijco = 0 <;>
      simp [cs_post_anisotropy_invariant, h]
  · by_cases h : env.irijco = 0 <;>
      simp [cs_post_anisotropy_invariant, h]
  · by_cases h : env.irijco = 0 <;>
      simp [cs_post_anisotropy_invariant, h]

/-- For a model that is not a RANS model (`itytur` not 2, 3, 5 or 6)
`cs_post_anisotropy_invariant` raises its fatal error. -/
theorem anisotropy_invariant_other_models (env : rij_env) (itytur : Int) (n_cells : Nat)
    (cell_ids : Nat → Nat) (rij0 : Nat → Nat → ℚ) (inv : Nat → ℚ × ℚ)
    (h : itytur ≠ 2 ∧ itytur ≠ 3 ∧ itytur ≠ 6 ∧ itytur ≠ 5) :
    cs_post_anisotropy_invariant env itytur n_cells cell_ids rij0 inv = none := by
  unfold cs_post_anisotropy_invariant
  rw [if_pos h]

/-! ## Time steps of a remapper -/

/-- C24 (defect of the code): with the stored times 0 and 1 and the requested time 1,
the last stored time, `cs_medcoupling_remapper_find_time_index` assigns neither output:
they keep the values -7 they had before the call, which are no indices.  The same
happens with one stored time 0 and the requested time 0. -/
theorem find_time_index_last_time :
    cs_medcoupling_remapper_find_time_index 2 time_steps_two 1 (-7) (-7) = (-7, -7)
      ∧ cs_medcoupling_remapper_find_time_index 1 time_steps_two 0 (-7) (-7)
          = (-7, -7) := by
  constructor
  · norm_num [cs_medcoupling_remapper_find_time_index, time_steps_two, find_time_loop,
      List.range_succ]
  · norm_num [cs_medcoupling_remapper_find_time_index, time_steps_two, find_time_loop]

/-! ## Restart files -/

/-- Closing a file with a number that the test of `clssui` rejects at once, or with a
number inside the table: what the claim C22 says holds there. -/
theorem clssui_inside_table (numsui : Int) (t : restart_pointers) :
    (numsui < 1 ∨ numsui > (t.size : Int) + 1 →
      (clssui numsui t).ierror = cs_suite_err.CS_SUITE_ERR_NUM_FIC
        ∧ (clssui numsui t).reads = [] ∧ (clssui numsui t).pointers = t) ∧
    (1 ≤ numsui → numsui ≤ (t.size : Int) →
      (clssui numsui t).reads = [(numsui - 1).toNat] ∧ (numsui - 1).toNat < t.size ∧
      (t.ptr (numsui - 1).toNat = none →
        (clssui numsui t).ierror = cs_suite_err.CS_SUITE_ERR_NUM_FIC
          ∧ (clssui numsui t).pointers = t) ∧
      (t.ptr (numsui - 1).toNat ≠ none →
        (clssui numsui t).ierror = cs_suite_err.CS_SUITE_SUCCES
          ∧ (clssui numsui t).pointers.size = t.size
          ∧ (clssui numsui t).pointers.ptr (numsui - 1).toNat = none
          ∧ ∀ i, i ≠ (numsui - 1).toNat → (clssui numsui t).pointers.ptr i = t.ptr i)) := by
  constructor
  · intro h
    have hc : numsui - 1 < 0 ∨ numsui - 1 > (t.size : Int) := by omega
    have e : clssui numsui t
        = { ierror := cs_suite_err.CS_SUITE_ERR_NUM_FIC, pointers := t, reads := [],
            destroyed := [] } := by
      simp only [clssui, if_pos hc]
    rw [e]
    exact ⟨rfl, rfl, rfl⟩
  · intro h1 h2
    have hc : ¬ (numsui - 1 < 0 ∨ numsui - 1 > (t.size : Int)) := by omega
    have hlt : (numsui - 1).toNat < t.size := by omega
    cases hp : t.ptr (numsui - 1).toNat with
    | none =>
      have e : clssui numsui t
          = { ierror := cs_suite_err.CS_SUITE_ERR_NUM_FIC, pointers := t,
              reads := [(numsui - 1).toNat], destroyed := [] } := by
        simp only [clssui, if_neg hc, hp]
      rw [e]
      exact ⟨rfl, hlt, fun _ => ⟨rfl, rfl⟩, fun h => absurd rfl h⟩
    | some h =>
      have e : clssui numsui t
          = { ierror := cs_suite_err.CS_SUITE_SUCCES,
              pointers := { t with ptr := Function.update t.ptr (numsui - 1).toNat none },
              reads := [(numsui - 1).toNat], destroyed := [h] } := by
        simp only [clssui, if_neg hc, hp]
      rw [e]
      refine ⟨rfl, hlt, fun h0 => absurd h0 (by simp), fun _ => ⟨rfl, rfl, ?_, ?_⟩⟩
      · exact Function.update_same _ _ _
      · intro i hi
        exact Function.update_noteq hi _ _

/-- C22 (defect of the code): on a table of two slots, `numsui = 3` is greater than the
size of the table, and `clssui` reads `_restart_pointer[2]`, the word after the table.
When that word is not zero, `ierror` is `CS_SUITE_SUCCES`, the word is given to
`cs_suite_detruit` and set to `NULL`; when it is zero, `ierror` is
`CS_SUITE_ERR_NUM_FIC` but the word has been read all the same. -/
theorem clssui_reads_past_table :
    (clssui 3 pointers_two).reads = [2] ∧ ¬ (2 < pointers_two.size)
      ∧ (clssui 3 pointers_two).ierror = cs_suite_err.CS_SUITE_SUCCES
      ∧ (clssui 3 pointers_two).destroyed = [9]
      ∧ pointers_two.ptr 2 = some 9 ∧ (clssui 3 pointers_two).pointers.ptr 2 = none
      ∧ (clssui 3 pointers_two_null).reads = [2]
      ∧ (clssui 3 pointers_two_null).ierror = cs_suite_err.CS_SUITE_ERR_NUM_FIC := by
  refine ⟨rfl, by decide, rfl, rfl, rfl, ?_, rfl, rfl⟩
  simp [clssui, pointers_two, Function.update]
/-- The loop `val_cur[ii] = val_ord[ii]` on `ii < m`. -/
theorem copy_fold {α : Type} (m : Nat) (w vals : Nat → α) (p : Nat) :
    ((List.range m).foldl (fun v ii => Function.update v ii (w ii)) vals) p
      = if p < m then w p else vals p := by
  induction m with
  | zero => simp
  | succ m ih =>
    rw [List.range_succ, List.foldl_append]
    simp only [List.foldl_cons, List.foldl_nil]
    by_cases hp : p = m
    · subst hp
      rw [Function.update_same]
      simp
    · rw [Function.update_noteq hp, ih]
      by_cases h1 : p < m
      · rw [if_pos h1, if_pos (by omega)]
      · rw [if_neg h1, if_neg (by omega)]

/-- An index of the block `e` of a flat array with `n` values per entity. -/
theorem block_index (n e p : Nat) (h1 : e * n ≤ p) (h2 : p < e * n + n) :
    p / n = e ∧ p % n = p - e * n := by
  have hn : 0 < n := by omega
  have hd : p / n = e := by
    apply Nat.div_eq_of_lt_le
    · exact h1
    · rw [Nat.succ_mul]
      exact h2
  refine ⟨hd, ?_⟩
  have := Nat.div_add_mod p n
  rw [hd, Nat.mul_comm] at this
  omega

/-- The loop on `jj` of `_restart_permute_read`, up to `k`. -/
theorem permute_read_inner {α : Type} (ini : Nat → Nat) (n : Nat) (val_cur : Nat → α)
    (e k : Nat) (s : (Nat → α) × Nat) :
    ((List.range k).foldl (permute_read_step ini n val_cur e) s).2 = s.2 + k
      ∧ ∀ p, ((List.range k).foldl (permute_read_step ini n val_cur e) s).1 p
          = if s.2 ≤ p ∧ p < s.2 + k then val_cur ((ini e - 1) * n + (p - s.2))
            else s.1 p := by
  induction k with
  | zero =>
    refine ⟨rfl, fun p => ?_⟩
    have h : ¬ (s.2 ≤ p ∧ p < s.2 + 0) := by omega
    rw [if_neg h]
    rfl
  | succ k ih =>
    rw [List.range_succ, List.foldl_append]
    simp only [List.foldl_cons, List.foldl_nil]
    refine ⟨?_, fun p => ?_⟩
    · show ((List.range k).foldl (permute_read_step ini n val_cur e) s).2 + 1 = _
      rw [ih.1]
      omega
    · show Function.update ((List.range k).foldl (permute_read_step ini n val_cur e) s).1
        ((List.range k).foldl (permute_read_step ini n val_cur e) s).2
        (val_cur ((ini e - 1) * n + k)) p = _
      rw [ih.1]
      by_cases hp : p = s.2 + k
      · subst hp
        rw [Function.update_same, if_pos (by omega)]
        congr 2
        omega
      · rw [Function.update_noteq hp, ih.2 p]
        by_cases h1 : s.2 ≤ p ∧ p < s.2 + k
        · rw [if_pos h1, if_pos (by omega)]
        · rw [if_neg h1, if_neg (by omega)]

/-- The two loops of `_restart_permute_read` that fill `val_ord`, up to the entity `m`. -/
theorem permute_read_outer {α : Type} (ini : Nat → Nat) (n : Nat) (val_cur buf : Nat → α)
    (m : Nat) :
    ((List.range m).foldl
        (fun s ent_id => (List.range n).foldl (permute_read_step ini n val_cur ent_id) s)
        (buf, 0)).2 = m * n
      ∧ ∀ p, ((List.range m).foldl
          (fun s ent_id => (List.range n).foldl (permute_read_step ini n val_cur ent_id) s)
          (buf, 0)).1 p
          = if p < m * n then val_cur ((ini (p / n) - 1) * n + p % n) else buf p := by
  induction m with
  | zero =>
    refine ⟨by simp, fun p => ?_⟩
    simp
  | succ m ih =>
    rw [List.range_succ, List.foldl_append]
    simp only [List.foldl_cons, List.foldl_nil]
    have hin := permute_read_inner ini n val_cur m n
      ((List.range m).foldl
        (fun s ent_id => (List.range n).foldl (permute_read_step ini n val_cur ent_id) s)
        (buf, 0))
    rw [ih.1] at hin
    refine ⟨?_, fun p => ?_⟩
    · rw [hin.1, Nat.succ_mul]
    · rw [hin.2 p, Nat.succ_mul]
      by_cases h1 : m * n ≤ p ∧ p < m * n + n
      · obtain ⟨hd, hm⟩ := block_index n m p h1.1 h1.2
        rw [if_pos h1, if_pos h1.2, hd, hm]
      · rw [if_neg h1, ih.2 p]
        by_cases h2 : p < m * n
        · rw [if_pos h2, if_pos (by omega)]
        · rw [if_neg h2, if_neg (by omega)]
/-- The loop on `jj` of `_restart_permute_write`, up to `k`. -/
theorem permute_write_inner {α : Type} (ini : Nat → Nat) (n : Nat) (val_cur : Nat → α)
    (e k : Nat) (s : (Nat → α) × Nat) :
    ((List.range k).foldl (permute_write_step ini n val_cur e) s).2 = s.2 + k
      ∧ ∀ p, ((List.range k).foldl (permute_write_step ini n val_cur e) s).1 p
          = if (ini e - 1) * n ≤ p ∧ p < (ini e - 1) * n + k
            then val_cur (s.2 + (p - (ini e - 1) * n))
            else s.1 p := by
  induction k with
  | zero =>
    refine ⟨rfl, fun p => ?_⟩
    have h : ¬ ((ini e - 1) * n ≤ p ∧ p < (ini e - 1) * n + 0) := by omega
    rw [if_neg h]
    rfl
  | succ k ih =>
    rw [List.range_succ, List.foldl_append]
    simp only [List.foldl_cons, List.foldl_nil]
    refine ⟨?_, fun p => ?_⟩
    · show ((List.range k).foldl (permute_write_step ini n val_cur e) s).2 + 1 = _
      rw [ih.1]
      omega
    · show Function.update ((List.range k).foldl (permute_write_step ini n val_cur e) s).1
        ((ini e - 1) * n + k)
        (val_cur ((List.range k).foldl (permute_write_step ini n val_cur e) s).2) p = _
      rw [ih.1]
      by_cases hp : p = (ini e - 1) * n + k
      · subst hp
        rw [Function.update_same, if_pos (by omega)]
        congr 1
        omega
      · rw [Function.update_noteq hp, ih.2 p]
        by_cases h1 : (ini e - 1) * n ≤ p ∧ p < (ini e - 1) * n + k
        · rw [if_pos h1, if_pos (by omega)]
        · rw [if_neg h1, if_neg (by omega)]

/-- Two blocks of a flat array that share an index are the same block. -/
theorem block_unique (n a b j p : Nat) (hj : j < n) (hp : p = b * n + j)
    (h1 : a * n ≤ p) (h2 : p < a * n + n) : a = b := by
  have hb := block_index n b p (by omega) (by omega)
  have ha := block_index n a p h1 h2
  exact ha.1.symm.trans hb.1

/-- The two loops of `_restart_permute_write`, up to the entity `m`: the values of the
entity `e < m` are at the block `ini_ent_num[e] - 1`. -/
theorem permute_write_outer {α : Type} (n_ents : Nat) (ini : Nat → Nat) (n : Nat)
    (val_cur buf : Nat → α) (hperm : is_renumbering n_ents ini) (m : Nat)
    (hm : m ≤ n_ents) :
    ((List.range m).foldl
        (fun s ent_id => (List.range n).foldl (permute_write_step ini n val_cur ent_id) s)
        (buf, 0)).2 = m * n
      ∧ ∀ e j, e < m → j < n →
          ((List.range m).foldl
            (fun s ent_id =>
              (List.range n).foldl (permute_write_step ini n val_cur ent_id) s)
            (buf, 0)).1 ((ini e - 1) * n + j) = val_cur (e * n + j) := by
  induction m with
  | zero =>
    refine ⟨by simp, fun e j he _ => ?_⟩
    omega
  | succ m ih =>
    have ih := ih (by omega)
    rw [List.range_succ, List.foldl_append]
    simp only [List.foldl_cons, List.foldl_nil]
    have hin := permute_write_inner ini n val_cur m n
      ((List.range m).foldl
        (fun s ent_id => (List.range n).foldl (permute_write_step ini n val_cur ent_id) s)
        (buf, 0))
    rw [ih.1] at hin
    refine ⟨?_, fun e j he hj => ?_⟩
    · rw [hin.1, Nat.succ_mul]
    · rw [hin.2]
      by_cases hem : e = m
      · subst hem
        rw [if_pos (by omega)]
        congr 1
        omega
      · have hne : ¬ ((ini m - 1) * n ≤ (ini e - 1) * n + j
            ∧ (ini e - 1) * n + j < (ini m - 1) * n + n) := by
          rintro ⟨h1, h2⟩
          have hab := block_unique n (ini m - 1) (ini e - 1) j _ hj rfl h1 h2
          have h3 := (hperm.1 m (by omega)).1
          have h4 := (hperm.1 e (by omega)).1
          exact hem (hperm.2 e m (by omega) (by omega) (by omega))
        rw [if_neg hne]
        exact ih.2 e j (by omega) hj

/-- C29: in single-process mode, for `ini_ent_num` a permutation of `1..n_ents` and a
type of values that the functions handle, `_restart_permute_write` returns an array that
holds the values of the entity `e` at the block `ini_ent_num[e] - 1`, and
`_restart_permute_read` on that array gives back every entry of `vals`; when
`ini_ent_num` is `NULL` the write returns `NULL` and the read leaves the array as it
is. -/
theorem restart_permute_round_trip {α : Type} (n_ents n_location_vals : Nat)
    (ini : Nat → Nat) (datatype : cs_type_t) (buf buf2 vals : Nat → α)
    (hperm : is_renumbering n_ents ini)
    (hdt : datatype = cs_type_t.CS_TYPE_cs_int_t
      ∨ datatype = cs_type_t.CS_TYPE_cs_real_t) :
    (∃ w, _restart_permute_write n_ents (some ini) n_location_vals datatype buf vals
          = some w
        ∧ (∀ e j, e < n_ents → j < n_location_vals →
            w ((ini e - 1) * n_location_vals + j) = vals (e * n_location_vals + j))
        ∧ ∀ p, p < n_ents * n_location_vals →
            _restart_permute_read n_ents (some ini) n_location_vals datatype buf2 w p
              = vals p)
      ∧ _restart_permute_write n_ents none n_location_vals datatype buf vals = none
      ∧ _restart_permute_read n_ents none n_location_vals datatype buf2 vals = vals := by
  refine ⟨?_, rfl, rfl⟩
  have hw := permute_write_outer n_ents ini n_location_vals vals buf hperm n_ents
    (le_refl _)
  have hwe : _restart_permute_write n_ents (some ini) n_location_vals datatype buf vals
      = some ((List.range n_ents).foldl
          (fun s ent_id => (List.range n_location_vals).foldl
            (permute_write_step ini n_location_vals vals ent_id) s) (buf, 0)).1 := by
    rcases hdt with h | h <;> rw [h] <;> rfl
  refine ⟨_, hwe, hw.2, fun p hp => ?_⟩
  have hre : ∀ w : Nat → α,
      _restart_permute_read n_ents (some ini) n_location_vals datatype buf2 w
        = (List.range (n_ents * n_location_vals)).foldl
            (fun val_cur ii => Function.update val_cur ii
              (((List.range n_ents).foldl
                (fun s ent_id => (List.range n_location_vals).foldl
                  (permute_read_step ini n_location_vals w ent_id) s) (buf2, 0)).1 ii))
            w := by
    intro w
    rcases hdt with h | h <;> rw [h] <;> rfl
  rw [hre, copy_fold, if_pos hp, (permute_read_outer ini n_location_vals _ buf2 n_ents).2,
    if_pos hp]
  have hn : 0 < n_location_vals := by
    rcases Nat.eq_zero_or_pos n_location_vals with h0 | h0
    · rw [h0] at hp
      omega
    · exact h0
  have he : p / n_location_vals < n_ents := Nat.div_lt_of_lt_mul (by rwa [Nat.mul_comm])
  rw [hw.2 _ _ he (Nat.mod_lt p hn)]
  congr 1
  have := Nat.div_add_mod p n_location_vals
  rw [Nat.mul_comm] at this
  exact this

/-- C29, on two entities that the renumbering swaps, with one value per entity: the
value of the entity 0 is written at the position 1 and read back at the position 0. -/
theorem restart_permute_round_trip_witness :
    is_renumbering 2 ini_swap ∧
    ∃ w, _restart_permute_write 2 (some ini_swap) 1 cs_type_t.CS_TYPE_cs_real_t
          (fun _ => (0 : ℚ)) (fun k => (k : ℚ) + 5) = some w
      ∧ w 1 = 5
      ∧ _restart_permute_read 2 (some ini_swap) 1 cs_type_t.CS_TYPE_cs_real_t
          (fun _ => (0 : ℚ)) w 0 = 5 := by
  have hperm : is_renumbering 2 ini_swap := by
    constructor
    · intro e he
      interval_cases e <;> simp [ini_swap]
    · intro e1 e2 h1 h2
      interval_cases e1 <;> interval_cases e2 <;> simp [ini_swap]
  obtain ⟨w, hw, hpos, hback⟩ := (restart_permute_round_trip 2 1 ini_swap
    cs_type_t.CS_TYPE_cs_real_t (fun _ => (0 : ℚ)) (fun _ => (0 : ℚ))
    (fun k => (k : ℚ) + 5) hperm (Or.inr rfl)).1
  refine ⟨hperm, w, hw, ?_, ?_⟩
  · have h := hpos 0 0 (by decide) (by decide)
    simpa [ini_swap] using h
  · have h := hback 0 (by decide)
    simpa using h

/-! ## The theta scheme with `theta = 1` -/

/-- With `theta = 1`, STEP.1 and STEP.2 of the theta scheme leave the local matrix, the
right-hand side and the previous values as they are. -/
theorem theta_one_steps (ext : build_externals) (cm : cs_cell_mesh_t) (st : CellState) :
    (theta_step2 ext 1 cm (theta_step1 ext (1 - 1) st)).csys.mat = st.csys.mat
      ∧ (theta_step2 ext 1 cm (theta_step1 ext (1 - 1) st)).csys.rhs = st.csys.rhs
      ∧ (theta_step2 ext 1 cm (theta_step1 ext (1 - 1) st)).csys.val_n = st.csys.val_n
      ∧ (theta_step2 ext 1 cm (theta_step1 ext (1 - 1) st)).cb.tpty_val
          = st.cb.tpty_val := by
  refine ⟨?_, ?_, rfl, rfl⟩
  · funext bi bj e
    show (if ext.mat_val_index (cm.n_fc + 1) bi bj e < st.csys.n_dofs * st.csys.n_dofs
      then st.csys.mat bi bj e * 1 else st.csys.mat bi bj e) = _
    rw [mul_one, ite_self]
  · funext i
    show ((List.range st.csys.n_dofs).foldl
      (fun r k => Function.update r k
        (r k - (1 - 1) * ext.cs_sdm_block_matvec st.csys.mat st.csys.val_n k))
      st.csys.rhs) i = _
    rw [rhs_sub_fold]
    simp

/-- The diagonal time term gives the same matrix and right-hand side on two states with
the same matrix, right-hand side, previous values and time property. -/
theorem time_term_diag_congr (eqb : cs_equation_builder_t) (cm : cs_cell_mesh_t)
    (inv_dtcur : ℚ) (s1 s2 : CellState) (hm : s1.csys.mat = s2.csys.mat)
    (hr : s1.csys.rhs = s2.csys.rhs) (hv : s1.csys.val_n = s2.csys.val_n)
    (ht : s1.cb.tpty_val = s2.cb.tpty_val) :
    (time_term_diag eqb cm inv_dtcur s1).map (fun s => (s.csys.mat, s.csys.rhs))
      = (time_term_diag eqb cm inv_dtcur s2).map (fun s => (s.csys.mat, s.csys.rhs)) := by
  by_cases hf : eqb.sys_time_diag = true
  · rw [time_term_diag_eq eqb cm inv_dtcur s1 hf, time_term_diag_eq eqb cm inv_dtcur s2 hf]
    simp only [Option.map_some']
    have f1 := time_diag_fold cm.n_fc (s1.cb.tpty_val * cm.vol_c * inv_dtcur) s1.csys
    have f2 := time_diag_fold cm.n_fc (s2.cb.tpty_val * cm.vol_c * inv_dtcur) s2.csys
    congr 1
    refine Prod.ext ?_ ?_
    · funext bi bj e
      exact (f1.1 bi bj e).trans (by rw [hm, ht]; exact (f2.1 bi bj e).symm)
    · funext i
      exact (f1.2.1 i).trans (by rw [hr, hv, ht]; exact (f2.2.1 i).symm)
  · have hf2 : eqb.sys_time_diag = false := by simpa using hf
    rw [time_term_diag_none eqb cm inv_dtcur s1 hf2,
      time_term_diag_none eqb cm inv_dtcur s2 hf2]

/-- C28: for `theta = 1`, STEP.1 to STEP.3 of `cs_cdofb_vecteq_solve_theta` give the same
local matrix and right-hand side as the time term of `cs_cdofb_vecteq_solve_implicit`
on the same local system (both raise the fatal error when `CS_FLAG_SYS_TIME_DIAG` is not
set), and the time of evaluation `t_cur + theta*dt_cur` is `t_cur + dt_cur`: for an
equation without source term the whole builds of a cell give the same matrix and
right-hand side. -/
theorem theta_one_is_implicit (ext : build_externals) (eqp : cs_equation_param_t)
    (eqb : cs_equation_builder_t) (cm : cs_cell_mesh_t) (t_cur dt_cur : ℚ)
    (st : CellState) (h1 : eqp.theta = 1) :
    (theta_time_scheme ext eqp eqb cm (1 / dt_cur) st).map
        (fun s => (s.csys.mat, s.csys.rhs))
      = (time_term_diag eqb cm (1 / dt_cur) st).map (fun s => (s.csys.mat, s.csys.rhs))
    ∧ t_cur + eqp.theta * dt_cur = t_cur + dt_cur
    ∧ (eqp.has_sourceterm = false → ∀ (inp : cell_inputs) (cis : Bool) (c_id : Nat),
        (build_theta ext eqp eqb inp cis t_cur dt_cur c_id st).map
            (fun s => (s.csys.mat, s.csys.rhs))
          = (build_implicit ext eqp eqb inp (t_cur + dt_cur) (1 / dt_cur) c_id st).map
              (fun s => (s.csys.mat, s.csys.rhs))) := by
  have hgen : ∀ (c : cs_cell_mesh_t) (s : CellState),
      (theta_time_scheme ext eqp eqb c (1 / dt_cur) s).map
          (fun s => (s.csys.mat, s.csys.rhs))
        = (time_term_diag eqb c (1 / dt_cur) s).map
            (fun s => (s.csys.mat, s.csys.rhs)) := by
    intro c s
    unfold theta_time_scheme
    dsimp only
    rw [h1]
    obtain ⟨hm, hr, hv, ht⟩ := theta_one_steps ext c s
    exact time_term_diag_congr eqb c (1 / dt_cur) _ s hm hr hv ht
  have htime : t_cur + eqp.theta * dt_cur = t_cur + dt_cur := by rw [h1, one_mul]
  refine ⟨hgen cm st, htime, ?_⟩
  intro hs inp cis c_id
  unfold build_theta build_implicit
  dsimp only
  rw [htime]
  cases cs_cdofb_vecteq_diffusion ext eqp (inp.cell_mesh c_id)
      (init_cell ext inp c_id (t_cur + dt_cur) st) with
  | none => rfl
  | some s1 =>
    dsimp only
    rw [hs]
    simp only [Bool.false_eq_true, if_false]
    exact hgen _ _

/-- C28, on a cell with one face whose blocks are all the identity, time property 3,
volume 1, time step 1/2: with `theta = 1` the theta scheme and the implicit time term
both give `1 + 6` at the entry (0,0) of the cell-cell block. -/
theorem theta_one_is_implicit_witness :
    ({ eqp_half with theta := 1 } : cs_equation_param_t).theta = 1 ∧
    (theta_time_scheme ext_build { eqp_half with theta := 1 } eqb_diag cm_one
        (1 / (1 / 2)) st_theta).map (fun s => (s.csys.mat, s.csys.rhs))
      = (time_term_diag eqb_diag cm_one (1 / (1 / 2)) st_theta).map
          (fun s => (s.csys.mat, s.csys.rhs)) :=
  ⟨rfl, (theta_one_is_implicit ext_build { eqp_half with theta := 1 } eqb_diag cm_one 0
    (1 / 2) st_theta rfl).1⟩
/-! ## Diagnostics of the limiter on one rank -/

/-- C26 (defect of the code): mode 1 on the two cells of `mesh_two` (one rank, no halo),
field `(0, 199)`, gradient `(200, 0, 0)` in both cells, `climgp = 1`.  Both cells get the
clip factor 199/200, which is not below 0.99: no cell is counted as clipped and the
maximum factor is 0, but the minimum factor is 199/200 and not 1. -/
theorem clmgrd_mode1_min_factor_no_clip :
    (clmgrd mesh_two cen_two work_any (fun _ => 0) 0 1 0 1 var_199
        (fun _ => 200) (fun _ => 0) (fun _ => 0)).n_clip = 0
      ∧ (clmgrd mesh_two cen_two work_any (fun _ => 0) 0 1 0 1 var_199
        (fun _ => 200) (fun _ => 0) (fun _ => 0)).max_factor = 0
      ∧ (clmgrd mesh_two cen_two work_any (fun _ => 0) 0 1 0 1 var_199
        (fun _ => 200) (fun _ => 0) (fun _ => 0)).clip_factor 0 = 199 / 200
      ∧ (clmgrd mesh_two cen_two work_any (fun _ => 0) 0 1 0 1 var_199
        (fun _ => 200) (fun _ => 0) (fun _ => 0)).clip_factor 1 = 199 / 200
      ∧ (clmgrd mesh_two cen_two work_any (fun _ => 0) 0 1 0 1 var_199
        (fun _ => 200) (fun _ => 0) (fun _ => 0)).min_factor = 199 / 200
      ∧ (clmgrd_reduce mesh_two
          (clmgrd mesh_two cen_two work_any (fun _ => 0) 0 1 0 1 var_199
            (fun _ => 200) (fun _ => 0) (fun _ => 0)) []).min_factor = 199 / 200 := by
  have hD1 : min DBL_MAX (199 / 200 : ℚ) = 199 / 200 := by
    apply min_eq_right
    unfold DBL_MAX
    norm_num
  refine ⟨?_, ?_, ?_, ?_, ?_, ?_⟩ <;>
  norm_num [clmgrd_reduce, clmgrd, clip_1, clip_ext_loop_1, clip_apply_step_1, clip_init,
      clip_factor_init, clip_faces_step_1, gated_factor, gated_divisor,
      sync_grad, sync_field, sync_scalar, mesh_two, first_1, ext_loop_1, faces_step_1,
      work_zero, work_any, face_i1, face_i2, dist_dot, cen_diff, cen_two, var_199,
      List.range_succ, Function.update, hD1]

/-- The counters after a turn of the loop on cells of mode 0 that clips the cell. -/
theorem clip_step_0_counters (climgp : ℚ) (w : Work) (s : Clip) (i : Nat)
    (hg : w.denum i > climgp * w.denom i) :
    (clip_step_0 climgp w s i).n_clip = s.n_clip + 1
      ∧ (clip_step_0 climgp w s i).min_factor
          = min (climgp * w.denom i / w.denum i) s.min_factor
      ∧ (clip_step_0 climgp w s i).max_factor
          = max (climgp * w.denom i / w.denum i) s.max_factor := by
  unfold clip_step_0
  rw [if_pos hg]
  exact ⟨rfl, rfl, rfl⟩

/-- The part of C26 that holds, mode 0: after the loop on the first `n` cells, `n_clip`
is the number of cells with `denum[i] > climgp*denom[i]`, `min_factor` the minimum of 1
and of the factors applied to those cells, `max_factor` the maximum of 0 and of those
factors. -/
theorem clip_0_diagnostics (climgp : ℚ) (w : Work) (dpdx dpdy dpdz : Buf) (n : Nat) :
    ((List.range n).foldl (clip_step_0 climgp w) (clip_init dpdx dpdy dpdz)).n_clip
        = ((List.range n).filter
            (fun i => decide (w.denum i > climgp * w.denom i))).length
      ∧ ((List.range n).foldl (clip_step_0 climgp w) (clip_init dpdx dpdy dpdz)).min_factor
        = (((List.range n).filter
            (fun i => decide (w.denum i > climgp * w.denom i))).map
              (fun i => climgp * w.denom i / w.denum i)).foldl (fun m f => min f m) 1
      ∧ ((List.range n).foldl (clip_step_0 climgp w) (clip_init dpdx dpdy dpdz)).max_factor
        = (((List.range n).filter
            (fun i => decide (w.denum i > climgp * w.denom i))).map
              (fun i => climgp * w.denom i / w.denum i)).foldl (fun m f => max f m) 0 := by
  induction n with
  | zero => exact ⟨rfl, rfl, rfl⟩
  | succ n ih =>
    rw [List.range_succ, List.foldl_append, List.filter_append]
    simp only [List.foldl_cons, List.foldl_nil]
    by_cases hg : w.denum n > climgp * w.denom n
    · have hf : List.filter (fun i => decide (w.denum i > climgp * w.denom i)) [n] = [n] := by
        simp [hg]
      rw [hf, List.map_append, List.foldl_append, List.foldl_append, List.length_append]
      simp only [List.map_cons, List.map_nil, List.foldl_cons, List.foldl_nil,
        List.length_singleton]
      rw [← ih.1, ← ih.2.1, ← ih.2.2]
      exact clip_step_0_counters climgp w _ n hg
    · have hf : List.filter (fun i => decide (w.denum i > climgp * w.denom i)) [n] = [] := by
        simp [hg]
      rw [hf, List.append_nil]
      have hs : clip_step_0 climgp w
          ((List.range n).foldl (clip_step_0 climgp w) (clip_init dpdx dpdy dpdz)) n
          = (List.range n).foldl (clip_step_0 climgp w) (clip_init dpdx dpdy dpdz) := by
        unfold clip_step_0
        simp only [if_neg hg]
      rw [hs]
      exact ih

/-! ## Checkpoint and restart of the face values -/

/-- C27 (defect of the code): one interior face and one boundary face, face values
`1, 2, 3` on the interior face and `4, 5, 6` on the boundary face, written by
`cs_cdofb_vecteq_write_restart` to an empty restart file and read back by
`cs_cdofb_vecteq_read_restart` into an array of zeros, for any name of equation.  The
write gives 3 values per entity for both sections; the read checks the section of the
boundary faces with 1 value per entity, the check fails, the section is not read and the
values of the boundary face stay 0. -/
theorem restart_boundary_faces_not_restored (eqname : String) :
    ∃ s1 s2,
      cs_cdofb_vecteq_write_restart (list_service 1 1) 1 (some []) (some eqname)
          (fun i => (i : ℚ) + 1) [] = some (some s1)
      ∧ cs_cdofb_vecteq_read_restart (list_service 1 1) 1 (some s1.restart) (some eqname)
          (some (fun _ => 0)) [] = some (some s2)
      ∧ s1.calls
          = [⟨"cs_restart_write_section", section_name eqname "::i_face_vals", 2, 3⟩,
             ⟨"cs_restart_write_section", section_name eqname "::b_face_vals", 3, 3⟩]
      ∧ s2.calls
          = [⟨"cs_restart_check_section", section_name eqname "::i_face_vals", 2, 3⟩,
             ⟨"cs_restart_read_section", section_name eqname "::i_face_vals", 2, 3⟩,
             ⟨"cs_restart_check_section", section_name eqname "::b_face_vals", 3, 1⟩]
      ∧ (∀ i, i < 3 → s2.face_values i = (i : ℚ) + 1)
      ∧ (∀ i, 3 ≤ i → s2.face_values i = 0) := by
  have hi : (list_service 1 1).cs_mesh_location_get_id_by_name "interior_faces" = 2 := by
    decide
  have hb : (list_service 1 1).cs_mesh_location_get_id_by_name "boundary_faces" = 3 := by
    decide
  unfold cs_cdofb_vecteq_write_restart cs_cdofb_vecteq_read_restart
  simp only [hi, hb]
  generalize section_name eqname "::i_face_vals" = ni
  generalize section_name eqname "::b_face_vals" = nb
  refine ⟨_, _, rfl, rfl, ?_, ?_, ?_, ?_⟩
  · rfl
  · simp [check_and_read, write_section, list_service]
  · intro i hi3
    simp [check_and_read, write_section, list_service, hi3]
  · intro i hi3
    have : ¬ i < 3 := by omega
    simp [check_and_read, write_section, list_service, this]

/-! ## Reading a section of a restart file -/

/-- The loop `find_from` stops at the first record that fits. -/
theorem find_from_eq (fits : cs_io_sec_header_t → Bool) (l : List cs_io_sec_header_t)
    (rec_id : Nat) : find_from fits l rec_id = rec_id + l.findIdx fits := by
  induction l generalizing rec_id with
  | nil => simp [find_from]
  | cons h l ih =>
    rw [find_from, List.findIdx_cons]
    by_cases hf : fits h = true
    · simp [hf]
    · simp only [hf, ih]
      simp
      omega

/-- The first element of a list that fits is the one at the index `findIdx`. -/
theorem find_eq_get_findIdx (fits : cs_io_sec_header_t → Bool)
    (l : List cs_io_sec_header_t) : l.get? (l.findIdx fits) = l.find? fits := by
  induction l with
  | nil => simp
  | cons h l ih =>
    rw [List.findIdx_cons, List.find?_cons]
    by_cases hf : fits h = true
    · simp [hf]
    · have hf2 : fits h = false := by simpa using hf
      simp only [hf2, cond_false, List.get?_cons_succ, ih]

/-- When no element before the index `m` fits, the search may start at `m`. -/
theorem findIdx_from (fits : cs_io_sec_header_t → Bool) (l : List cs_io_sec_header_t)
    (m : Nat) (hm : m ≤ l.length) (h : ∀ x ∈ l.take m, fits x = false) :
    l.findIdx fits = m + (l.drop m).findIdx fits := by
  conv_lhs => rw [← List.take_append_drop m l]
  rw [List.findIdx_append, List.findIdx_eq_length_of_false h]
  have hl : (l.take m).length = m := by simp [hm]
  simp [hl, Nat.add_comm]

/-- The record at which the two loops of `cs_suite_lit_rub` stop, when a record has the
name `nom_rub`: the first record of the index that has the name and the location. -/
theorem lit_rub_search (index : List cs_io_sec_header_t) (nom_rub : String)
    (location_id : Int) (header0 : cs_io_sec_header_t)
    (h0 : index.get? (find_name index nom_rub 0) = some header0) :
    (if (header0.location_id : Int) ≠ location_id then
        find_name_location index nom_rub location_id (find_name index nom_rub 0 + 1)
      else find_name index nom_rub 0)
      = index.findIdx
          (fun h => decide (h.sec_name = nom_rub ∧ (h.location_id : Int) = location_id)) := by
  have hk : find_name index nom_rub 0
      = index.findIdx (fun h => decide (h.sec_name = nom_rub)) := by
    simp [find_name, find_from_eq]
  rw [hk] at h0 ⊢
  have hname : header0.sec_name = nom_rub := by
    have h0b : index[index.findIdx (fun h => decide (h.sec_name = nom_rub))]? = some header0 := by
      rw [← List.get?_eq_getElem?]
      exact h0
    simpa using List.findIdx_of_getElem?_eq_some h0b
  have hlt : index.findIdx (fun h => decide (h.sec_name = nom_rub)) < index.length := by
    by_contra hge
    rw [List.get?_eq_none.mpr (by omega)] at h0
    exact Option.noConfusion h0
  have hbefore : ∀ x ∈ index.take (index.findIdx (fun h => decide (h.sec_name = nom_rub))),
      decide (x.sec_name = nom_rub ∧ (x.location_id : Int) = location_id) = false := by
    intro x hx
    obtain ⟨i, hi, rfl⟩ := List.mem_iff_getElem.mp hx
    have hi2 : i < index.findIdx (fun h => decide (h.sec_name = nom_rub)) := by
      simpa using (List.length_take_le _ _ |> Nat.lt_of_lt_of_le hi)
    have := List.not_of_lt_findIdx hi2
    simp only [List.getElem_take]
    simpa using fun hn => absurd hn (by simpa using this)
  by_cases hl : (header0.location_id : Int) = location_id
  · rw [if_neg (by simpa using hl)]
    rw [findIdx_from _ index _ (Nat.le_of_lt hlt) hbefore]
    have hd : index.drop (index.findIdx (fun h => decide (h.sec_name = nom_rub)))
        = header0 :: index.drop (index.findIdx (fun h => decide (h.sec_name = nom_rub)) + 1) := by
      rw [List.drop_eq_getElem_cons hlt]
      congr 1
      rw [List.get?_eq_getElem?, List.getElem?_eq_getElem hlt] at h0
      exact Option.some.inj h0
    rw [hd, List.findIdx_cons]
    simp [hname, hl]
  · rw [if_pos hl]
    unfold find_name_location
    rw [find_from_eq]
    symm
    apply findIdx_from _ index _ hlt
    intro x hx
    rw [List.take_succ, List.mem_append] at hx
    rcases hx with hx | hx
    · exact hbefore x hx
    · rw [← List.get?_eq_getElem?, h0] at hx
      simp at hx
      subst hx
      simp [hl]

/-- The check of the type fails exactly for a record of integers not read as integers and
for a record of reals not read as reals. -/
theorem check_elt_type_none_iff (ext : lit_rub_externals) (header : cs_io_sec_header_t)
    (typ_val : cs_type_t) :
    check_elt_type ext header typ_val = none
      ↔ ((header.elt_type = fvm_datatype_t.FVM_INT32
            ∨ header.elt_type = fvm_datatype_t.FVM_INT64)
          ∧ typ_val ≠ cs_type_t.CS_TYPE_cs_int_t)
        ∨ ((header.elt_type = fvm_datatype_t.FVM_FLOAT
            ∨ header.elt_type = fvm_datatype_t.FVM_DOUBLE)
          ∧ typ_val ≠ cs_type_t.CS_TYPE_cs_real_t) := by
  unfold check_elt_type
  by_cases hi : header.elt_type = fvm_datatype_t.FVM_INT32
      ∨ header.elt_type = fvm_datatype_t.FVM_INT64
  · have hf : ¬ (header.elt_type = fvm_datatype_t.FVM_FLOAT
        ∨ header.elt_type = fvm_datatype_t.FVM_DOUBLE) := by
      rcases hi with hi | hi <;> rw [hi] <;> decide
    rw [if_pos hi]
    by_cases ht : typ_val = cs_type_t.CS_TYPE_cs_int_t
    · simp [ht, hi, hf]
    · simp [ht, hi]
  · rw [if_neg hi]
    by_cases hf : header.elt_type = fvm_datatype_t.FVM_FLOAT
        ∨ header.elt_type = fvm_datatype_t.FVM_DOUBLE
    · rw [if_pos hf]
      by_cases ht : typ_val = cs_type_t.CS_TYPE_cs_real_t
      · simp [ht, hi, hf]
      · simp [ht, hf]
    · rw [if_neg hf]
      simp [hi, hf]

/-- First return of `cs_suite_lit_rub`: `CS_SUITE_ERR_SUPPORT`, with `val` as it was,
when `location_id` is neither 0 nor a location of the file whose number of entities is
the one of the mesh. -/
theorem lit_rub_support (ext : lit_rub_externals) (suite : cs_suite_t) (nom_rub : String)
    (location_id : Int) (n_location_vals : Nat) (typ_val : cs_type_t) (buf val : Nat → ℚ)
    (h : ¬ (location_id = 0
        ∨ (0 < location_id ∧ location_id ≤ (suite.n_locations : Int)
            ∧ (suite.location (location_id - 1).toNat).n_glob_ents_f
                = (suite.location (location_id - 1).toNat).n_glob_ents))) :
    cs_suite_lit_rub ext suite nom_rub location_id n_location_vals typ_val buf val
      = (cs_suite_err.CS_SUITE_ERR_SUPPORT, val) := by
  unfold cs_suite_lit_rub
  by_cases h1 : location_id ≠ 0
      ∧ (location_id < 0 ∨ location_id > (suite.n_locations : Int))
  · simp only [if_pos h1]
  · have h2 : location_id ≠ 0
        ∧ (suite.location (location_id - 1).toNat).n_glob_ents_f
            ≠ (suite.location (location_id - 1).toNat).n_glob_ents := by
      refine ⟨fun h0 => h (Or.inl h0), fun he => h (Or.inr ⟨?_, ?_, he⟩)⟩
      · by_contra hn
        exact h1 ⟨fun h0 => h (Or.inl h0), Or.inl (by
          have : location_id ≠ 0 := fun h0 => h (Or.inl h0)
          omega)⟩
      · by_contra hn
        exact h1 ⟨fun h0 => h (Or.inl h0), Or.inr (by omega)⟩
    simp only [if_neg h1, if_pos h2]

/-- When no record of the index has the name `nom_rub`, the first loop of
`cs_suite_lit_rub` ends at the size of the index. -/
theorem find_name_none (index : List cs_io_sec_header_t) (nom_rub : String)
    (hno : ∀ h ∈ index, h.sec_name ≠ nom_rub) : find_name index nom_rub 0 = index.length := by
  have : find_name index nom_rub 0
      = index.findIdx (fun h => decide (h.sec_name = nom_rub)) := by
    simp [find_name, find_from_eq]
  rw [this]
  apply List.findIdx_eq_length_of_false
  intro x hx
  simpa using hno x hx

/-- When a record of the index has the name `nom_rub`, the first loop of
`cs_suite_lit_rub` stops at a record of the index. -/
theorem find_name_some (index : List cs_io_sec_header_t) (nom_rub : String)
    (hex : ∃ h ∈ index, h.sec_name = nom_rub) :
    find_name index nom_rub 0 < index.length
      ∧ ∃ header0, index.get? (find_name index nom_rub 0) = some header0 := by
  have hk : find_name index nom_rub 0
      = index.findIdx (fun h => decide (h.sec_name = nom_rub)) := by
    simp [find_name, find_from_eq]
  have hlt : find_name index nom_rub 0 < index.length := by
    rw [hk]
    apply List.findIdx_lt_length_of_exists
    obtain ⟨h, hm, hn⟩ := hex
    exact ⟨h, hm, by simpa using hn⟩
  refine ⟨hlt, index.get ⟨_, hlt⟩, ?_⟩
  exact List.get?_eq_get hlt

/-- Second return of `cs_suite_lit_rub`: `CS_SUITE_ERR_EXISTE`, with `val` as it was,
when the location passes and no record of the index has the name `nom_rub`. -/
theorem lit_rub_existe (ext : lit_rub_externals) (suite : cs_suite_t) (nom_rub : String)
    (location_id : Int) (n_location_vals : Nat) (typ_val : cs_type_t) (buf val : Nat → ℚ)
    (h : location_id = 0
        ∨ (0 < location_id ∧ location_id ≤ (suite.n_locations : Int)
            ∧ (suite.location (location_id - 1).toNat).n_glob_ents_f
                = (suite.location (location_id - 1).toNat).n_glob_ents))
    (hno : ∀ h ∈ suite.index, h.sec_name ≠ nom_rub) :
    cs_suite_lit_rub ext suite nom_rub location_id n_location_vals typ_val buf val
      = (cs_suite_err.CS_SUITE_ERR_EXISTE, val) := by
  have h1 : ¬ (location_id ≠ 0
      ∧ (location_id < 0 ∨ location_id > (suite.n_locations : Int))) := by
    rintro ⟨hn, hr⟩
    rcases h with h | h
    · exact hn h
    · omega
  have h2 : ¬ (location_id ≠ 0
      ∧ (suite.location (location_id - 1).toNat).n_glob_ents_f
          ≠ (suite.location (location_id - 1).toNat).n_glob_ents) := by
    rintro ⟨hn, hr⟩
    rcases h with h | h
    · exact hn h
    · exact hr h.2.2
  unfold cs_suite_lit_rub
  simp only [if_neg h1, if_neg h2, find_name_none suite.index nom_rub hno]
  rw [if_pos (Nat.le_refl _)]

/-- The returns of `cs_suite_lit_rub` once the location passes and a record of the index
has the name `nom_rub`, in terms of the first record of the index with the name and the
location. -/
theorem lit_rub_core (ext : lit_rub_externals) (suite : cs_suite_t) (nom_rub : String)
    (location_id : Int) (n_location_vals : Nat) (typ_val : cs_type_t) (buf val : Nat → ℚ)
    (h : location_id = 0
        ∨ (0 < location_id ∧ location_id ≤ (suite.n_locations : Int)
            ∧ (suite.location (location_id - 1).toNat).n_glob_ents_f
                = (suite.location (location_id - 1).toNat).n_glob_ents))
    (hex : ∃ h ∈ suite.index, h.sec_name = nom_rub) :
    cs_suite_lit_rub ext suite nom_rub location_id n_location_vals typ_val buf val
      = match suite.index.find? (fun h => decide (h.sec_name = nom_rub
            ∧ (h.location_id : Int) = location_id)) with
        | none => (cs_suite_err.CS_SUITE_ERR_SUPPORT, val)
        | some header =>
          if (header.location_id > 0 ∧ header.n_location_vals ≠ n_location_vals)
              ∨ (header.location_id = 0
                  ∧ header.n_vals ≠ (if location_id = 0 then n_location_vals
                      else (suite.location (location_id - 1).toNat).n_ents)) then
            (cs_suite_err.CS_SUITE_ERR_NBR_VAL, val)
          else
            match check_elt_type ext header typ_val with
            | none => (cs_suite_err.CS_SUITE_ERR_TYPE_VAL, val)
            | some header1 =>
              if ext.cs_glob_base_nbr = 1 ∨ location_id = 0 then
                (cs_suite_err.CS_SUITE_SUCCES,
                 _restart_permute_read
                   (if location_id = 0 then n_location_vals
                    else (suite.location (location_id - 1).toNat).n_ents)
                   (if location_id = 0 then none
                    else (suite.location (location_id - 1).toNat).ent_global_num)
                   (if location_id = 0 then 1 else n_location_vals) typ_val buf
                   (ext.cs_io_read_global header1
                     (suite.index.findIdx (fun h => decide (h.sec_name = nom_rub
                        ∧ (h.location_id : Int) = location_id))) val))
              else
                (cs_suite_err.CS_SUITE_SUCCES,
                 ext._read_ent_values header1
                   (suite.index.findIdx (fun h => decide (h.sec_name = nom_rub
                      ∧ (h.location_id : Int) = location_id))) val) := by
  have h1 : ¬ (location_id ≠ 0
      ∧ (location_id < 0 ∨ location_id > (suite.n_locations : Int))) := by
    rintro ⟨hn, hr⟩
    rcases h with h | h
    · exact hn h
    · omega
  have h2 : ¬ (location_id ≠ 0
      ∧ (suite.location (location_id - 1).toNat).n_glob_ents_f
          ≠ (suite.location (location_id - 1).toNat).n_glob_ents) := by
    rintro ⟨hn, hr⟩
    rcases h with h | h
    · exact hn h
    · exact hr h.2.2
  obtain ⟨hlt, header0, h0⟩ := find_name_some suite.index nom_rub hex
  have hs := lit_rub_search suite.index nom_rub location_id header0 h0
  unfold cs_suite_lit_rub
  simp only [if_neg h1, if_neg h2, if_neg (Nat.not_le.mpr hlt), h0, hs]
  rw [← find_eq_get_findIdx]
  by_cases hk : suite.index.findIdx (fun h => decide (h.sec_name = nom_rub
      ∧ (h.location_id : Int) = location_id)) < suite.index.length
  · rw [if_neg (Nat.not_le.mpr hk)]
  · rw [if_pos (Nat.not_lt.mp hk), List.get?_eq_none.mpr (Nat.not_lt.mp hk)]

/-- The other returns of `cs_suite_lit_rub`, once the location passes and a record of the
index has the name `nom_rub`: `CS_SUITE_ERR_SUPPORT` when no record has the name and the
location; for the first record `header` that has both, `CS_SUITE_ERR_NBR_VAL` when its
number of values differs, then `CS_SUITE_ERR_TYPE_VAL` when it holds integers not read as
integers or reals not read as reals, and `CS_SUITE_SUCCES` in every other case.  On the
three errors `val` is as it was. -/
theorem lit_rub_return_code (ext : lit_rub_externals) (suite : cs_suite_t)
    (nom_rub : String) (location_id : Int) (n_location_vals : Nat) (typ_val : cs_type_t)
    (buf val : Nat → ℚ)
    (h : location_id = 0
        ∨ (0 < location_id ∧ location_id ≤ (suite.n_locations : Int)
            ∧ (suite.location (location_id - 1).toNat).n_glob_ents_f
                = (suite.location (location_id - 1).toNat).n_glob_ents))
    (hex : ∃ h ∈ suite.index, h.sec_name = nom_rub) :
    (suite.index.find? (fun h => decide (h.sec_name = nom_rub
          ∧ (h.location_id : Int) = location_id)) = none →
        cs_suite_lit_rub ext suite nom_rub location_id n_location_vals typ_val buf val
          = (cs_suite_err.CS_SUITE_ERR_SUPPORT, val))
    ∧ ∀ header, suite.index.find? (fun h => decide (h.sec_name = nom_rub
          ∧ (h.location_id : Int) = location_id)) = some header →
        ((header.location_id > 0 ∧ header.n_location_vals ≠ n_location_vals)
            ∨ (header.location_id = 0
                ∧ header.n_vals ≠ (if location_id = 0 then n_location_vals
                    else (suite.location (location_id - 1).toNat).n_ents)) →
          cs_suite_lit_rub ext suite nom_rub location_id n_location_vals typ_val buf val
            = (cs_suite_err.CS_SUITE_ERR_NBR_VAL, val))
        ∧ (¬ ((header.location_id > 0 ∧ header.n_location_vals ≠ n_location_vals)
            ∨ (header.location_id = 0
                ∧ header.n_vals ≠ (if location_id = 0 then n_location_vals
                    else (suite.location (location_id - 1).toNat).n_ents))) →
          (((header.elt_type = fvm_datatype_t.FVM_INT32
                ∨ header.elt_type = fvm_datatype_t.FVM_INT64)
              ∧ typ_val ≠ cs_type_t.CS_TYPE_cs_int_t)
            ∨ ((header.elt_type = fvm_datatype_t.FVM_FLOAT
                ∨ header.elt_type = fvm_datatype_t.FVM_DOUBLE)
              ∧ typ_val ≠ cs_type_t.CS_TYPE_cs_real_t) →
            cs_suite_lit_rub ext suite nom_rub location_id n_location_vals typ_val buf val
              = (cs_suite_err.CS_SUITE_ERR_TYPE_VAL, val))
          ∧ (¬ (((header.elt_type = fvm_datatype_t.FVM_INT32
                ∨ header.elt_type = fvm_datatype_t.FVM_INT64)
              ∧ typ_val ≠ cs_type_t.CS_TYPE_cs_int_t)
            ∨ ((header.elt_type = fvm_datatype_t.FVM_FLOAT
                ∨ header.elt_type = fvm_datatype_t.FVM_DOUBLE)
              ∧ typ_val ≠ cs_type_t.CS_TYPE_cs_real_t)) →
            (cs_suite_lit_rub ext suite nom_rub location_id n_location_vals typ_val
                buf val).1 = cs_suite_err.CS_SUITE_SUCCES)) := by
  have hc := lit_rub_core ext suite nom_rub location_id n_location_vals typ_val buf val h hex
  refine ⟨fun hn => ?_, fun header hf => ⟨fun hb => ?_, fun hb => ⟨fun ht => ?_, fun ht => ?_⟩⟩⟩
  · rw [hc, hn]
  · rw [hc, hf]
    simp only [if_pos hb]
  · rw [hc, hf]
    simp only [if_neg hb, (check_elt_type_none_iff ext header typ_val).mpr ht]
  · rw [hc, hf]
    simp only [if_neg hb]
    have hne : check_elt_type ext header typ_val ≠ none :=
      fun hn => ht ((check_elt_type_none_iff ext header typ_val).mp hn)
    obtain ⟨header1, h1⟩ := Option.ne_none_iff_exists'.mp hne
    simp only [h1]
    split <;> rfl

/-- C23 (defect of the code): on a restart file with the location "cells", reading the
section "cells" at the location 1 with 0 value per entity as integers finds the record
of the location, whose values are of type `FVM_UINT64`: no type matches, and yet
`cs_suite_lit_rub` returns `CS_SUITE_SUCCES` and writes in `val`.  The same call for
reals does the same. -/
theorem lit_rub_unsigned_record :
    cs_suite_lit_rub ext_lit suite_cells "cells" 1 0 cs_type_t.CS_TYPE_cs_int_t
        (fun _ => 0) (fun _ => 0)
      = (cs_suite_err.CS_SUITE_SUCCES, fun i => if i < 1 then 7 else 0)
    ∧ cs_suite_lit_rub ext_lit suite_cells "cells" 1 0 cs_type_t.CS_TYPE_cs_real_t
        (fun _ => 0) (fun _ => 0)
      = (cs_suite_err.CS_SUITE_SUCCES, fun i => if i < 1 then 7 else 0) := by
  constructor <;> rfl

/-! ## The least-squares gradient -/

/-- The loop of `cs_medcoupling_remapper_find_time_index` stops at an index of the list
that fits, when there is one. -/
theorem find_time_loop_found (time_steps : Int → ℚ) (t : ℚ) (id1 id2 : Int) (l : List Nat)
    (h : ∃ i ∈ l, t ≥ time_steps (i : Int) ∧ t < time_steps ((i : Int) + 1)) :
    ∃ i ∈ l, find_time_loop time_steps t id1 id2 l = ((i : Int), (i : Int) + 1)
      ∧ time_steps (i : Int) ≤ t ∧ t < time_steps ((i : Int) + 1) := by
  induction l with
  | nil =>
    obtain ⟨i, hi, _⟩ := h
    exact absurd hi (List.not_mem_nil i)
  | cons a l ih =>
    by_cases ha : t ≥ time_steps (a : Int) ∧ t < time_steps ((a : Int) + 1)
    · refine ⟨a, List.mem_cons_self a l, ?_, ha.1, ha.2⟩
      simp only [find_time_loop, if_pos ha]
    · obtain ⟨i, hi, hc⟩ := h
      rcases List.mem_cons.mp hi with rfl | hil
      · exact absurd hc ha
      · obtain ⟨j, hj, hres, hle, hlt⟩ := ih ⟨i, hil, hc⟩
        refine ⟨j, List.mem_cons_of_mem a hj, ?_, hle, hlt⟩
        simp only [find_time_loop, if_neg ha]
        exact hres

/-- A time between the first stored time and the stored time `m` lies in one of the
intervals before `m`. -/
theorem time_interval_exists (time_steps : Int → ℚ) (t : ℚ) (m : Nat)
    (h0 : time_steps 0 ≤ t) (hm : t < time_steps (m : Int)) :
    ∃ i, i < m ∧ t ≥ time_steps (i : Int) ∧ t < time_steps ((i : Int) + 1) := by
  induction m with
  | zero =>
    have : time_steps ((0 : Nat) : Int) = time_steps 0 := rfl
    rw [this] at hm
    exact absurd hm (not_lt.mpr h0)
  | succ m ih =>
    by_cases hlt : t < time_steps (m : Int)
    · obtain ⟨i, hi, hc⟩ := ih hlt
      exact ⟨i, Nat.lt_succ_of_lt hi, hc⟩
    · refine ⟨m, Nat.lt_succ_self m, not_lt.mp hlt, ?_⟩
      have : ((m + 1 : Nat) : Int) = (m : Int) + 1 := by push_cast; rfl
      rw [this] at hm
      exact hm

/-- The part of C24 that holds: with at least one stored time, a time below the first
stored time gives `(0, 0)`, a time above the last one `(ntsteps-1, ntsteps-1)`, and a
time from the first stored time on and below the last one gives two indices `i`, `i+1`
of stored times around it. -/
theorem find_time_index_inside (ntsteps : Int) (time_steps : Int → ℚ) (t : ℚ)
    (id1 id2 : Int) (hn : 1 ≤ ntsteps) :
    (t < time_steps 0 →
      cs_medcoupling_remapper_find_time_index ntsteps time_steps t id1 id2 = (0, 0))
    ∧ (time_steps 0 ≤ t → t > time_steps (ntsteps - 1) →
      cs_medcoupling_remapper_find_time_index ntsteps time_steps t id1 id2
        = (ntsteps - 1, ntsteps - 1))
    ∧ (time_steps 0 ≤ t → t < time_steps (ntsteps - 1) →
      ∃ i : Nat, (i : Int) + 1 < ntsteps
        ∧ cs_medcoupling_remapper_find_time_index ntsteps time_steps t id1 id2
            = ((i : Int), (i : Int) + 1)
        ∧ time_steps (i : Int) ≤ t ∧ t < time_steps ((i : Int) + 1)) := by
  refine ⟨fun h => ?_, fun h0 h1 => ?_, fun h0 h1 => ?_⟩
  · simp only [cs_medcoupling_remapper_find_time_index, if_pos h]
  · simp only [cs_medcoupling_remapper_find_time_index, if_neg (not_lt.mpr h0), if_pos h1]
  · have hm : (((ntsteps - 1).toNat : Nat) : Int) = ntsteps - 1 :=
      Int.toNat_of_nonneg (by omega)
    have h1m : t < time_steps (((ntsteps - 1).toNat : Nat) : Int) := by rw [hm]; exact h1
    obtain ⟨i, hi, hc⟩ := time_interval_exists time_steps t (ntsteps - 1).toNat h0 h1m
    obtain ⟨j, hj, hres, hle, hlt⟩ := find_time_loop_found time_steps t id1 id2
      (List.range (ntsteps - 1).toNat) ⟨i, List.mem_range.mpr hi, hc⟩
    have hjlt := List.mem_range.mp hj
    refine ⟨j, by omega, ?_, hle, hlt⟩
    simp only [cs_medcoupling_remapper_find_time_index, if_neg (not_lt.mpr h0),
      if_neg (not_lt.mpr (le_of_lt h1))]
    exact hres

end CS
